import Mathlib

/-!
Psi micro testing framework: filter matcher and execution engine

Shallow embedding of `psi/psi.h`.

* C strings are lists of characters; the terminating NUL is implicit and is
  what a read at (or past) the end of the list returns.  A list is a
  well-formed C string when it holds no NUL character (`IsCStr`).
* Cursors (`const char*` into a string) are indices into the list.
* `int` values are `Int`; `psi_u64` / `psi_ull` counters are `Nat` reduced
  modulo `2 ^ 64` where the source does arithmetic on them.
* Loops whose termination is not structural carry a fuel argument and
  return `none` when it runs out.
-/

namespace Psi

/-! ## Strings -/

/-- The macro `PSI_NULLCHAR` of `types.h`. -/
def PSI_NULLCHAR : Char := Char.ofNat 0

/-- Dereference of cursor `i` in the NUL-terminated string `s`. -/
def charAt (s : List Char) (i : Nat) : Char := s.getD i PSI_NULLCHAR

/-- A list of characters is the content of a C string: no embedded NUL. -/
def IsCStr (s : List Char) : Prop := PSI_NULLCHAR ∉ s

instance (s : List Char) : Decidable (IsCStr s) := by
  unfold IsCStr; infer_instance

/-! ## Filter matcher (`psiShouldFilterTest`, psi.h 920-977) -/

/-- The inner `while` of `psiShouldFilterTest` (psi.h 935-950), entered after a
wildcard stored at index `wildcard`.  Returns the two cursors at loop exit. -/
def innerLoop (filter testcase : List Char) (wildcard : Nat) :
    Nat → Nat → Nat → Option (Nat × Nat)
  | 0, _, _ => none
  | fuel + 1, filter_curr, testcase_curr =>
    if charAt filter filter_curr ≠ PSI_NULLCHAR ∧ charAt testcase testcase_curr ≠ PSI_NULLCHAR then
      if charAt filter filter_curr = '*' then
        some (filter_curr, testcase_curr)
      else if charAt filter filter_curr ≠ charAt testcase testcase_curr then
        innerLoop filter testcase wildcard fuel (wildcard + 1) (testcase_curr + 1)
      else
        innerLoop filter testcase wildcard fuel (filter_curr + 1) (testcase_curr + 1)
    else some (filter_curr, testcase_curr)

/-- The outer `while` of `psiShouldFilterTest` (psi.h 927-968) followed by the
final mismatch test (psi.h 970-976).  Returns the `int` result. -/
def outerLoop (filter testcase : List Char) : Nat → Nat → Nat → Option Int
  | 0, _, _ => none
  | fuel + 1, filter_curr, testcase_curr =>
    if charAt filter filter_curr ≠ PSI_NULLCHAR ∧ charAt testcase testcase_curr ≠ PSI_NULLCHAR then
      if charAt filter filter_curr = '*' then
        match innerLoop filter testcase filter_curr (testcase.length + 1)
            (filter_curr + 1) testcase_curr with
        | none => none
        | some (fc, tc) =>
          if charAt filter fc = PSI_NULLCHAR ∧ charAt testcase tc = PSI_NULLCHAR then some 0
          else if charAt testcase tc = PSI_NULLCHAR then some 1
          else outerLoop filter testcase fuel fc tc
      else
        if charAt testcase testcase_curr ≠ charAt filter filter_curr then some 1
        else outerLoop filter testcase fuel (filter_curr + 1) (testcase_curr + 1)
    else
      if charAt filter filter_curr ≠ PSI_NULLCHAR ∨
          (charAt testcase testcase_curr = PSI_NULLCHAR ∧
            (filter_curr = 0 ∨ charAt filter (filter_curr - 1) ≠ '*')) then some 1
      else some 0

/-- The function `psiShouldFilterTest(filter, testcase)`: `filter = none` is the
NULL pointer.  `some 0` means the test is run, `some 1` that it is skipped. -/
def psiShouldFilterTest (filter : Option (List Char)) (testcase : List Char) : Option Int :=
  match filter with
  | none => some 0
  | some f => outerLoop f testcase (f.length + testcase.length + 1) 0 0

/-- C library `strlen`: number of characters before the first NUL. -/
def strlen (s : List Char) : Nat := (s.takeWhile (fun c => c ≠ PSI_NULLCHAR)).length

/-- C library `strncmp(a, b, n)`: compares at most `n` characters, stopping at
the terminator; the result is zero exactly when no difference was found. -/
def strncmp : List Char → List Char → Nat → Int
  | _, _, 0 => 0
  | a, b, n + 1 =>
    if a.headD PSI_NULLCHAR ≠ b.headD PSI_NULLCHAR then
      ((a.headD PSI_NULLCHAR).toNat : Int) - ((b.headD PSI_NULLCHAR).toNat : Int)
    else if a.headD PSI_NULLCHAR = PSI_NULLCHAR then 0
    else strncmp a.tail b.tail n

/-- Reduction of a natural number to the range of `psi_u64` / `psi_ull`. -/
def u64 (n : Nat) : Nat := n % 2 ^ 64

/-- Subtraction of two `psi_u64` values. -/
def subU64 (a b : Nat) : Nat := (u64 a + 2 ^ 64 - u64 b) % 2 ^ 64

/-- The cast `PSI_CAST(int, x)` of a `psi_u64` to a 32-bit `int`. -/
def castInt (n : Nat) : Int :=
  if n % 2 ^ 32 < 2 ^ 31 then ((n % 2 ^ 32 : Nat) : Int) else ((n % 2 ^ 32 : Nat) : Int) - 2 ^ 32

/-! ## Data model -/

/-- A statement of a test body: an assertion of the CHECK family or of the
REQUIRE family together with the truth value of its condition when it is
evaluated, or a `WARN`. -/
inductive Stmt where
  | CHECK (cond : Bool)
  | REQUIRE (cond : Bool)
  | WARN
  deriving DecidableEq, Repr

/-- A registered test function (`psi_testsuite_t`): the function `TEST` defines,
or the wrapper `TEST_F` defines around set-up, run and tear-down. -/
inductive psi_testsuite_t where
  | test (body : List Stmt)
  | fixture (setup run teardown : List Stmt)
  deriving DecidableEq, Repr

/-- The struct `psiTestSuiteStruct`. -/
structure psiTestSuiteStruct where
  func : psi_testsuite_t
  name : List Char
  deriving DecidableEq, Repr

/-- An item of output: one formatted output call, or the consecutive calls that
print one message; durations and source locations are left out. -/
inductive Out where
  | location
  | assertionFailed (macroName : String)
  | warning
  | RUN (name : List Char)
  | OK (name : List Char)
  | FAILED (name : List Char)
  | suitesRan (n : Nat)
  | running (n : Nat)
  | passedCount (n : Nat)
  | failedCount (n : Nat)
  | summary (total ran warnings skipped failed : Nat)
  | failedLine (failed passed : Nat)
  | failedName (name : Option (List Char))
  | successLine (n : Nat)
  | noTestsWarning
  | listedName (name : List Char)
  | help
  | unrecognized (arg : List Char)
  | xmlHeader
  | testsuitesOpen (n : Nat)
  | testsuiteOpen (n : Nat)
  | testcaseOpen (name : List Char)
  | testcaseClose
  | testsuitesClose
  | negativeLength
  | expectedActual
  deriving DecidableEq, Repr

/-- The global state of a test program: `psiTestContext`, the globals of
`PSI_ONLY_GLOBALS`, the file-scope statics of psi.h, the two output streams,
and two observation fields (`invoked`: indices of the test functions called so
far; `executed`: statements of test bodies executed so far). -/
structure PsiState where
  tests : List psiTestSuiteStruct
  numTestSuites : Nat
  foutput : Option (List Out)
  checkIsInsideTestSuite : Int
  hasCurrentTestFailed : Int
  shouldFailTest : Int
  shouldAbortTest : Int
  psiStatsNumWarnings : Nat
  psiStatsTotalTestSuites : Nat
  psiStatsTestsRan : Nat
  psiStatsNumTestsFailed : Nat
  psiStatsSkippedTests : Nat
  psiStatsFailedTestSuites : List Nat
  psiStatsNumFailedTestSuites : Nat
  psiShouldColourizeOutput : Int
  psiDisableSummary : Int
  psiDisplayOnlyFailedOutput : Int
  psiDisplayTests : Int
  psi_argv0_ : Option (List Char)
  cmd_filter : Option (List Char)
  stdout : List Out
  invoked : List Nat
  executed : List Stmt
  deriving Repr

/-- What the environment answers: `isatty` on standard output and whether
`fopen` of a path for writing succeeds. -/
structure Env where
  isatty : Int
  fopenOk : List Char → Bool

/-- The state at program start-up, before any registration: the initial values
of the statics (psi.h 115-130), of `psiTestContext` (`{0, 0, 0}`) and of
`PSI_ONLY_GLOBALS`. -/
def initialState : PsiState where
  tests := []
  numTestSuites := 0
  foutput := none
  checkIsInsideTestSuite := 0
  hasCurrentTestFailed := 0
  shouldFailTest := 0
  shouldAbortTest := 0
  psiStatsNumWarnings := 0
  psiStatsTotalTestSuites := 0
  psiStatsTestsRan := 0
  psiStatsNumTestsFailed := 0
  psiStatsSkippedTests := 0
  psiStatsFailedTestSuites := []
  psiStatsNumFailedTestSuites := 0
  psiShouldColourizeOutput := 1
  psiDisableSummary := 0
  psiDisplayOnlyFailedOutput := 0
  psiDisplayTests := 0
  psi_argv0_ := none
  cmd_filter := none
  stdout := []
  invoked := []
  executed := []

/-! ## Registration (`TEST`, `TEST_F`) -/

/-- The array `psiTestContext.tests` after `psi_realloc` to `n` entries: the
first entries are kept, entries that are new hold the filler `d`. -/
def reallocTests (tests : List psiTestSuiteStruct) (n : Nat) (d : psiTestSuiteStruct) :
    List psiTestSuiteStruct :=
  tests.take n ++ List.replicate (n - tests.length) d

/-- The initializer `psi_register_..` that `TEST` and `TEST_F` define
(psi.h 862-875, 903-916), for the test function `func` and the name `name`. -/
def psi_register (func : psi_testsuite_t) (name : List Char) (s : PsiState) : PsiState :=
  let index := s.numTestSuites
  let n := u64 (s.numTestSuites + 1)
  { s with
    numTestSuites := n
    tests := (reallocTests s.tests n { func := func, name := [] }).set index
      { func := func, name := name } }

/-- Registration by `TEST(TESTSUITE, TESTNAME)`. -/
def TEST (suite case : List Char) (body : List Stmt) (s : PsiState) : PsiState :=
  psi_register (.test body) (suite ++ ['.'] ++ case) s

/-- Registration by `TEST_F(FIXTURE, NAME)`. -/
def TEST_F (fixtureName name : List Char) (setup run teardown : List Stmt) (s : PsiState) :
    PsiState :=
  psi_register (.fixture setup run teardown) (fixtureName ++ ['.'] ++ name) s

/-! ## Output helpers -/

/-- The calls `printf` and `psiColouredPrintf`: standard output only. -/
def printf (o : Out) (s : PsiState) : PsiState :=
  { s with stdout := s.stdout ++ [o] }

/-- The guarded call `if(psiTestContext.foutput) fprintf(psiTestContext.foutput, ..)`. -/
def fprintf (o : Out) (s : PsiState) : PsiState :=
  { s with foutput := s.foutput.map (fun f => f ++ [o]) }

/-- The macro `psiPrintf` (psi.h 418-422): the file when one is open, and
standard output. -/
def psiPrintf (o : Out) (s : PsiState) : PsiState :=
  printf o (fprintf o s)

/-! ## Assertions (psi.h 161-173, 778-795) -/

/-- The function `failIfInsideTestSuite__`. -/
def failIfInsideTestSuite__ (s : PsiState) : PsiState :=
  if s.checkIsInsideTestSuite = 1 then
    { s with hasCurrentTestFailed := 1, shouldFailTest := 1 }
  else s

/-- The function `abortIfInsideTestSuite__`. -/
def abortIfInsideTestSuite__ (s : PsiState) : PsiState :=
  if s.checkIsInsideTestSuite = 1 then
    { s with hasCurrentTestFailed := 1, shouldAbortTest := 1 }
  else s

/-- The function `incrementWarnings`. -/
def incrementWarnings (s : PsiState) : PsiState :=
  { s with psiStatsNumWarnings := u64 (s.psiStatsNumWarnings + 1) }

/-- The macro `__TAUCHECKREQUIRE__(cond, failOrAbort, macroName, ..)`.  The
boolean of the result tells whether the macro executed `return`. -/
def TAUCHECKREQUIRE (cond : Bool) (failOrAbort : PsiState → PsiState) (macroName : String)
    (s : PsiState) : PsiState × Bool :=
  if !cond then
    let s1 := failOrAbort (printf (.assertionFailed macroName) (psiPrintf .location s))
    if s1.shouldAbortTest ≠ 0 then (s1, true) else (s1, false)
  else (s, false)

/-- Execution of the statements of one function body, up to its end or to the
first `return` an assertion macro executes. -/
def runStmts : List Stmt → PsiState → PsiState
  | [], s => s
  | .CHECK cond :: rest, s =>
    let r := TAUCHECKREQUIRE cond failIfInsideTestSuite__ "CHECK"
      { s with executed := s.executed ++ [.CHECK cond] }
    if r.2 then r.1 else runStmts rest r.1
  | .REQUIRE cond :: rest, s =>
    let r := TAUCHECKREQUIRE cond abortIfInsideTestSuite__ "REQUIRE"
      { s with executed := s.executed ++ [.REQUIRE cond] }
    if r.2 then r.1 else runStmts rest r.1
  | .WARN :: rest, s =>
    runStmts rest (printf .warning (incrementWarnings { s with executed := s.executed ++ [.WARN] }))

/-- The call `psiTestContext.tests[i].func()`.  For a `TEST_F` wrapper
(psi.h 891-901): set-up, return when it failed, else run and tear-down. -/
def callFunc : psi_testsuite_t → PsiState → PsiState
  | .test body, s => runStmts body s
  | .fixture setup run teardown, s =>
    let s1 := runStmts setup s
    if s1.hasCurrentTestFailed = 1 then s1
    else runStmts teardown (runStmts run s1)

/-! ## Assertion macros with their control flow (psi.h 545-551, 662-710, 778-795) -/

/-- How control leaves a macro: it falls through to the next statement, it
executes `return` in the enclosing function, or the process is terminated. -/
inductive Flow where
  | next (s : PsiState)
  | ret (s : PsiState)
  | exit (s : PsiState)

/-- The state in which control leaves the macro. -/
def Flow.state : Flow → PsiState
  | .next s => s
  | .ret s => s
  | .exit s => s

/-- The process has been terminated. -/
def Flow.terminated : Flow → Bool
  | .exit _ => true
  | _ => false

/-- The macro `PSI_ABORT` (`exit(1)`, in C++ `std::abort()`). -/
def PSI_ABORT (s : PsiState) : Flow := .exit s

/-- The macro `PSI_FAIL_IF_INSIDE_TESTSUITE`, for a build with or without
`PSI_NO_TESTING` defined. -/
def PSI_FAIL_IF_INSIDE_TESTSUITE (PSI_NO_TESTING : Bool) (s : PsiState) : Flow :=
  if PSI_NO_TESTING then PSI_ABORT s else .next (failIfInsideTestSuite__ s)

/-- The macro `PSI_ABORT_IF_INSIDE_TESTSUITE`, for a build with or without
`PSI_NO_TESTING` defined. -/
def PSI_ABORT_IF_INSIDE_TESTSUITE (PSI_NO_TESTING : Bool) (s : PsiState) : Flow :=
  if PSI_NO_TESTING then PSI_ABORT s else .next (abortIfInsideTestSuite__ s)

/-- The end of every assertion macro: `failOrAbort; if(shouldAbortTest) { return; }`. -/
def failOrAbortThenReturn (failOrAbort : PsiState → Flow) (s : PsiState) : Flow :=
  match failOrAbort s with
  | .next s1 => if s1.shouldAbortTest ≠ 0 then .ret s1 else .next s1
  | .ret s1 => .ret s1
  | .exit s1 => .exit s1

/-- The macro `__TAUCHECKREQUIRE__(cond, failOrAbort, macroName, ..)` with its
control flow. -/
def __TAUCHECKREQUIRE__ (cond : Bool) (failOrAbort : PsiState → Flow) (macroName : String)
    (s : PsiState) : Flow :=
  if !cond then
    failOrAbortThenReturn failOrAbort (printf (.assertionFailed macroName) (psiPrintf .location s))
  else .next s

/-- The macro `CHECK(cond)`. -/
def CHECK (PSI_NO_TESTING : Bool) (cond : Bool) (s : PsiState) : Flow :=
  __TAUCHECKREQUIRE__ cond (PSI_FAIL_IF_INSIDE_TESTSUITE PSI_NO_TESTING) "CHECK" s

/-- The macro `REQUIRE(cond)`. -/
def REQUIRE (PSI_NO_TESTING : Bool) (cond : Bool) (s : PsiState) : Flow :=
  __TAUCHECKREQUIRE__ cond (PSI_ABORT_IF_INSIDE_TESTSUITE PSI_NO_TESTING) "REQUIRE" s

/-- The comparison operator an assertion macro applies to the result of
`strncmp` or `memcmp` and 0: the assertion fails when it holds. -/
inductive Cmp where
  | eq
  | ne
  deriving DecidableEq, Repr

/-- The comparison `v cond 0`. -/
def Cmp.holds : Cmp → Int → Bool
  | .eq, v => v == 0
  | .ne, v => v != 0

/-- The cast `PSI_CAST(int, n)` of an integer value to a 32-bit `int`. -/
def castIntOfInt (n : Int) : Int :=
  if n % 2 ^ 32 < 2 ^ 31 then n % 2 ^ 32 else n % 2 ^ 32 - 2 ^ 32

/-- The conversion of an integer value to `size_t`, as for the length argument
of `strncmp` and `memcmp`. -/
def sizeOfInt (n : Int) : Nat := (n % 2 ^ 64).toNat

/-- The macro `__TAUCMP_STRN__(actual, expected, n, cond, .., macroName, failOrAbort)`
(psi.h 685-710). -/
def __TAUCMP_STRN__ (actual expected : List Char) (n : Int) (cond : Cmp) (macroName : String)
    (failOrAbort : PsiState → Flow) (s : PsiState) : Flow :=
  if castIntOfInt n < 0 then PSI_ABORT (printf .negativeLength s)
  else if cond.holds (strncmp actual expected (sizeOfInt n)) then
    failOrAbortThenReturn failOrAbort
      (psiPrintf .expectedActual (printf (.assertionFailed macroName) (psiPrintf .location s)))
  else .next s

/-- The macro `CHECK_SUBSTREQ(actual, expected, n)`. -/
def CHECK_SUBSTREQ (PSI_NO_TESTING : Bool) (actual expected : List Char) (n : Int)
    (s : PsiState) : Flow :=
  __TAUCMP_STRN__ actual expected n .ne "CHECK_SUBSTREQ"
    (PSI_FAIL_IF_INSIDE_TESTSUITE PSI_NO_TESTING) s

/-- The macro `CHECK_SUBSTRNE(actual, expected, n)`. -/
def CHECK_SUBSTRNE (PSI_NO_TESTING : Bool) (actual expected : List Char) (n : Int)
    (s : PsiState) : Flow :=
  __TAUCMP_STRN__ actual expected n .eq "CHECK_SUBSTRNE"
    (PSI_FAIL_IF_INSIDE_TESTSUITE PSI_NO_TESTING) s

/-- The macro `REQUIRE_SUBSTREQ(actual, expected, n)`. -/
def REQUIRE_SUBSTREQ (PSI_NO_TESTING : Bool) (actual expected : List Char) (n : Int)
    (s : PsiState) : Flow :=
  __TAUCMP_STRN__ actual expected n .ne "REQUIRE_SUBSTREQ"
    (PSI_ABORT_IF_INSIDE_TESTSUITE PSI_NO_TESTING) s

/-- The macro `REQUIRE_SUBSTRNE(actual, expected, n)`. -/
def REQUIRE_SUBSTRNE (PSI_NO_TESTING : Bool) (actual expected : List Char) (n : Int)
    (s : PsiState) : Flow :=
  __TAUCMP_STRN__ actual expected n .eq "REQUIRE_SUBSTRNE"
    (PSI_ABORT_IF_INSIDE_TESTSUITE PSI_NO_TESTING) s

/-- The macro `__TAUCMP_BUF__(actual, expected, len, cond, .., macroName, failOrAbort)`
(psi.h 662-683).  The C library function `memcmp` is a parameter: on buffers and
a length in bytes it gives the `int` that the call returns. -/
def __TAUCMP_BUF__ (memcmp : List Nat → List Nat → Nat → Int) (actual expected : List Nat)
    (len : Int) (cond : Cmp) (macroName : String) (failOrAbort : PsiState → Flow)
    (s : PsiState) : Flow :=
  if cond.holds (memcmp actual expected (sizeOfInt len)) then
    failOrAbortThenReturn failOrAbort
      (psiPrintf .expectedActual (printf (.assertionFailed macroName) (psiPrintf .location s)))
  else .next s

/-- The macro `CHECK_BUF_EQ(actual, expected, n)`. -/
def CHECK_BUF_EQ (PSI_NO_TESTING : Bool) (memcmp : List Nat → List Nat → Nat → Int)
    (actual expected : List Nat) (n : Int) (s : PsiState) : Flow :=
  __TAUCMP_BUF__ memcmp actual expected n .ne "CHECK_BUF_EQ"
    (PSI_FAIL_IF_INSIDE_TESTSUITE PSI_NO_TESTING) s

/-- The macro `CHECK_BUF_NE(actual, expected, n)`. -/
def CHECK_BUF_NE (PSI_NO_TESTING : Bool) (memcmp : List Nat → List Nat → Nat → Int)
    (actual expected : List Nat) (n : Int) (s : PsiState) : Flow :=
  __TAUCMP_BUF__ memcmp actual expected n .eq "CHECK_BUF_NE"
    (PSI_FAIL_IF_INSIDE_TESTSUITE PSI_NO_TESTING) s

/-- The macro `REQUIRE_BUF_EQ(actual, expected, n)`. -/
def REQUIRE_BUF_EQ (PSI_NO_TESTING : Bool) (memcmp : List Nat → List Nat → Nat → Int)
    (actual expected : List Nat) (n : Int) (s : PsiState) : Flow :=
  __TAUCMP_BUF__ memcmp actual expected n .ne "REQUIRE_BUF_EQ"
    (PSI_ABORT_IF_INSIDE_TESTSUITE PSI_NO_TESTING) s

/-- The macro `REQUIRE_BUF_NE(actual, expected, n)`. -/
def REQUIRE_BUF_NE (PSI_NO_TESTING : Bool) (memcmp : List Nat → List Nat → Nat → Int)
    (actual expected : List Nat) (n : Int) (s : PsiState) : Flow :=
  __TAUCMP_BUF__ memcmp actual expected n .eq "REQUIRE_BUF_NE"
    (PSI_ABORT_IF_INSIDE_TESTSUITE PSI_NO_TESTING) s

/-- A state inside a running test: the initial state with
`checkIsInsideTestSuite` set as `psiRunTests` sets it. -/
def insideTestState : PsiState := { initialState with checkIsInsideTestSuite := 1 }

/-- A `memcmp` that reports a difference whatever it is given. -/
def memcmpDiffers : List Nat → List Nat → Nat → Int := fun _ _ _ => 1

/-! ## Command line (`psiCmdLineRead`, psi.h 1020-1090) -/

/-- The loop `for (i = 0; i < numTestSuites; i++) psiPrintf("%s\n", tests[i].name)`
of the `--list` branch, `k` iterations from index `i`; `none` when an index is
outside the array. -/
def listTests : Nat → Nat → PsiState → Option PsiState
  | 0, _, s => some s
  | k + 1, i, s =>
    match s.tests[i]? with
    | none => none
    | some t => listTests k (i + 1) (psiPrintf (.listedName t.name) s)

/-- The argument loop of `psiCmdLineRead` from index `i`.  The result holds the
`psi_bool` returned; `none` when the fuel runs out. -/
def psiCmdLineReadLoop (env : Env) (argv : List (List Char)) :
    Nat → Nat → PsiState → Option (Bool × PsiState)
  | 0, _, _ => none
  | fuel + 1, i, s =>
    match argv[i]? with
    | none => some (true, s)
    | some arg =>
      if strncmp arg "--help".toList (strlen "--help".toList) = 0 then
        some (false, printf .help s)
      else if strncmp arg "--failed-output-only".toList (strlen "--failed-output-only".toList) = 0 then
        psiCmdLineReadLoop env argv fuel (u64 (i + 1)) { s with psiDisplayOnlyFailedOutput := 1 }
      else if strncmp arg "--filter=".toList (strlen "--filter=".toList) = 0 then
        psiCmdLineReadLoop env argv fuel (u64 (i + 1))
          { s with cmd_filter := some (arg.drop (strlen "--filter=".toList)) }
      else if strncmp arg "--output=".toList (strlen "--output=".toList) = 0 then
        psiCmdLineReadLoop env argv fuel (u64 (i + 1))
          { s with foutput :=
              if env.fopenOk (arg.drop (strlen "--output=".toList)) then some [] else none }
      else if strncmp arg "--list".toList (strlen "--list".toList) = 0 then
        match listTests s.numTestSuites 0 s with
        | none => none
        | some s1 =>
          psiCmdLineReadLoop env argv fuel (u64 (s.numTestSuites + 1)) { s1 with psiDisplayTests := 1 }
      else if strncmp arg "--no-color".toList (strlen "--no-color".toList) = 0 then
        psiCmdLineReadLoop env argv fuel (u64 (i + 1)) { s with psiShouldColourizeOutput := 0 }
      else if strncmp arg "--no-summary".toList (strlen "--no-summary".toList) ≠ 0 then
        psiCmdLineReadLoop env argv fuel (u64 (i + 1)) { s with psiDisableSummary := 1 }
      else
        some (false, printf (.unrecognized arg) s)

/-- The function `psiCmdLineRead(argc, argv)` with `argc = argv.length`. -/
def psiCmdLineRead (env : Env) (fuel : Nat) (argv : List (List Char)) (s : PsiState) :
    Option (Bool × PsiState) :=
  psiCmdLineReadLoop env argv fuel 1 { s with psiShouldColourizeOutput := env.isatty }

/-- The function `psiCleanup`: the value it returns (releasing memory and closing
the file leave the modelled state as it is). -/
def psiCleanup (s : PsiState) : Int × PsiState :=
  (castInt s.psiStatsNumTestsFailed, s)

/-! ## Execution engine (`psiRunTests`, `psi_main`) -/

/-- One iteration of the loop of `psiRunTests` (psi.h 1109-1153) at index `i`;
`none` when the index is outside the array. -/
def psiRunTestsIter (i : Nat) (s : PsiState) : Option PsiState :=
  let s0 := { s with checkIsInsideTestSuite := 1, hasCurrentTestFailed := 0 }
  match s0.tests[i]? with
  | none => none
  | some t =>
    match psiShouldFilterTest s0.cmd_filter t.name with
    | none => none
    | some r =>
      if r ≠ 0 then some s0
      else
        let s1 := if s0.psiDisplayOnlyFailedOutput = 0 then printf (.RUN t.name) s0 else s0
        let s2 := fprintf (.testcaseOpen t.name) s1
        let s3 := callFunc t.func { s2 with invoked := s2.invoked ++ [i] }
        let s4 := fprintf .testcaseClose s3
        if s4.hasCurrentTestFailed = 1 then
          some (printf (.FAILED t.name)
            { s4 with
              psiStatsNumFailedTestSuites := u64 (s4.psiStatsNumFailedTestSuites + 1)
              psiStatsFailedTestSuites := s4.psiStatsFailedTestSuites ++ [i]
              psiStatsNumTestsFailed := u64 (s4.psiStatsNumTestsFailed + 1) })
        else if s4.psiDisplayOnlyFailedOutput = 0 then some (printf (.OK t.name) s4)
        else some s4

/-- The loop of `psiRunTests`: `k` iterations from index `i`. -/
def psiRunTestsLoop : Nat → Nat → PsiState → Option PsiState
  | 0, _, s => some s
  | k + 1, i, s =>
    match psiRunTestsIter i s with
    | none => none
    | some s1 => psiRunTestsLoop k (i + 1) s1

/-- The function `psiRunTests`. -/
def psiRunTests (s : PsiState) : Option PsiState :=
  match psiRunTestsLoop s.numTestSuites 0 s with
  | none => none
  | some s1 => some (printf (.suitesRan s1.psiStatsTestsRan) s1)

/-- The skip-counting loop of `psi_main` (psi.h 1175-1178): `k` iterations from
index `i`. -/
def countSkipped : Nat → Nat → PsiState → Option PsiState
  | 0, _, s => some s
  | k + 1, i, s =>
    match s.tests[i]? with
    | none => none
    | some t =>
      match psiShouldFilterTest s.cmd_filter t.name with
      | none => none
      | some r =>
        countSkipped k (i + 1)
          (if r ≠ 0 then { s with psiStatsSkippedTests := u64 (s.psiStatsSkippedTests + 1) } else s)

/-- The report `psi_main` prints after the run (psi.h 1203-1247). -/
def printReport (s : PsiState) : PsiState :=
  let passed := subU64 s.psiStatsTestsRan s.psiStatsNumTestsFailed
  let s1 := printf (.failedCount s.psiStatsNumTestsFailed) (printf (.passedCount passed) s)
  let s2 :=
    if s1.psiDisableSummary = 0 then
      printf (.summary s1.psiStatsTotalTestSuites s1.psiStatsTestsRan s1.psiStatsNumWarnings
        s1.psiStatsSkippedTests s1.psiStatsNumTestsFailed) s1
    else s1
  let s3 :=
    if s2.psiStatsNumTestsFailed > 0 then
      (s2.psiStatsFailedTestSuites.take s2.psiStatsNumFailedTestSuites).foldl
        (fun st idx => printf (.failedName ((st.tests[idx]?).map (fun t => t.name))) st)
        (printf (.failedLine s2.psiStatsNumTestsFailed passed) s2)
    else if s2.psiStatsNumTestsFailed = 0 ∧ s2.psiStatsTotalTestSuites > 0 then
      printf (.successLine passed) s2
    else printf .noTestsWarning s2
  fprintf .testsuitesClose s3

/-- The function `psi_main(argc, argv)` with `argc = argv.length`.  The result
holds the `int` returned; `fuel` bounds the argument loop of `psiCmdLineRead`. -/
def psi_main (env : Env) (fuel : Nat) (argv : List (List Char)) (s : PsiState) :
    Option (Int × PsiState) :=
  let s0 := { s with psiStatsTotalTestSuites := u64 s.numTestSuites, psi_argv0_ := argv[0]? }
  match psiCmdLineRead env fuel argv s0 with
  | none => none
  | some (wasCmdLineReadSuccessful, s1) =>
    if s1.psiDisplayTests ≠ 0 then some (psiCleanup s1)
    else if !wasCmdLineReadSuccessful then some (psiCleanup s1)
    else
      match countSkipped s1.numTestSuites 0 s1 with
      | none => none
      | some s2 =>
        let s3 := { s2 with psiStatsTestsRan := subU64 s2.psiStatsTotalTestSuites s2.psiStatsSkippedTests }
        let s4 := printf (.running s3.psiStatsTestsRan) s3
        let s5 := fprintf (.testsuiteOpen s4.psiStatsTestsRan)
          (fprintf (.testsuitesOpen s4.psiStatsTestsRan) (fprintf .xmlHeader s4))
        match psiRunTests s5 with
        | none => none
        | some s6 => some (psiCleanup (printReport s6))

/-! ## Vocabulary of the statements on the engine -/

/-- The filter lets the test named `name` run: `psiShouldFilterTest` returns 0. -/
def runs (filter : Option (List Char)) (name : List Char) : Bool :=
  psiShouldFilterTest filter name == some 0

/-- The filter makes the engine skip the test named `name`: `psiShouldFilterTest`
returns a non-zero value. -/
def skips (filter : Option (List Char)) (name : List Char) : Bool :=
  match psiShouldFilterTest filter name with
  | some r => r != 0
  | none => false

/-- The filter lets the test registered at index `i` run. -/
def runsAt (filter : Option (List Char)) (tests : List psiTestSuiteStruct) (i : Nat) : Bool :=
  match tests[i]? with
  | some t => runs filter t.name
  | none => false

/-- The names of the `<testcase>` entries written to the report file, in order. -/
def testcaseNames (f : Option (List Out)) : List (List Char) :=
  (f.getD []).filterMap (fun o => match o with
    | .testcaseOpen n => some n
    | _ => none)

/-- The state a program starts `psi_main` in: the registry holds `tests`, all
counters and flags have their initial values. -/
def freshState (tests : List psiTestSuiteStruct) : PsiState :=
  { initialState with tests := tests, numTestSuites := tests.length }

/-- The part of the state that the statements of a test body do not write. -/
def engineView (s : PsiState) :=
  (s.tests, s.numTestSuites, s.cmd_filter, s.invoked,
    s.psiStatsTotalTestSuites, s.psiStatsTestsRan, s.psiStatsNumTestsFailed,
    s.psiStatsSkippedTests, s.psiStatsFailedTestSuites, s.psiStatsNumFailedTestSuites,
    s.psiDisableSummary, s.psiDisplayOnlyFailedOutput, s.psiDisplayTests,
    s.foutput.isSome, testcaseNames s.foutput)

/-- The part of the state that `psiCmdLineRead` does not write. -/
def cmdLineView (s : PsiState) :=
  (s.tests, s.numTestSuites, s.invoked, s.executed,
    s.checkIsInsideTestSuite, s.hasCurrentTestFailed, s.shouldFailTest, s.shouldAbortTest,
    s.psiStatsNumWarnings, s.psiStatsTotalTestSuites, s.psiStatsTestsRan,
    s.psiStatsNumTestsFailed, s.psiStatsSkippedTests, s.psiStatsFailedTestSuites,
    s.psiStatsNumFailedTestSuites, s.psi_argv0_, testcaseNames s.foutput)

/-- What the engine's data look like after the iteration of `psiRunTests` on
the test `t` registered at index `i`. -/
def IterPost (i : Nat) (t : psiTestSuiteStruct) (s s1 : PsiState) : Prop :=
  s1.tests = s.tests ∧ s1.numTestSuites = s.numTestSuites ∧ s1.cmd_filter = s.cmd_filter ∧
  s1.foutput.isSome = s.foutput.isSome ∧
  s1.psiStatsTotalTestSuites = s.psiStatsTotalTestSuites ∧
  s1.psiStatsTestsRan = s.psiStatsTestsRan ∧
  s1.psiStatsSkippedTests = s.psiStatsSkippedTests ∧
  s1.invoked = s.invoked ++ (if runs s.cmd_filter t.name then [i] else []) ∧
  testcaseNames s1.foutput = testcaseNames s.foutput ++
    (if s.foutput.isSome ∧ runs s.cmd_filter t.name then [t.name] else [])

/-- What the engine's data look like after the last `k` iterations of the loop
of `psiRunTests`, from index `i` to the end of the registry. -/
def LoopPost (k i : Nat) (s s1 : PsiState) : Prop :=
  s1.tests = s.tests ∧ s1.numTestSuites = s.numTestSuites ∧ s1.cmd_filter = s.cmd_filter ∧
  s1.foutput.isSome = s.foutput.isSome ∧
  s1.psiStatsTotalTestSuites = s.psiStatsTotalTestSuites ∧
  s1.psiStatsTestsRan = s.psiStatsTestsRan ∧
  s1.psiStatsSkippedTests = s.psiStatsSkippedTests ∧
  s1.invoked = s.invoked ++ (List.range' i k).filter (runsAt s.cmd_filter s.tests) ∧
  testcaseNames s1.foutput = testcaseNames s.foutput ++
    (if s.foutput.isSome then
      ((s.tests.drop i).filter (fun t => runs s.cmd_filter t.name)).map (fun t => t.name)
    else [])

/-- What the skip-counting loop of `psi_main` leaves after its last `k`
iterations, from index `i` to the end of the registry. -/
def CountPost (i : Nat) (s s1 : PsiState) : Prop :=
  s1 = { s with psiStatsSkippedTests := s1.psiStatsSkippedTests } ∧
  s1.psiStatsSkippedTests =
    u64 (s.psiStatsSkippedTests +
      ((s.tests.drop i).filter (fun t => skips s.cmd_filter t.name)).length)

/-- What a completed run of `psi_main` leaves, for the registry `tests`, the
filter `filter` and the report file being open or not. -/
def MainPost (tests : List psiTestSuiteStruct) (filter : Option (List Char)) (fileOpen : Bool)
    (s2 : PsiState) : Prop :=
  s2.invoked = (List.range tests.length).filter (runsAt filter tests) ∧
  testcaseNames s2.foutput =
    (if fileOpen then (tests.filter (fun t => runs filter t.name)).map (fun t => t.name)
      else []) ∧
  s2.foutput.isSome = fileOpen ∧
  s2.psiStatsSkippedTests = (tests.filter (fun t => skips filter t.name)).length ∧
  s2.psiStatsTestsRan =
    tests.length - (tests.filter (fun t => skips filter t.name)).length ∧
  s2.psiStatsTotalTestSuites = tests.length

/-- The statement is an assertion whose condition is false. -/
def Stmt.fails : Stmt → Bool
  | .CHECK cond => !cond
  | .REQUIRE cond => !cond
  | .WARN => false

/-- The test function holds an assertion whose condition is false (in its body,
or for a `TEST_F` wrapper in set-up, run or tear-down). -/
def recordsFailure : psi_testsuite_t → Bool
  | .test body => body.any Stmt.fails
  | .fixture setup run teardown =>
    setup.any Stmt.fails || run.any Stmt.fails || teardown.any Stmt.fails

/-- The test `t` is run under the filter and records an assertion failure. -/
def runsAndFails (filter : Option (List Char)) (t : psiTestSuiteStruct) : Bool :=
  runs filter t.name && recordsFailure t.func

/-- The test registered at index `i` is run under the filter and records an
assertion failure. -/
def failsAt (filter : Option (List Char)) (tests : List psiTestSuiteStruct) (i : Nat) : Bool :=
  match tests[i]? with
  | some t => runsAndFails filter t
  | none => false

/-- The engine proper: the part of `psi_main` from the skip count to the call of
`psiRunTests` (psi.h 1175-1197). -/
def runEngine (s1 : PsiState) : Option PsiState :=
  match countSkipped s1.numTestSuites 0 s1 with
  | none => none
  | some s2 =>
    let s3 := { s2 with psiStatsTestsRan := subU64 s2.psiStatsTotalTestSuites s2.psiStatsSkippedTests }
    let s4 := printf (.running s3.psiStatsTestsRan) s3
    let s5 := fprintf (.testsuiteOpen s4.psiStatsTestsRan)
      (fprintf (.testsuitesOpen s4.psiStatsTestsRan) (fprintf .xmlHeader s4))
    psiRunTests s5

/-- What the failure bookkeeping looks like after the iteration of
`psiRunTests` on the test `t` registered at index `i`. -/
def IterFailPost (i : Nat) (t : psiTestSuiteStruct) (s s1 : PsiState) : Prop :=
  s1.checkIsInsideTestSuite = 1 ∧
  s1.psiStatsFailedTestSuites = s.psiStatsFailedTestSuites ++
    (if runsAndFails s.cmd_filter t then [i] else []) ∧
  s1.psiStatsNumTestsFailed =
    (if runsAndFails s.cmd_filter t then u64 (s.psiStatsNumTestsFailed + 1)
      else s.psiStatsNumTestsFailed) ∧
  s1.psiStatsNumFailedTestSuites =
    (if runsAndFails s.cmd_filter t then u64 (s.psiStatsNumFailedTestSuites + 1)
      else s.psiStatsNumFailedTestSuites)

/-- What the failure bookkeeping looks like after the last `k` iterations of
the loop of `psiRunTests`, from index `i` to the end of the registry. -/
def LoopFailPost (k i : Nat) (s s1 : PsiState) : Prop :=
  s1.psiStatsFailedTestSuites = s.psiStatsFailedTestSuites ++
    (List.range' i k).filter (failsAt s.cmd_filter s.tests) ∧
  s1.psiStatsNumTestsFailed = s.psiStatsNumTestsFailed +
    ((List.range' i k).filter (failsAt s.cmd_filter s.tests)).length ∧
  s1.psiStatsNumFailedTestSuites = s.psiStatsNumFailedTestSuites +
    ((List.range' i k).filter (failsAt s.cmd_filter s.tests)).length

/-- What the engine proper leaves when started in the state `s`. -/
def EnginePost (s a : PsiState) : Prop :=
  a.tests = s.tests ∧ a.numTestSuites = s.numTestSuites ∧ a.cmd_filter = s.cmd_filter ∧
  a.psiStatsTotalTestSuites = s.psiStatsTotalTestSuites ∧
  a.invoked = s.invoked ++ (List.range s.tests.length).filter (runsAt s.cmd_filter s.tests) ∧
  a.psiStatsSkippedTests =
    u64 (s.psiStatsSkippedTests +
      (s.tests.filter (fun t => skips s.cmd_filter t.name)).length) ∧
  a.psiStatsTestsRan = subU64 s.psiStatsTotalTestSuites a.psiStatsSkippedTests ∧
  a.psiStatsFailedTestSuites = s.psiStatsFailedTestSuites ++
    (List.range s.tests.length).filter (failsAt s.cmd_filter s.tests) ∧
  a.psiStatsNumTestsFailed = s.psiStatsNumTestsFailed +
    ((List.range s.tests.length).filter (failsAt s.cmd_filter s.tests)).length ∧
  a.psiStatsNumFailedTestSuites = s.psiStatsNumFailedTestSuites +
    ((List.range s.tests.length).filter (failsAt s.cmd_filter s.tests)).length

/-- What a completed run of `psi_main` leaves in the failure bookkeeping, and
the value it returns. -/
def MainFailPost (tests : List psiTestSuiteStruct) (filter : Option (List Char))
    (r : Int) (s2 : PsiState) : Prop :=
  s2.psiStatsFailedTestSuites = (List.range tests.length).filter (failsAt filter tests) ∧
  s2.psiStatsNumTestsFailed =
    ((List.range tests.length).filter (failsAt filter tests)).length ∧
  s2.psiStatsNumFailedTestSuites =
    ((List.range tests.length).filter (failsAt filter tests)).length ∧
  r = castInt ((List.range tests.length).filter (failsAt filter tests)).length

/-! ## The scenario of section 8: tests `A.one`, `A.two`, `B.one`, filter `A*` -/

/-- An environment without a terminal in which every file can be opened. -/
def scenarioEnv : Env := { isatty := 0, fopenOk := fun _ => true }

/-- The registry after `TEST(A, one)`, `TEST(A, two)` and `TEST(B, one)`. -/
def scenarioTests : List psiTestSuiteStruct :=
  (TEST "B".toList "one".toList [.CHECK true]
    (TEST "A".toList "two".toList [.REQUIRE false, .CHECK false]
      (TEST "A".toList "one".toList [.CHECK true] initialState))).tests

/-- The command line `prog --filter=A* --output=report.xml`. -/
def scenarioArgv : List (List Char) :=
  ["prog".toList, "--filter=A*".toList, "--output=report.xml".toList]

/-- The state `psiCmdLineRead` leaves on the scenario. -/
def scenarioAfterCmdLine : PsiState :=
  { freshState scenarioTests with
    psiStatsTotalTestSuites := 3
    psi_argv0_ := some "prog".toList
    psiShouldColourizeOutput := 0
    cmd_filter := some "A*".toList
    foutput := some [] }

/-- The command line `prog`: no option, hence no filter. -/
def plainArgv : List (List Char) := ["prog".toList]

/-- The state `psiCmdLineRead` leaves on the command line `prog` with the
registry of the scenario. -/
def scenarioAfterPlainCmdLine : PsiState :=
  { freshState scenarioTests with
    psiStatsTotalTestSuites := 3
    psi_argv0_ := some "prog".toList
    psiShouldColourizeOutput := 0 }

/-- The test function holds a REQUIRE-family assertion whose condition is false. -/
def holdsFailedRequire : psi_testsuite_t → Prop
  | .test body => Stmt.REQUIRE false ∈ body
  | .fixture setup run teardown =>
    Stmt.REQUIRE false ∈ setup ∨ Stmt.REQUIRE false ∈ run ∨ Stmt.REQUIRE false ∈ teardown

/-- A registry in which a test with a failing REQUIRE comes before a test with
two failing CHECKs. -/
def requireThenChecks : List psiTestSuiteStruct :=
  (TEST "A".toList "chk".toList [.CHECK false, .CHECK false]
    (TEST "A".toList "req".toList [.REQUIRE false] initialState)).tests

/-- The same two tests registered in the other order. -/
def checksThenRequire : List psiTestSuiteStruct :=
  (TEST "A".toList "req".toList [.REQUIRE false]
    (TEST "A".toList "chk".toList [.CHECK false, .CHECK false] initialState)).tests

/-- The names the final report prints for the recorded failures: the name of
`tests[psiStatsFailedTestSuites[i]]` for each recorded index (psi.h 1229-1233);
`none` stands for an index outside the registry. -/
def failedNames (s : PsiState) : List (Option (List Char)) :=
  s.psiStatsFailedTestSuites.map (fun idx => (s.tests[idx]?).map (fun t => t.name))

/-- The tests of the scenario registered in another order: `B.one`, `A.two`,
`A.one`. -/
def scenarioTestsPermuted : List psiTestSuiteStruct :=
  (TEST "A".toList "one".toList [.CHECK true]
    (TEST "A".toList "two".toList [.REQUIRE false, .CHECK false]
      (TEST "B".toList "one".toList [.CHECK true] initialState))).tests

/-- The statistics of a run: skipped, run and failed counts, the length counter
of the failed-index list, and that list. -/
def runStatistics (s : PsiState) : Nat × Nat × Nat × Nat × List Nat :=
  (s.psiStatsSkippedTests, s.psiStatsTestsRan, s.psiStatsNumTestsFailed,
    s.psiStatsNumFailedTestSuites, s.psiStatsFailedTestSuites)

/-- The entry a registration stores. -/
def registered (func : psi_testsuite_t) (name : List Char) : psiTestSuiteStruct :=
  { func := func, name := name }

/-! ## The matcher with every read checked (psi.h 920-977) -/

/-- Dereference of cursor `i` in the string `s` when the cursor is inside the
string, terminator included; `none` for a read outside it. -/
def deref (s : List Char) (i : Nat) : Option Char :=
  if i ≤ s.length then some (charAt s i) else none

/-- The read `cursor[-1]`: `none` when the cursor is at the start of the string
(or the position before it is outside the string). -/
def derefBefore (s : List Char) (i : Nat) : Option Char :=
  if 0 < i then deref s (i - 1) else none

/-- The inner `while` of `psiShouldFilterTest` with every read checked: the
inner `none` is a read outside the strings, the outer `none` is the fuel
running out. -/
def innerLoopChecked (filter testcase : List Char) (wildcard : Nat) :
    Nat → Nat → Nat → Option (Option (Nat × Nat))
  | 0, _, _ => none
  | fuel + 1, filter_curr, testcase_curr =>
    match deref filter filter_curr, deref testcase testcase_curr with
    | some f, some t =>
      if f ≠ PSI_NULLCHAR ∧ t ≠ PSI_NULLCHAR then
        if f = '*' then some (some (filter_curr, testcase_curr))
        else if f ≠ t then
          innerLoopChecked filter testcase wildcard fuel (wildcard + 1) (testcase_curr + 1)
        else
          innerLoopChecked filter testcase wildcard fuel (filter_curr + 1) (testcase_curr + 1)
      else some (some (filter_curr, testcase_curr))
    | _, _ => some none

/-- The final mismatch test of `psiShouldFilterTest` (psi.h 970-974) with every
read checked; `filter_curr[-1]` is read only where the C expression, with its
short-circuit evaluation, reads it. -/
def finalTestChecked (filter testcase : List Char) (filter_curr testcase_curr : Nat) :
    Option Int :=
  match deref filter filter_curr with
  | none => none
  | some f =>
    if f ≠ PSI_NULLCHAR then some 1
    else
      match deref testcase testcase_curr with
      | none => none
      | some t =>
        if t = PSI_NULLCHAR then
          if filter_curr = 0 then some 1
          else
            match derefBefore filter filter_curr with
            | none => none
            | some b => if b ≠ '*' then some 1 else some 0
        else some 0

/-- The outer `while` of `psiShouldFilterTest` followed by the final mismatch
test, with every read checked. -/
def outerLoopChecked (filter testcase : List Char) : Nat → Nat → Nat → Option (Option Int)
  | 0, _, _ => none
  | fuel + 1, filter_curr, testcase_curr =>
    match deref filter filter_curr, deref testcase testcase_curr with
    | some f, some t =>
      if f ≠ PSI_NULLCHAR ∧ t ≠ PSI_NULLCHAR then
        if f = '*' then
          match innerLoopChecked filter testcase filter_curr (testcase.length + 1)
              (filter_curr + 1) testcase_curr with
          | none => none
          | some none => some none
          | some (some (fc, tc)) =>
            match deref filter fc, deref testcase tc with
            | some f1, some t1 =>
              if f1 = PSI_NULLCHAR ∧ t1 = PSI_NULLCHAR then some (some 0)
              else if t1 = PSI_NULLCHAR then some (some 1)
              else outerLoopChecked filter testcase fuel fc tc
            | _, _ => some none
        else
          if t ≠ f then some (some 1)
          else outerLoopChecked filter testcase fuel (filter_curr + 1) (testcase_curr + 1)
      else some (finalTestChecked filter testcase filter_curr testcase_curr)
    | _, _ => some none

/-- The function `psiShouldFilterTest` with every read checked. -/
def psiShouldFilterTestChecked (filter : Option (List Char)) (testcase : List Char) :
    Option (Option Int) :=
  match filter with
  | none => some (some 0)
  | some f => outerLoopChecked f testcase (f.length + testcase.length + 1) 0 0

/-! ## The moment a test function is called -/

/-- The state in which the iteration of `psiRunTests` at index `i` calls
`tests[i].func` (psi.h 1109-1127); `none` when the test is skipped or the index
is outside the array. -/
def psiRunTestsCallState (i : Nat) (s : PsiState) : Option PsiState :=
  let s0 := { s with checkIsInsideTestSuite := 1, hasCurrentTestFailed := 0 }
  match s0.tests[i]? with
  | none => none
  | some t =>
    match psiShouldFilterTest s0.cmd_filter t.name with
    | none => none
    | some r =>
      if r ≠ 0 then none
      else
        let s1 := if s0.psiDisplayOnlyFailedOutput = 0 then printf (.RUN t.name) s0 else s0
        let s2 := fprintf (.testcaseOpen t.name) s1
        some { s2 with invoked := s2.invoked ++ [i] }

/-- The command line `prog --list`. -/
def listArgv : List (List Char) := ["prog".toList, "--list".toList]

/-- The state `psi_main` hands to `psiCmdLineRead` for the registry `tests` and
the program name `prog`. -/
def beforeCmdLine (tests : List psiTestSuiteStruct) : PsiState :=
  { freshState tests with psiStatsTotalTestSuites := u64 tests.length, psi_argv0_ := some "prog".toList }

/-- A registry with the single test `A.one`. -/
def singleTest : List psiTestSuiteStruct :=
  (TEST "A".toList "one".toList [.CHECK true] initialState).tests

/-! ## Basic facts about cursors -/

theorem charAt_of_lt {s : List Char} {i : Nat} (h : i < s.length) :
    charAt s i = s.get ⟨i, h⟩ := by
  simp [charAt, List.getD, List.getElem?_eq_getElem h]

theorem charAt_of_le {s : List Char} {i : Nat} (h : s.length ≤ i) :
    charAt s i = PSI_NULLCHAR := by
  simp [charAt, List.getD, List.getElem?_eq_none h]

theorem lt_of_charAt_ne {s : List Char} {i : Nat} (h : charAt s i ≠ PSI_NULLCHAR) :
    i < s.length := by
  by_contra hc
  exact h (charAt_of_le (Nat.le_of_not_lt hc))

theorem charAt_ne_of_isCStr {s : List Char} (hs : IsCStr s) {i : Nat} (h : i < s.length) :
    charAt s i ≠ PSI_NULLCHAR := by
  intro hc
  rw [charAt_of_lt h] at hc
  exact hs (hc ▸ List.get_mem s i h)

theorem charAt_append_left {s t : List Char} {i : Nat} (h : i < s.length) :
    charAt (s ++ t) i = charAt s i := by
  simp [charAt, List.getD, List.getElem?_append_left h]

theorem charAt_append_right {s t : List Char} {i : Nat} (h : s.length ≤ i) :
    charAt (s ++ t) i = charAt t (i - s.length) := by
  simp [charAt, List.getD, List.getElem?_append_right h]

/-! ## Termination of the matcher: the fuel it is given always suffices -/

theorem innerLoop_total (filter testcase : List Char) (wildcard : Nat) :
    ∀ fuel fc tc, testcase.length - tc < fuel → wildcard < fc →
      ∃ fc1 tc1, innerLoop filter testcase wildcard fuel fc tc = some (fc1, tc1) ∧
        wildcard < fc1 ∧ tc ≤ tc1 := by
  intro fuel
  induction fuel with
  | zero => intro fc tc h; omega
  | succ n ih =>
    intro fc tc h hw
    unfold innerLoop
    by_cases hc : charAt filter fc ≠ PSI_NULLCHAR ∧ charAt testcase tc ≠ PSI_NULLCHAR
    · have htc : tc < testcase.length := lt_of_charAt_ne hc.2
      rw [if_pos hc]
      by_cases hs : charAt filter fc = '*'
      · rw [if_pos hs]; exact ⟨fc, tc, rfl, hw, le_refl _⟩
      · rw [if_neg hs]
        by_cases hm : charAt filter fc ≠ charAt testcase tc
        · rw [if_pos hm]
          obtain ⟨a, b, e, h1, h2⟩ := ih (wildcard + 1) (tc + 1) (by omega) (by omega)
          exact ⟨a, b, e, h1, by omega⟩
        · rw [if_neg hm]
          obtain ⟨a, b, e, h1, h2⟩ := ih (fc + 1) (tc + 1) (by omega) (by omega)
          exact ⟨a, b, e, h1, by omega⟩
    · rw [if_neg hc]; exact ⟨fc, tc, rfl, hw, le_refl _⟩

theorem outerLoop_total (filter testcase : List Char) :
    ∀ fuel fc tc, (filter.length - fc) + (testcase.length - tc) < fuel →
      ∃ r, outerLoop filter testcase fuel fc tc = some r ∧ (r = 0 ∨ r = 1) := by
  intro fuel
  induction fuel with
  | zero => intro fc tc h; omega
  | succ n ih =>
    intro fc tc h
    unfold outerLoop
    by_cases hc : charAt filter fc ≠ PSI_NULLCHAR ∧ charAt testcase tc ≠ PSI_NULLCHAR
    · have hfc : fc < filter.length := lt_of_charAt_ne hc.1
      have htc : tc < testcase.length := lt_of_charAt_ne hc.2
      rw [if_pos hc]
      by_cases hs : charAt filter fc = '*'
      · rw [if_pos hs]
        obtain ⟨a, b, e, h1, h2⟩ :=
          innerLoop_total filter testcase fc (testcase.length + 1) (fc + 1) tc
            (by omega) (by omega)
        rw [e]
        simp only []
        by_cases hz : charAt filter a = PSI_NULLCHAR ∧ charAt testcase b = PSI_NULLCHAR
        · rw [if_pos hz]; exact ⟨0, rfl, Or.inl rfl⟩
        · rw [if_neg hz]
          by_cases hz2 : charAt testcase b = PSI_NULLCHAR
          · rw [if_pos hz2]; exact ⟨1, rfl, Or.inr rfl⟩
          · rw [if_neg hz2]; exact ih a b (by omega)
      · rw [if_neg hs]
        by_cases hm : charAt testcase tc ≠ charAt filter fc
        · rw [if_pos hm]; exact ⟨1, rfl, Or.inr rfl⟩
        · rw [if_neg hm]; exact ih (fc + 1) (tc + 1) (by omega)
    · rw [if_neg hc]
      split
      · exact ⟨1, rfl, Or.inr rfl⟩
      · exact ⟨0, rfl, Or.inl rfl⟩

/-- Totality: `psiShouldFilterTest` returns, and returns 0 or 1. -/
theorem psiShouldFilterTest_total (filter : Option (List Char)) (testcase : List Char) :
    ∃ r, psiShouldFilterTest filter testcase = some r ∧ (r = 0 ∨ r = 1) := by
  cases filter with
  | none => exact ⟨0, rfl, Or.inl rfl⟩
  | some f => exact outerLoop_total f testcase _ 0 0 (by simp)

/-! ## The matcher on a literal (wildcard-free) prefix -/

/-- One iteration of the outer loop on two equal literal characters. -/
theorem outerLoop_literal_step (filter testcase : List Char) (fuel fc tc : Nat)
    (hf : charAt filter fc ≠ PSI_NULLCHAR) (hs : charAt filter fc ≠ '*')
    (he : charAt testcase tc = charAt filter fc) :
    outerLoop filter testcase (fuel + 1) fc tc = outerLoop filter testcase fuel (fc + 1) (tc + 1) := by
  have ht : charAt testcase tc ≠ PSI_NULLCHAR := by rw [he]; exact hf
  conv_lhs => unfold outerLoop
  rw [if_pos ⟨hf, ht⟩, if_neg hs, if_neg (by simp [he])]

/-- The outer loop walks over `n` positions on which filter and test case hold
the same literal characters. -/
theorem outerLoop_literal_run (filter testcase : List Char) :
    ∀ n fuel k,
      (∀ j, k ≤ j → j < k + n → charAt filter j ≠ PSI_NULLCHAR ∧ charAt filter j ≠ '*' ∧
        charAt testcase j = charAt filter j) →
      outerLoop filter testcase (fuel + n) k k = outerLoop filter testcase fuel (k + n) (k + n) := by
  intro n
  induction n with
  | zero => intro fuel k _; rfl
  | succ m ih =>
    intro fuel k h
    obtain ⟨h1, h2, h3⟩ := h k (le_refl _) (by omega)
    have e : fuel + (m + 1) = (fuel + m) + 1 := by omega
    rw [e, outerLoop_literal_step filter testcase (fuel + m) k k h1 h2 h3,
      ih fuel (k + 1) (fun j hj1 hj2 => h j (by omega) (by omega))]
    have e2 : k + 1 + m = k + (m + 1) := by omega
    rw [e2]

/-- After a common literal prefix, a first differing literal character makes the
outer loop return 1. -/
theorem outerLoop_literal_mismatch (filter testcase : List Char) (fuel i : Nat)
    (hpre : ∀ j, j < i → charAt filter j ≠ PSI_NULLCHAR ∧ charAt filter j ≠ '*' ∧
        charAt testcase j = charAt filter j)
    (hf : charAt filter i ≠ PSI_NULLCHAR) (ht : charAt testcase i ≠ PSI_NULLCHAR)
    (hs : charAt filter i ≠ '*') (hd : charAt filter i ≠ charAt testcase i) :
    outerLoop filter testcase (fuel + 1 + i) 0 0 = some 1 := by
  rw [outerLoop_literal_run filter testcase i (fuel + 1) 0
    (fun j _ hj => hpre j (by omega))]
  simp only [Nat.zero_add]
  unfold outerLoop
  rw [if_pos ⟨hf, ht⟩, if_neg hs, if_pos (fun e => hd e.symm)]

/-- A filter made of a wildcard-free `S` followed by one `*` matches every test
case that extends `S` by at least one character. -/
theorem trailingStar_matches_longer (S R : List Char) (hS : IsCStr S) (hstar : '*' ∉ S)
    (hR : IsCStr R) (hne : R ≠ []) :
    psiShouldFilterTest (some (S ++ ['*'])) (S ++ R) = some 0 := by
  have hRpos : 0 < R.length := List.length_pos.mpr hne
  have hlit : ∀ j, 0 ≤ j → j < 0 + S.length →
      charAt (S ++ ['*']) j ≠ PSI_NULLCHAR ∧ charAt (S ++ ['*']) j ≠ '*' ∧
        charAt (S ++ R) j = charAt (S ++ ['*']) j := by
    intro j _ hj
    have hj2 : j < S.length := by omega
    rw [charAt_append_left hj2, charAt_append_left hj2]
    refine ⟨charAt_ne_of_isCStr hS hj2, ?_, rfl⟩
    rw [charAt_of_lt hj2]
    intro e
    exact hstar (e ▸ List.get_mem S j hj2)
  have hfstar : charAt (S ++ ['*']) S.length = '*' := by
    rw [charAt_append_right (le_refl _)]; simp [charAt]
  have hfend : charAt (S ++ ['*']) (S.length + 1) = PSI_NULLCHAR :=
    charAt_of_le (by simp)
  have htne : charAt (S ++ R) S.length ≠ PSI_NULLCHAR := by
    rw [charAt_append_right (le_refl _), Nat.sub_self]
    exact charAt_ne_of_isCStr hR hRpos
  have hstarne : ('*' : Char) ≠ PSI_NULLCHAR := by decide
  unfold psiShouldFilterTest
  simp only [List.length_append, List.length_singleton]
  have e : S.length + 1 + (S.length + R.length) + 1 = (S.length + R.length + 2) + S.length := by
    omega
  rw [e, outerLoop_literal_run (S ++ ['*']) (S ++ R) S.length _ 0 hlit]
  simp only [Nat.zero_add]
  have e2 : S.length + R.length + 2 = (S.length + R.length) + 1 + 1 := by omega
  rw [e2]
  unfold outerLoop
  rw [if_pos ⟨by rw [hfstar]; exact hstarne, htne⟩, if_pos hfstar]
  have hin : innerLoop (S ++ ['*']) (S ++ R) S.length ((S ++ R).length + 1) (S.length + 1)
      S.length = some (S.length + 1, S.length) := by
    unfold innerLoop
    rw [if_neg (by simp [hfend])]
  rw [hin]
  simp only []
  rw [if_neg (fun h => htne h.2), if_neg htne]
  unfold outerLoop
  rw [if_neg (by simp [hfend]), if_neg (by simp [hfend, htne])]

/-! ## Facts on glob matching -/

theorem take_succ_charAt (s : List Char) (i : Nat) (h : i < s.length) :
    s.take (i + 1) = s.take i ++ [charAt s i] := by
  rw [List.take_succ, charAt_of_lt h]
  simp [List.getElem?_eq_getElem h]

theorem charAt_cons_succ (c : Char) (s : List Char) (i : Nat) :
    charAt (c :: s) (i + 1) = charAt s i := by
  simp [charAt, List.getD]

theorem charAt_cons_zero (c : Char) (s : List Char) : charAt (c :: s) 0 = c := by
  simp [charAt, List.getD]

theorem charAt_ne_star {s : List Char} (hs : '*' ∉ s) {i : Nat} (h : i < s.length) :
    charAt s i ≠ '*' := by
  intro hc
  rw [charAt_of_lt h] at hc
  exact hs (hc ▸ List.get_mem s i h)

/-- While the name holds characters other than the first literal of the
pattern, the inner loop stays right after the wildcard. -/
theorem innerLoop_skip (S U R : List Char) (c : Char) (hc : c ≠ PSI_NULLCHAR)
    (hcs : c ≠ '*') (hU : IsCStr U) (hcU : c ∉ U) :
    ∀ n fuel t, t + n = U.length →
      innerLoop ('*' :: c :: S) (U ++ R) 0 (fuel + n) 1 t =
        innerLoop ('*' :: c :: S) (U ++ R) 0 fuel 1 U.length := by
  intro n
  induction n with
  | zero => intro fuel t h; simp only [Nat.add_zero] at h ⊢; rw [h]
  | succ m ih =>
    intro fuel t h
    have ht : t < U.length := by omega
    have e : fuel + (m + 1) = (fuel + m) + 1 := by omega
    have hf : charAt ('*' :: c :: S) 1 = c := by
      rw [charAt_cons_succ, charAt_cons_zero]
    have hn : charAt (U ++ R) t = charAt U t := charAt_append_left ht
    have hne : charAt U t ≠ PSI_NULLCHAR := charAt_ne_of_isCStr hU ht
    have hdiff : c ≠ charAt U t := by
      intro e2
      rw [charAt_of_lt ht] at e2
      exact hcU (e2 ▸ List.get_mem U t ht)
    rw [e]
    conv_lhs => unfold innerLoop
    rw [hf, hn, if_pos ⟨hc, hne⟩, if_neg hcs, if_pos hdiff]
    exact ih fuel (t + 1) (by omega)

/-- On a name that continues with the literal rest of the pattern, the inner
loop walks to the end of both. -/
theorem innerLoop_walk (P N : List Char) (w : Nat) :
    ∀ n fuel p t,
      (∀ j, j < n → charAt P (p + j) ≠ PSI_NULLCHAR ∧ charAt P (p + j) ≠ '*' ∧
        charAt N (t + j) = charAt P (p + j)) →
      innerLoop P N w (fuel + n) p t = innerLoop P N w fuel (p + n) (t + n) := by
  intro n
  induction n with
  | zero => intro fuel p t _; rfl
  | succ m ih =>
    intro fuel p t h
    obtain ⟨h1, h2, h3⟩ := h 0 (by omega)
    simp only [Nat.add_zero] at h1 h2 h3
    have e : fuel + (m + 1) = (fuel + m) + 1 := by omega
    rw [e]
    conv_lhs => unfold innerLoop
    rw [if_pos ⟨h1, by rw [h3]; exact h1⟩, if_neg h2, if_neg (by simp [h3])]
    rw [ih fuel (p + 1) (t + 1) (fun j hj => by
      have := h (j + 1) (by omega)
      have e1 : p + 1 + j = p + (j + 1) := by omega
      have e2 : t + 1 + j = t + (j + 1) := by omega
      rw [e1, e2]; exact this)]
    have e1 : p + 1 + m = p + (m + 1) := by omega
    have e2 : t + 1 + m = t + (m + 1) := by omega
    rw [e1, e2]

/-- A pattern `*S` matches a name `U ++ S` when the first character of the
literal, non-empty `S` does not occur in `U`. -/
theorem leadingStar_matches_at_end (S U : List Char) (hS : IsCStr S)
    (hstar : '*' ∉ S) (hU : IsCStr U) (hne : S ≠ [])
    (hfirst : ∀ c, S.head? = some c → c ∉ U) :
    psiShouldFilterTest (some ('*' :: S)) (U ++ S) = some 0 := by
  cases S with
  | nil => exact absurd rfl hne
  | cons c S1 =>
    have hc : c ≠ PSI_NULLCHAR := fun e => hS (e ▸ List.mem_cons_self _ _)
    have hcs : c ≠ '*' := fun e => hstar (e ▸ List.mem_cons_self _ _)
    have hcU : c ∉ U := hfirst c rfl
    have hN0 : charAt (U ++ c :: S1) 0 ≠ PSI_NULLCHAR := by
      cases U with
      | nil => simpa [charAt, List.getD] using hc
      | cons u U1 =>
        rw [List.cons_append, charAt_cons_zero]
        exact fun e => hU (e ▸ List.mem_cons_self _ _)
    have hwalk : ∀ j, j < (c :: S1).length →
        charAt ('*' :: c :: S1) (1 + j) ≠ PSI_NULLCHAR ∧ charAt ('*' :: c :: S1) (1 + j) ≠ '*' ∧
        charAt (U ++ c :: S1) (U.length + j) = charAt ('*' :: c :: S1) (1 + j) := by
      intro j hj
      have e1 : charAt ('*' :: c :: S1) (1 + j) = charAt (c :: S1) j := by
        rw [Nat.add_comm, charAt_cons_succ]
      have e2 : charAt (U ++ c :: S1) (U.length + j) = charAt (c :: S1) j := by
        rw [charAt_append_right (Nat.le_add_right _ _), Nat.add_sub_cancel_left]
      rw [e1, e2]
      exact ⟨charAt_ne_of_isCStr hS hj, charAt_ne_star hstar hj, rfl⟩
    have hin : innerLoop ('*' :: c :: S1) (U ++ c :: S1) 0 ((U ++ c :: S1).length + 1) 1 0 =
        some (1 + (c :: S1).length, U.length + (c :: S1).length) := by
      have e : (U ++ c :: S1).length + 1 = (1 + (c :: S1).length) + U.length := by
        simp only [List.length_append]; omega
      rw [e, innerLoop_skip S1 U (c :: S1) c hc hcs hU hcU U.length _ 0 (by omega),
        innerLoop_walk _ _ 0 (c :: S1).length 1 1 U.length hwalk]
      unfold innerLoop
      rw [if_neg]
      intro h
      exact h.1 (charAt_of_le (by simp only [List.length_cons]; omega))
    unfold psiShouldFilterTest
    simp only []
    unfold outerLoop
    rw [charAt_cons_zero, if_pos ⟨by decide, hN0⟩, if_pos rfl, hin]
    simp only []
    rw [if_pos]
    constructor
    · exact charAt_of_le (by simp only [List.length_cons]; omega)
    · exact charAt_of_le (by simp only [List.length_append]; omega)

theorem getElem?_eq_some_charAt {s : List Char} {i : Nat} (h : i < s.length) :
    s[i]? = some (charAt s i) := by
  rw [charAt_of_lt h, List.getElem?_eq_getElem h]
  rfl

/-- A literal that is read off a name position by position occurs in the name. -/
theorem isInfix_of_charAt (S N : List Char) (a : Nat) (ha : a + S.length ≤ N.length)
    (h : ∀ i, i < S.length → charAt N (a + i) = charAt S i) : S <:+: N := by
  have e : S = (N.drop a).take S.length := by
    apply List.ext_getElem?
    intro i
    by_cases hi : i < S.length
    · rw [List.getElem?_take_of_lt hi, List.getElem?_drop, getElem?_eq_some_charAt hi,
        getElem?_eq_some_charAt (by omega), h i hi]
    · rw [List.getElem?_eq_none (by omega), List.getElem?_eq_none]
      simp only [List.length_take, List.length_drop]
      omega
  rw [e]
  exact (List.take_prefix _ _).isInfix.trans (List.drop_suffix _ _).isInfix

/-- When the literal `S` occurs nowhere in the name, the inner loop for the
pattern `*S` runs to the end of the name with the pattern not exhausted. -/
theorem innerLoop_no_infix (S N : List Char) (hS : IsCStr S) (hstar : '*' ∉ S)
    (hni : ¬ S <:+: N) :
    ∀ fuel j t, N.length - t < fuel → j ≤ S.length → j ≤ t → t ≤ N.length →
      (∀ i, i < j → charAt N (t - j + i) = charAt S i) →
      ∃ j1 t1, innerLoop ('*' :: S) N 0 fuel (j + 1) t = some (j1 + 1, t1) ∧ j1 < S.length ∧
        charAt N t1 = PSI_NULLCHAR := by
  intro fuel
  induction fuel with
  | zero => intro j t h; omega
  | succ n ih =>
    intro j t hf hj hjt ht hinv
    have hjlt : j < S.length := by
      by_contra hc
      have hje : j = S.length := by omega
      subst hje
      exact hni (isInfix_of_charAt S N (t - S.length) (by omega) hinv)
    have hp : charAt ('*' :: S) (j + 1) = charAt S j := charAt_cons_succ _ _ _
    have hpn : charAt S j ≠ PSI_NULLCHAR := charAt_ne_of_isCStr hS hjlt
    have hps : charAt S j ≠ '*' := charAt_ne_star hstar hjlt
    unfold innerLoop
    rw [hp]
    by_cases hc : charAt N t ≠ PSI_NULLCHAR
    · have htlt : t < N.length := lt_of_charAt_ne hc
      rw [if_pos ⟨hpn, hc⟩, if_neg hps]
      by_cases hm : charAt S j ≠ charAt N t
      · rw [if_pos hm]
        exact ih 0 (t + 1) (by omega) (Nat.zero_le _) (Nat.zero_le _) (by omega)
          (fun i hi => absurd hi (Nat.not_lt_zero _))
      · rw [if_neg hm]
        refine ih (j + 1) (t + 1) (by omega) (by omega) (by omega) (by omega) ?_
        intro i hi
        by_cases hij : i < j
        · have e : t + 1 - (j + 1) + i = t - j + i := by omega
          rw [e]; exact hinv i hij
        · have hie : i = j := by omega
          subst hie
          have e : t + 1 - (i + 1) + i = t := by omega
          rw [e]; exact (not_not.mp hm).symm
    · rw [if_neg (fun h => hc h.2)]
      exact ⟨j, t, rfl, hjlt, not_not.mp hc⟩

/-- A pattern `*S` with literal `S` does not match a name in which `S` does not
occur. -/
theorem leadingStar_rejects_absent (S N : List Char) (hS : IsCStr S)
    (hstar : '*' ∉ S) (hni : ¬ S <:+: N) :
    psiShouldFilterTest (some ('*' :: S)) N = some 1 := by
  unfold psiShouldFilterTest
  simp only []
  unfold outerLoop
  rw [charAt_cons_zero]
  by_cases hN0 : charAt N 0 ≠ PSI_NULLCHAR
  · rw [if_pos ⟨by decide, hN0⟩, if_pos rfl]
    obtain ⟨j1, t1, e, hj1, ht1⟩ := innerLoop_no_infix S N hS hstar hni (N.length + 1) 0 0
      (by omega) (Nat.zero_le _) (Nat.zero_le _) (Nat.zero_le _)
      (fun i hi => absurd hi (Nat.not_lt_zero _))
    rw [e]
    simp only []
    have hpn : charAt ('*' :: S) (j1 + 1) ≠ PSI_NULLCHAR := by
      rw [charAt_cons_succ]; exact charAt_ne_of_isCStr hS hj1
    rw [if_neg (fun h => hpn h.1), if_pos ht1]
  · rw [if_neg (fun h => hN0 h.2), if_pos (Or.inl (by decide))]

/-! ## Test bodies leave the engine's data alone -/

theorem testcaseNames_append_other (f : Option (List Out)) (o : Out)
    (h : ∀ n, o ≠ .testcaseOpen n) :
    testcaseNames (f.map (fun l => l ++ [o])) = testcaseNames f := by
  cases f with
  | none => rfl
  | some l =>
    cases o <;> simp_all [testcaseNames, List.filterMap_append]

theorem testcaseNames_append_open (f : Option (List Out)) (n : List Char) :
    testcaseNames (f.map (fun l => l ++ [.testcaseOpen n])) =
      testcaseNames f ++ (if f.isSome then [n] else []) := by
  cases f with
  | none => simp [testcaseNames]
  | some l => simp [testcaseNames, List.filterMap_append]

theorem testcaseNames_none : testcaseNames none = [] := rfl

theorem testcaseNames_some_nil : testcaseNames (some []) = [] := rfl

theorem engineView_TAUCHECKREQUIRE_fail (cond : Bool) (m : String) (s : PsiState) :
    engineView (TAUCHECKREQUIRE cond failIfInsideTestSuite__ m s).1 = engineView s := by
  unfold TAUCHECKREQUIRE failIfInsideTestSuite__ psiPrintf printf fprintf
  cases cond <;> simp only [Bool.not_false, Bool.not_true, if_true] <;>
    (try split_ifs) <;>
    simp [engineView, testcaseNames_append_other]

theorem engineView_TAUCHECKREQUIRE_abort (cond : Bool) (m : String) (s : PsiState) :
    engineView (TAUCHECKREQUIRE cond abortIfInsideTestSuite__ m s).1 = engineView s := by
  unfold TAUCHECKREQUIRE abortIfInsideTestSuite__ psiPrintf printf fprintf
  cases cond <;> simp only [Bool.not_false, Bool.not_true, if_true] <;>
    (try split_ifs) <;>
    simp [engineView, testcaseNames_append_other]

theorem engineView_runStmts (body : List Stmt) :
    ∀ s, engineView (runStmts body s) = engineView s := by
  induction body with
  | nil => intro s; rfl
  | cons st rest ih =>
    intro s
    cases st with
    | CHECK c =>
      simp only [runStmts]
      split_ifs
      · rw [engineView_TAUCHECKREQUIRE_fail]; rfl
      · rw [ih, engineView_TAUCHECKREQUIRE_fail]; rfl
    | REQUIRE c =>
      simp only [runStmts]
      split_ifs
      · rw [engineView_TAUCHECKREQUIRE_abort]; rfl
      · rw [ih, engineView_TAUCHECKREQUIRE_abort]; rfl
    | WARN =>
      simp only [runStmts]
      rw [ih]; rfl

theorem engineView_callFunc (f : psi_testsuite_t) (s : PsiState) :
    engineView (callFunc f s) = engineView s := by
  cases f with
  | test body => exact engineView_runStmts body s
  | fixture setup run teardown =>
    simp only [callFunc]
    split_ifs
    · exact engineView_runStmts setup s
    · rw [engineView_runStmts, engineView_runStmts, engineView_runStmts]

/-! ## What a test body does to the flags -/

theorem runStmts_checkIsInsideTestSuite (body : List Stmt) :
    ∀ s, (runStmts body s).checkIsInsideTestSuite = s.checkIsInsideTestSuite := by
  induction body with
  | nil => intro s; rfl
  | cons st rest ih =>
    intro s
    cases st with
    | CHECK c =>
      simp only [runStmts]
      split_ifs <;> (try rw [ih]) <;>
        cases c <;>
        simp [TAUCHECKREQUIRE, failIfInsideTestSuite__, psiPrintf, printf, fprintf] <;>
        split_ifs <;> rfl
    | REQUIRE c =>
      simp only [runStmts]
      split_ifs <;> (try rw [ih]) <;>
        cases c <;>
        simp [TAUCHECKREQUIRE, abortIfInsideTestSuite__, psiPrintf, printf, fprintf] <;>
        split_ifs <;> rfl
    | WARN =>
      simp only [runStmts]
      rw [ih]; rfl

theorem TAUCHECKREQUIRE_true (f : PsiState → PsiState) (m : String) (s : PsiState) :
    TAUCHECKREQUIRE true f m s = (s, false) := rfl

theorem TAUCHECKREQUIRE_false_fst (f : PsiState → PsiState) (m : String) (s : PsiState) :
    (TAUCHECKREQUIRE false f m s).1 = f (printf (.assertionFailed m) (psiPrintf .location s)) := by
  simp only [TAUCHECKREQUIRE, Bool.not_false, if_true]
  split_ifs <;> rfl

theorem TAUCHECKREQUIRE_false_snd (f : PsiState → PsiState) (m : String) (s : PsiState) :
    (TAUCHECKREQUIRE false f m s).2 =
      decide ((f (printf (.assertionFailed m) (psiPrintf .location s))).shouldAbortTest ≠ 0) := by
  simp only [TAUCHECKREQUIRE, Bool.not_false, if_true]
  split_ifs with h <;> simp [h]

/-- Inside a test, the failed flag after a body is 1 when the body holds an
assertion whose condition is false, and is left as it was otherwise. -/
theorem runStmts_hasCurrentTestFailed (body : List Stmt) :
    ∀ s, s.checkIsInsideTestSuite = 1 →
      (runStmts body s).hasCurrentTestFailed =
        (if body.any Stmt.fails then 1 else s.hasCurrentTestFailed) := by
  induction body with
  | nil => intro s _; rfl
  | cons st rest ih =>
    intro s hs
    cases st with
    | CHECK c =>
      cases c with
      | true =>
        simp only [runStmts, TAUCHECKREQUIRE_true, Bool.false_eq_true, if_false,
          List.any_cons, Stmt.fails, Bool.not_true, Bool.false_or]
        exact ih _ hs
      | false =>
        simp only [runStmts, List.any_cons, Stmt.fails, Bool.not_false, Bool.true_or, if_true]
        have h1 : (TAUCHECKREQUIRE false failIfInsideTestSuite__ "CHECK"
            { s with executed := s.executed ++ [.CHECK false] }).1.hasCurrentTestFailed = 1 := by
          rw [TAUCHECKREQUIRE_false_fst]
          simp [failIfInsideTestSuite__, psiPrintf, printf, fprintf, hs]
        have h2 : (TAUCHECKREQUIRE false failIfInsideTestSuite__ "CHECK"
            { s with executed := s.executed ++ [.CHECK false] }).1.checkIsInsideTestSuite = 1 := by
          rw [TAUCHECKREQUIRE_false_fst]
          simp [failIfInsideTestSuite__, psiPrintf, printf, fprintf, hs]
        split_ifs
        · exact h1
        · rw [ih _ h2, h1]; simp
    | REQUIRE c =>
      cases c with
      | true =>
        simp only [runStmts, TAUCHECKREQUIRE_true, Bool.false_eq_true, if_false,
          List.any_cons, Stmt.fails, Bool.not_true, Bool.false_or]
        exact ih _ hs
      | false =>
        simp only [runStmts, List.any_cons, Stmt.fails, Bool.not_false, Bool.true_or, if_true]
        have h1 : (TAUCHECKREQUIRE false abortIfInsideTestSuite__ "REQUIRE"
            { s with executed := s.executed ++ [.REQUIRE false] }).1.hasCurrentTestFailed = 1 := by
          rw [TAUCHECKREQUIRE_false_fst]
          simp [abortIfInsideTestSuite__, psiPrintf, printf, fprintf, hs]
        have h2 : (TAUCHECKREQUIRE false abortIfInsideTestSuite__ "REQUIRE"
            { s with executed := s.executed ++ [.REQUIRE false] }).1.checkIsInsideTestSuite = 1 := by
          rw [TAUCHECKREQUIRE_false_fst]
          simp [abortIfInsideTestSuite__, psiPrintf, printf, fprintf, hs]
        split_ifs
        · exact h1
        · rw [ih _ h2, h1]; simp
    | WARN =>
      simp only [runStmts, List.any_cons, Stmt.fails, Bool.false_or]
      exact ih _ hs

theorem callFunc_checkIsInsideTestSuite (f : psi_testsuite_t) (s : PsiState) :
    (callFunc f s).checkIsInsideTestSuite = s.checkIsInsideTestSuite := by
  cases f with
  | test body => exact runStmts_checkIsInsideTestSuite body s
  | fixture setup run teardown =>
    simp only [callFunc]
    split_ifs
    · exact runStmts_checkIsInsideTestSuite setup s
    · rw [runStmts_checkIsInsideTestSuite, runStmts_checkIsInsideTestSuite,
        runStmts_checkIsInsideTestSuite]

/-- Called by the engine (inside flag 1, failed flag 0), a test function leaves
the failed flag at 1 exactly when it holds an assertion whose condition is false. -/
theorem callFunc_hasCurrentTestFailed (f : psi_testsuite_t) (s : PsiState)
    (hs : s.checkIsInsideTestSuite = 1) (h0 : s.hasCurrentTestFailed = 0) :
    (callFunc f s).hasCurrentTestFailed = (if recordsFailure f then 1 else 0) := by
  cases f with
  | test body =>
    simp only [callFunc, recordsFailure]
    rw [runStmts_hasCurrentTestFailed body s hs, h0]
  | fixture setup run teardown =>
    simp only [callFunc, recordsFailure]
    have e1 := runStmts_hasCurrentTestFailed setup s hs
    have c1 := runStmts_checkIsInsideTestSuite setup s
    rw [h0] at e1
    by_cases hsu : setup.any Stmt.fails = true
    · rw [hsu] at e1
      simp only [if_true] at e1
      rw [if_pos e1, e1]
      simp [hsu]
    · have hsu2 : setup.any Stmt.fails = false := by simpa using hsu
      rw [hsu2] at e1
      simp only [Bool.false_eq_true, if_false] at e1
      rw [if_neg (by rw [e1]; decide)]
      have c2 : (runStmts run (runStmts setup s)).checkIsInsideTestSuite = 1 := by
        rw [runStmts_checkIsInsideTestSuite, c1, hs]
      rw [runStmts_hasCurrentTestFailed teardown _ c2,
        runStmts_hasCurrentTestFailed run _ (by rw [c1, hs]), e1]
      simp only [hsu2, Bool.false_or]
      cases run.any Stmt.fails <;> cases teardown.any Stmt.fails <;> simp

/-! ## One iteration of `psiRunTests` -/

theorem psiRunTestsIter_spec (i : Nat) (s : PsiState) (t : psiTestSuiteStruct)
    (ht : s.tests[i]? = some t) :
    ∃ s1, psiRunTestsIter i s = some s1 ∧ IterPost i t s s1 := by
  obtain ⟨r, hr, h01⟩ := psiShouldFilterTest_total s.cmd_filter t.name
  unfold psiRunTestsIter
  simp only [ht, hr]
  rcases h01 with h0 | h1
  · subst h0
    have hruns : runs s.cmd_filter t.name = true := by simp [runs, hr]
    simp only [ne_eq, not_true_eq_false, if_false]
    by_cases hd : s.psiDisplayOnlyFailedOutput = 0 <;>
    · simp only [hd, if_true, if_false]
      generalize hY : callFunc t.func _ = Y
      have hfr : ∀ X, callFunc t.func X = Y → engineView Y = engineView X := by
        intro X h; rw [← h]; exact engineView_callFunc _ _
      have hv := hfr _ hY
      simp only [engineView, Prod.mk.injEq, fprintf, printf] at hv
      obtain ⟨h1, h2, h3, h4, h5, h6, h7, h8, h9, h10, h11, h12, h13, h14, h15⟩ := hv
      rw [testcaseNames_append_open] at h15
      clear hY hfr
      have h14b : Y.foutput.isSome = s.foutput.isSome := by
        rw [h14]; cases s.foutput <;> simp
      split_ifs <;> refine ⟨_, rfl, ?_⟩ <;>
        simp [IterPost, hruns, fprintf, printf, testcaseNames_append_other, *]
  · subst h1
    have hruns : runs s.cmd_filter t.name = false := by simp [runs, hr]
    rw [if_pos (by decide)]
    exact ⟨_, rfl, by simp [IterPost, hruns]⟩

theorem psiRunTestsIter_failed (i : Nat) (s : PsiState) (t : psiTestSuiteStruct)
    (ht : s.tests[i]? = some t) :
    ∃ s1, psiRunTestsIter i s = some s1 ∧ IterFailPost i t s s1 := by
  obtain ⟨r, hr, h01⟩ := psiShouldFilterTest_total s.cmd_filter t.name
  unfold psiRunTestsIter
  simp only [ht, hr]
  rcases h01 with h0 | h1
  · subst h0
    have hruns : runs s.cmd_filter t.name = true := by simp [runs, hr]
    simp only [ne_eq, not_true_eq_false, if_false]
    by_cases hd : s.psiDisplayOnlyFailedOutput = 0 <;>
    · simp only [hd, if_true, if_false]
      generalize hY : callFunc t.func _ = Y
      have hfr : ∀ X, callFunc t.func X = Y → engineView Y = engineView X := by
        intro X h; rw [← h]; exact engineView_callFunc _ _
      have hff : ∀ X, callFunc t.func X = Y → X.checkIsInsideTestSuite = 1 →
          X.hasCurrentTestFailed = 0 →
          Y.hasCurrentTestFailed = (if recordsFailure t.func then 1 else 0) ∧
          Y.checkIsInsideTestSuite = 1 := by
        intro X h h1 h2
        rw [← h]
        exact ⟨callFunc_hasCurrentTestFailed _ _ h1 h2,
          by rw [callFunc_checkIsInsideTestSuite, h1]⟩
      have hv := hfr _ hY
      obtain ⟨hf, hc⟩ := hff _ hY rfl rfl
      simp only [engineView, Prod.mk.injEq, fprintf, printf] at hv
      obtain ⟨h1, h2, h3, h4, h5, h6, h7, h8, h9, h10, h11, h12, h13, h14, h15⟩ := hv
      clear hY hfr hff h15 h14 h4
      by_cases hrf : recordsFailure t.func = true
      · have hY1 : Y.hasCurrentTestFailed = 1 := by rw [hf, if_pos hrf]
        simp only [fprintf, hY1, if_true]
        refine ⟨_, rfl, ?_⟩
        simp [IterFailPost, runsAndFails, hruns, hrf, printf, *]
      · have hY0 : Y.hasCurrentTestFailed = 0 := by rw [hf, if_neg hrf]
        simp only [fprintf, hY0]
        rw [if_neg (by decide)]
        split_ifs <;> refine ⟨_, rfl, ?_⟩ <;>
          simp [IterFailPost, runsAndFails, hruns, hrf, printf, *]
  · subst h1
    have hruns : runs s.cmd_filter t.name = false := by simp [runs, hr]
    rw [if_pos (by decide)]
    exact ⟨_, rfl, by simp [IterFailPost, runsAndFails, hruns]⟩

/-! ## The loops of `psiRunTests` and of the skip count -/

theorem psiRunTestsLoop_spec :
    ∀ k i s, i + k = s.tests.length →
      ∃ s1, psiRunTestsLoop k i s = some s1 ∧ LoopPost k i s s1 := by
  intro k
  induction k with
  | zero =>
    intro i s h
    refine ⟨s, rfl, ?_⟩
    have hd : s.tests.drop i = [] := List.drop_eq_nil_of_le (by omega)
    simp [LoopPost, hd]
  | succ k ih =>
    intro i s h
    have hi : i < s.tests.length := by omega
    have ht : s.tests[i]? = some (s.tests[i]) := List.getElem?_eq_getElem hi
    obtain ⟨s1, e1, p1⟩ := psiRunTestsIter_spec i s _ ht
    obtain ⟨q1, q2, q3, q4, q5, q6, q7, q8, q9⟩ := p1
    obtain ⟨s2, e2, p2⟩ := ih (i + 1) s1 (by rw [q1]; omega)
    obtain ⟨r1, r2, r3, r4, r5, r6, r7, r8, r9⟩ := p2
    refine ⟨s2, ?_, ?_⟩
    · simp only [psiRunTestsLoop, e1, e2]
    · have hdrop : s.tests.drop i = s.tests[i] :: s.tests.drop (i + 1) :=
        List.drop_eq_getElem_cons hi
      have hra : runsAt s.cmd_filter s.tests i = runs s.cmd_filter (s.tests[i]).name := by
        simp [runsAt, ht]
      refine ⟨by rw [r1, q1], by rw [r2, q2], by rw [r3, q3], by rw [r4, q4], by rw [r5, q5],
        by rw [r6, q6], by rw [r7, q7], ?_, ?_⟩
      · rw [r8, q8, q3, q1, List.range'_succ, List.filter_cons, hra]
        by_cases hr : runs s.cmd_filter (s.tests[i]).name = true <;> simp [hr]
      · rw [r9, q9, q3, q1, q4, hdrop, List.filter_cons]
        by_cases hr : runs s.cmd_filter (s.tests[i]).name = true <;>
          cases hf : s.foutput.isSome <;> simp [hr]

theorem countSkipped_spec :
    ∀ k i s, i + k = s.tests.length → s.psiStatsSkippedTests < 2 ^ 64 →
      ∃ s1, countSkipped k i s = some s1 ∧ CountPost i s s1 := by
  intro k
  induction k with
  | zero =>
    intro i s h hlt
    refine ⟨s, rfl, ?_⟩
    have hd : s.tests.drop i = [] := List.drop_eq_nil_of_le (by omega)
    simp only [CountPost, hd, u64, List.filter_nil, List.length_nil, Nat.add_zero]
    exact ⟨trivial, by omega⟩
  | succ k ih =>
    intro i s h hlt
    have hi : i < s.tests.length := by omega
    have ht : s.tests[i]? = some (s.tests[i]) := List.getElem?_eq_getElem hi
    have hdrop : s.tests.drop i = s.tests[i] :: s.tests.drop (i + 1) :=
      List.drop_eq_getElem_cons hi
    obtain ⟨r, hr, h01⟩ := psiShouldFilterTest_total s.cmd_filter (s.tests[i]).name
    simp only [countSkipped, ht, hr]
    rcases h01 with h0 | h1
    · subst h0
      have hsk : skips s.cmd_filter (s.tests[i]).name = false := by simp [skips, hr]
      simp only [ne_eq, not_true_eq_false, if_false]
      obtain ⟨s1, e1, p1, p2⟩ := ih (i + 1) s (by omega) hlt
      refine ⟨s1, e1, p1, ?_⟩
      rw [p2, hdrop, List.filter_cons, hsk]
      simp
    · subst h1
      have hsk : skips s.cmd_filter (s.tests[i]).name = true := by simp [skips, hr]
      rw [if_pos (by decide)]
      obtain ⟨s1, e1, p1, p2⟩ := ih (i + 1)
        { s with psiStatsSkippedTests := u64 (s.psiStatsSkippedTests + 1) } (by show i + 1 + k = s.tests.length; omega)
        (by simp only [u64]; exact Nat.mod_lt _ (by decide))
      refine ⟨s1, e1, p1, ?_⟩
      · rw [p2, hdrop, List.filter_cons, hsk]
        simp only [u64, if_true, List.length_cons]
        omega

theorem psiRunTestsLoop_failed :
    ∀ k i s s1, i + k = s.tests.length → s.psiStatsNumTestsFailed + k < 2 ^ 64 →
      s.psiStatsNumFailedTestSuites + k < 2 ^ 64 →
      psiRunTestsLoop k i s = some s1 → LoopFailPost k i s s1 := by
  intro k
  induction k with
  | zero =>
    intro i s s1 _ _ _ h
    simp only [psiRunTestsLoop, Option.some.injEq] at h
    subst h
    simp [LoopFailPost]
  | succ k ih =>
    intro i s s1 h hb1 hb2 hl
    have hi : i < s.tests.length := by omega
    have ht : s.tests[i]? = some (s.tests[i]) := List.getElem?_eq_getElem hi
    obtain ⟨m, em, _, pf, pn, pc⟩ := psiRunTestsIter_failed i s _ ht
    obtain ⟨m1, em1, q1, _, q3, _⟩ := psiRunTestsIter_spec i s _ ht
    have hmm : m1 = m := by
      rw [em] at em1
      exact (Option.some.inj em1).symm
    subst hmm
    simp only [psiRunTestsLoop, em] at hl
    have hfa : failsAt s.cmd_filter s.tests i = runsAndFails s.cmd_filter (s.tests[i]) := by
      simp [failsAt, ht]
    have hn1 : m1.psiStatsNumTestsFailed =
        s.psiStatsNumTestsFailed + (if runsAndFails s.cmd_filter (s.tests[i]) then 1 else 0) := by
      rw [pn]
      split_ifs
      · simp only [u64]; exact Nat.mod_eq_of_lt (by omega)
      · rfl
    have hn2 : m1.psiStatsNumFailedTestSuites =
        s.psiStatsNumFailedTestSuites +
          (if runsAndFails s.cmd_filter (s.tests[i]) then 1 else 0) := by
      rw [pc]
      split_ifs
      · simp only [u64]; exact Nat.mod_eq_of_lt (by omega)
      · rfl
    obtain ⟨r1, r2, r3⟩ := ih (i + 1) m1 s1 (by rw [q1]; omega)
      (by rw [hn1]; split_ifs <;> omega) (by rw [hn2]; split_ifs <;> omega) hl
    rw [q3, q1] at r1 r2 r3
    refine ⟨?_, ?_, ?_⟩
    · rw [r1, pf, List.range'_succ, List.filter_cons, hfa]
      split_ifs <;> simp
    · rw [r2, hn1, List.range'_succ, List.filter_cons, hfa]
      split_ifs <;> simp
      omega
    · rw [r3, hn2, List.range'_succ, List.filter_cons, hfa]
      split_ifs <;> simp
      omega

/-! ## `psiCmdLineRead` leaves the registry and the counters alone -/

theorem cmdLineView_listTests :
    ∀ k i s s1, listTests k i s = some s1 → cmdLineView s1 = cmdLineView s := by
  intro k
  induction k with
  | zero => intro i s s1 h; simp only [listTests, Option.some.injEq] at h; rw [h]
  | succ k ih =>
    intro i s s1 h
    simp only [listTests] at h
    split at h
    · exact absurd h (by simp)
    · rw [ih _ _ _ h]
      simp [cmdLineView, psiPrintf, printf, fprintf, testcaseNames_append_other]

theorem cmdLineView_psiCmdLineReadLoop (env : Env) (argv : List (List Char)) :
    ∀ fuel i s b s1, testcaseNames s.foutput = [] →
      psiCmdLineReadLoop env argv fuel i s = some (b, s1) → cmdLineView s1 = cmdLineView s := by
  intro fuel
  induction fuel with
  | zero => intro i s b s1 _ h; simp [psiCmdLineReadLoop] at h
  | succ n ih =>
    intro i s b s1 hn h
    simp only [psiCmdLineReadLoop] at h
    split at h
    · simp only [Option.some.injEq, Prod.mk.injEq] at h
      rw [← h.2]
    · split_ifs at h
      · simp only [Option.some.injEq, Prod.mk.injEq] at h
        rw [← h.2]; rfl
      · exact (ih _ _ _ _ (by exact hn) h).trans rfl
      · exact (ih _ _ _ _ (by exact hn) h).trans rfl
      · refine (ih _ _ _ _ testcaseNames_some_nil h).trans ?_
        simp [cmdLineView, hn, testcaseNames_some_nil]
      · refine (ih _ _ _ _ testcaseNames_none h).trans ?_
        simp [cmdLineView, hn, testcaseNames_none]
      · split at h
        · exact absurd h (by simp)
        · rename_i s2 hl
          have hv := cmdLineView_listTests _ _ _ _ hl
          have hn2 : testcaseNames s2.foutput = [] := by
            have := congrArg (fun v => v.2.2.2.2.2.2.2.2.2.2.2.2.2.2.2.2) hv
            simp only [cmdLineView] at this
            rw [this, hn]
          exact ((ih _ _ _ _ (by exact hn2) h).trans rfl).trans hv
      · exact (ih _ _ _ _ (by exact hn) h).trans rfl
      · exact (ih _ _ _ _ (by exact hn) h).trans rfl
      · simp only [Option.some.injEq, Prod.mk.injEq] at h
        rw [← h.2]; rfl

theorem cmdLineView_psiCmdLineRead (env : Env) (fuel : Nat) (argv : List (List Char))
    (s : PsiState) (b : Bool) (s1 : PsiState) (hn : testcaseNames s.foutput = [])
    (h : psiCmdLineRead env fuel argv s = some (b, s1)) : cmdLineView s1 = cmdLineView s := by
  unfold psiCmdLineRead at h
  exact (cmdLineView_psiCmdLineReadLoop env argv _ _ _ _ _ (by exact hn) h).trans rfl

/-- Every filter can be set from the command line. -/
theorem psiCmdLineRead_filter (env : Env) (F : List Char) (s : PsiState) :
    psiCmdLineRead env 2 ["prog".toList, "--filter=".toList ++ F] s =
      some (true, { s with psiShouldColourizeOutput := env.isatty, cmd_filter := some F }) := by
  rfl

/-- Without arguments the command line is read successfully and sets no filter. -/
theorem psiCmdLineRead_noargs (env : Env) (s : PsiState) :
    psiCmdLineRead env 1 ["prog".toList] s =
      some (true, { s with psiShouldColourizeOutput := env.isatty }) := by
  rfl

/-! ## The report and the whole of `psi_main` -/

theorem engineView_printf (o : Out) (s : PsiState) : engineView (printf o s) = engineView s := rfl

theorem engineView_fprintf (o : Out) (s : PsiState) (h : ∀ n, o ≠ .testcaseOpen n) :
    engineView (fprintf o s) = engineView s := by
  have h1 := testcaseNames_append_other s.foutput o h
  have h2 : (s.foutput.map (fun l => l ++ [o])).isSome = s.foutput.isSome := by
    cases s.foutput <;> rfl
  simp only [engineView, fprintf, h1, h2]

theorem engineView_foldl_printf (f : PsiState → Nat → Out) (l : List Nat) :
    ∀ s, engineView (l.foldl (fun st idx => printf (f st idx) st) s) = engineView s := by
  induction l with
  | nil => intro s; rfl
  | cons a l ih => intro s; rw [List.foldl_cons, ih, engineView_printf]

theorem engineView_printReport (s : PsiState) : engineView (printReport s) = engineView s := by
  unfold printReport
  simp only []
  rw [engineView_fprintf _ _ (by simp)]
  split_ifs <;>
    simp only [engineView_foldl_printf, engineView_printf]

/-- For every name the filter either lets the test run or makes the engine skip it. -/
theorem skips_eq_not_runs (filter : Option (List Char)) (name : List Char) :
    skips filter name = !runs filter name := by
  obtain ⟨r, hr, h01⟩ := psiShouldFilterTest_total filter name
  rcases h01 with h | h <;> subst h <;> simp [skips, runs, hr]

theorem length_filter_runs_add_skips (filter : Option (List Char))
    (tests : List psiTestSuiteStruct) :
    (tests.filter (fun t => runs filter t.name)).length +
      (tests.filter (fun t => skips filter t.name)).length = tests.length := by
  induction tests with
  | nil => rfl
  | cons t ts ih =>
    simp only [List.filter_cons, skips_eq_not_runs]
    simp only [skips_eq_not_runs] at ih
    cases runs filter t.name <;> simp <;> omega

theorem filter_range_runsAt (filter : Option (List Char)) (tests : List psiTestSuiteStruct) :
    ∀ k i, i + k = tests.length →
      ((List.range' i k).filter (runsAt filter tests)).map (fun j => tests[j]?) =
        ((tests.drop i).filter (fun t => runs filter t.name)).map some := by
  intro k
  induction k with
  | zero =>
    intro i h
    have hd : tests.drop i = [] := List.drop_eq_nil_of_le (by omega)
    simp [hd]
  | succ k ih =>
    intro i h
    have hi : i < tests.length := by omega
    have ht : tests[i]? = some (tests[i]) := List.getElem?_eq_getElem hi
    have hdrop : tests.drop i = tests[i] :: tests.drop (i + 1) := List.drop_eq_getElem_cons hi
    have hra : runsAt filter tests i = runs filter (tests[i]).name := by simp [runsAt, ht]
    rw [List.range'_succ, List.filter_cons, hdrop, List.filter_cons, hra]
    by_cases hr : runs filter (tests[i]).name = true
    · simp only [hr, if_true, List.map_cons, ih (i + 1) (by omega), ht]
    · simp only [hr, if_false]
      exact ih (i + 1) (by omega)

theorem psiRunTests_spec (s : PsiState) (h : s.numTestSuites = s.tests.length) :
    ∃ s1, psiRunTests s = some s1 ∧ LoopPost s.tests.length 0 s s1 := by
  obtain ⟨s1, e, p⟩ := psiRunTestsLoop_spec s.tests.length 0 s (by omega)
  refine ⟨printf (.suitesRan s1.psiStatsTestsRan) s1, ?_, ?_⟩
  · simp only [psiRunTests, h, e]
  · exact p

theorem psi_main_spec (env : Env) (fuel : Nat) (argv : List (List Char))
    (tests : List psiTestSuiteStruct) (s1 : PsiState) (hsize : tests.length < 2 ^ 64)
    (hcmd : psiCmdLineRead env fuel argv
      { freshState tests with
        psiStatsTotalTestSuites := u64 tests.length, psi_argv0_ := argv[0]? } = some (true, s1))
    (hlist : s1.psiDisplayTests = 0) :
    ∃ r s2, psi_main env fuel argv (freshState tests) = some (r, s2) ∧
      MainPost tests s1.cmd_filter s1.foutput.isSome s2 := by
  have hv := cmdLineView_psiCmdLineRead env fuel argv _ true s1 testcaseNames_none hcmd
  simp only [cmdLineView, Prod.mk.injEq, freshState, initialState] at hv
  obtain ⟨v1, v2, v3, v4, v5, v6, v7, v8, v9, v10, v11, v12, v13, v14, v15, v16, v17⟩ := hv
  obtain ⟨s2, e2, p1, p2⟩ := countSkipped_spec s1.numTestSuites 0 s1 (by rw [v1, v2]; omega)
    (by rw [v13]; decide)
  have hs0 : ({ freshState tests with
        psiStatsTotalTestSuites := u64 (freshState tests).numTestSuites,
        psi_argv0_ := argv[0]? } : PsiState) =
      { freshState tests with
        psiStatsTotalTestSuites := u64 tests.length, psi_argv0_ := argv[0]? } := rfl
  unfold psi_main
  simp only []
  rw [hs0, hcmd]
  simp only [hlist, ne_eq, not_true_eq_false, if_false, Bool.not_true, e2]
  generalize hs5 : fprintf (Out.testsuiteOpen _) _ = s5
  have q1 : s2.tests = tests := by rw [p1]; exact v1
  have q2 : s2.numTestSuites = tests.length := by rw [p1]; exact v2
  have q3 : s2.cmd_filter = s1.cmd_filter := by rw [p1]
  have q4 : s2.invoked = [] := by rw [p1]; exact v3
  have q5 : s2.foutput = s1.foutput := by rw [p1]
  have q6 : s2.psiStatsTotalTestSuites = u64 tests.length := by rw [p1]; exact v10
  have hview : engineView s5 =
      engineView
        { s2 with
          psiStatsTestsRan := subU64 s2.psiStatsTotalTestSuites s2.psiStatsSkippedTests } := by
    rw [← hs5, engineView_fprintf _ _ (by simp), engineView_fprintf _ _ (by simp),
      engineView_fprintf _ _ (by simp), engineView_printf]
  simp only [engineView, Prod.mk.injEq] at hview
  obtain ⟨w1, w2, w3, w4, w5, w6, w7, w8, w9, w10, w11, w12, w13, w14, w15⟩ := hview
  clear hs5
  obtain ⟨s6, e6, r1, r2, r3, r4, r5, r6, r7, r8, r9⟩ :=
    psiRunTests_spec s5 (by rw [w1, w2, q1, q2])
  rw [e6]
  simp only []
  refine ⟨_, _, rfl, ?_⟩
  have hrep := engineView_printReport s6
  simp only [engineView, Prod.mk.injEq] at hrep
  obtain ⟨f1, f2, f3, f4, f5, f6, f7, f8, f9, f10, f11, f12, f13, f14, f15⟩ := hrep
  have hcnt : (tests.filter (fun t => skips s1.cmd_filter t.name)).length ≤ tests.length :=
    List.length_filter_le _ _
  have hsk : s2.psiStatsSkippedTests =
      (tests.filter (fun t => skips s1.cmd_filter t.name)).length := by
    rw [p2, v13, v1]
    simp only [List.drop_zero, Nat.zero_add, u64]
    exact Nat.mod_eq_of_lt (by omega)
  have hopen : s5.foutput.isSome = s1.foutput.isSome := by rw [w14, q5]
  simp only [MainPost, psiCleanup]
  refine ⟨?_, ?_, ?_, ?_, ?_, ?_⟩
  · rw [f4, r8, w4, w3, w1, q1]
    simp only [q4, q3, List.nil_append, List.range_eq_range']
  · rw [f15, r9, w15, w3, w1, hopen]
    simp only [q5, v17, testcaseNames_none, q1, q3, List.nil_append, List.drop_zero]
  · rw [f14, r4, hopen]
  · rw [f8, r7, w8]
    exact hsk
  · rw [f6, r6, w6]
    simp only [q6, hsk, subU64, u64]
    omega
  · rw [f5, r5, w5]
    simp only [q6, u64]
    exact Nat.mod_eq_of_lt hsize

/-! ## The engine proper and the failure bookkeeping of `psi_main` -/

theorem psiRunTests_full (s : PsiState) (h : s.numTestSuites = s.tests.length)
    (hb1 : s.psiStatsNumTestsFailed + s.tests.length < 2 ^ 64)
    (hb2 : s.psiStatsNumFailedTestSuites + s.tests.length < 2 ^ 64) :
    ∃ s1, psiRunTests s = some s1 ∧ LoopPost s.tests.length 0 s s1 ∧
      LoopFailPost s.tests.length 0 s s1 := by
  obtain ⟨s1, e, p⟩ := psiRunTestsLoop_spec s.tests.length 0 s (by omega)
  have pf := psiRunTestsLoop_failed s.tests.length 0 s s1 (by omega) hb1 hb2 e
  refine ⟨printf (.suitesRan s1.psiStatsTestsRan) s1, ?_, ?_, ?_⟩
  · simp only [psiRunTests, h, e]
  · exact p
  · exact pf

theorem runEngine_spec (s : PsiState) (h : s.numTestSuites = s.tests.length)
    (hsk : s.psiStatsSkippedTests < 2 ^ 64)
    (hb1 : s.psiStatsNumTestsFailed + s.tests.length < 2 ^ 64)
    (hb2 : s.psiStatsNumFailedTestSuites + s.tests.length < 2 ^ 64) :
    ∃ a, runEngine s = some a ∧ EnginePost s a := by
  obtain ⟨s2, e2, p1, p2⟩ := countSkipped_spec s.numTestSuites 0 s (by omega) hsk
  unfold runEngine
  simp only [e2]
  generalize hs5 : fprintf (Out.testsuiteOpen _) _ = s5
  have q7 : s2.psiStatsNumTestsFailed = s.psiStatsNumTestsFailed := by rw [p1]
  have q8 : s2.psiStatsNumFailedTestSuites = s.psiStatsNumFailedTestSuites := by rw [p1]
  have q9 : s2.psiStatsFailedTestSuites = s.psiStatsFailedTestSuites := by rw [p1]
  have q1 : s2.tests = s.tests := by rw [p1]
  have q2 : s2.numTestSuites = s.numTestSuites := by rw [p1]
  have q3 : s2.cmd_filter = s.cmd_filter := by rw [p1]
  have q4 : s2.invoked = s.invoked := by rw [p1]
  have q6 : s2.psiStatsTotalTestSuites = s.psiStatsTotalTestSuites := by rw [p1]
  have hview : engineView s5 =
      engineView
        { s2 with
          psiStatsTestsRan := subU64 s2.psiStatsTotalTestSuites s2.psiStatsSkippedTests } := by
    rw [← hs5, engineView_fprintf _ _ (by simp), engineView_fprintf _ _ (by simp),
      engineView_fprintf _ _ (by simp), engineView_printf]
  simp only [engineView, Prod.mk.injEq] at hview
  obtain ⟨w1, w2, w3, w4, w5, w6, w7, w8, w9, w10, w11, w12, w13, w14, w15⟩ := hview
  clear hs5
  obtain ⟨a, ea, ⟨r1, r2, r3, r4, r5, r6, r7, r8, r9⟩, ⟨g1, g2, g3⟩⟩ :=
    psiRunTests_full s5 (by rw [w1, w2, q1, q2, h]) (by rw [w7, w1, q7, q1]; exact hb1)
      (by rw [w10, w1, q8, q1]; exact hb2)
  refine ⟨a, ea, ?_⟩
  simp only [EnginePost]
  refine ⟨?_, ?_, ?_, ?_, ?_, ?_, ?_, ?_, ?_, ?_⟩
  · rw [r1, w1, q1]
  · rw [r2, w2, q2]
  · rw [r3, w3, q3]
  · rw [r5, w5, q6]
  · rw [r8, w4, w3, w1, q4, q3, q1, List.range_eq_range']
  · rw [r7, w8, p2]
    simp only [List.drop_zero]
  · rw [r6, w6, r7, w8, q6]
  · rw [g1, w9, w3, w1, q9, q3, q1, List.range_eq_range']
  · rw [g2, w7, w3, w1, q7, q3, q1, List.range_eq_range']
  · rw [g3, w10, w3, w1, q8, q3, q1, List.range_eq_range']

/-- After a successful read of the command line that did not ask for the list,
`psi_main` is the engine proper followed by the report and `psiCleanup`. -/
theorem psi_main_of_cmdLine (env : Env) (fuel : Nat) (argv : List (List Char))
    (s s1 : PsiState)
    (hcmd : psiCmdLineRead env fuel argv
      { s with psiStatsTotalTestSuites := u64 s.numTestSuites, psi_argv0_ := argv[0]? } =
        some (true, s1))
    (hlist : s1.psiDisplayTests = 0) :
    psi_main env fuel argv s = (runEngine s1).map (fun s6 => psiCleanup (printReport s6)) := by
  unfold psi_main runEngine
  simp only []
  rw [hcmd]
  simp only [hlist, ne_eq, not_true_eq_false, if_false, Bool.not_true]
  cases countSkipped s1.numTestSuites 0 s1 with
  | none => rfl
  | some s2 =>
    simp only []
    cases psiRunTests _ <;> rfl

theorem psi_main_failed_spec (env : Env) (fuel : Nat) (argv : List (List Char))
    (tests : List psiTestSuiteStruct) (s1 : PsiState) (hsize : tests.length < 2 ^ 64)
    (hcmd : psiCmdLineRead env fuel argv
      { freshState tests with
        psiStatsTotalTestSuites := u64 tests.length, psi_argv0_ := argv[0]? } = some (true, s1))
    (hlist : s1.psiDisplayTests = 0) :
    ∃ r s2, psi_main env fuel argv (freshState tests) = some (r, s2) ∧
      MainPost tests s1.cmd_filter s1.foutput.isSome s2 ∧
      MainFailPost tests s1.cmd_filter r s2 := by
  obtain ⟨r, s2, hm, hpost⟩ := psi_main_spec env fuel argv tests s1 hsize hcmd hlist
  refine ⟨r, s2, hm, hpost, ?_⟩
  have hv := cmdLineView_psiCmdLineRead env fuel argv _ true s1 testcaseNames_none hcmd
  simp only [cmdLineView, Prod.mk.injEq, freshState, initialState] at hv
  obtain ⟨v1, v2, v3, v4, v5, v6, v7, v8, v9, v10, v11, v12, v13, v14, v15, v16, v17⟩ := hv
  obtain ⟨a, ea, b1, b2, b3, b4, b5, b6, b7, b8, b9, b10⟩ :=
    runEngine_spec s1 (by rw [v1, v2]) (by rw [v13]; decide) (by rw [v12, v1]; omega)
      (by rw [v15, v1]; omega)
  have hm2 := psi_main_of_cmdLine env fuel argv (freshState tests) s1 hcmd hlist
  rw [hm, ea] at hm2
  simp only [Option.map_some', Option.some.injEq, psiCleanup, Prod.mk.injEq] at hm2
  obtain ⟨hr, hs⟩ := hm2
  have hrep := engineView_printReport a
  rw [← hs] at hrep
  simp only [engineView, Prod.mk.injEq] at hrep
  obtain ⟨f1, f2, f3, f4, f5, f6, f7, f8, f9, f10, f11, f12, f13, f14, f15⟩ := hrep
  rw [v1] at b8 b9 b10
  rw [v14] at b8
  rw [v12] at b9
  rw [v15] at b10
  simp only [List.nil_append, Nat.zero_add] at b8 b9 b10
  refine ⟨by rw [f9, b8], by rw [f7, b9], by rw [f10, b10], ?_⟩
  rw [hr, ← hs, f7, b9]

/-! ## Claims on the filter matcher -/

/-- C2 (the code departs from it): for a pattern without `*` the claim makes the
result 0 exactly when pattern and name are equal.  On the code the pattern `abc`
gives 1 on the name `abc` and 0 on the different name `abcd`. -/
theorem psiShouldFilterTest_literal_divergence :
    psiShouldFilterTest (some "abc".toList) "abc".toList = some 1 ∧
    psiShouldFilterTest (some "abc".toList) "abcd".toList = some 0 := by
  decide

/-- C3: with a NULL filter `psiShouldFilterTest` returns 0 for every name, the
empty name included. -/
theorem psiShouldFilterTest_null (N : List Char) :
    psiShouldFilterTest none N = some 0 := by
  rfl

/-- C4 as stated fails: the pattern `*` gives 1 (skip) on the empty name. -/
theorem psiShouldFilterTest_star_empty :
    psiShouldFilterTest (some "*".toList) "".toList = some 1 := by
  decide

/-- C4 (amended): for every non-empty name `N`, `psiShouldFilterTest("*", N)`
returns 0. -/
theorem psiShouldFilterTest_single_star (N : List Char) (hN : IsCStr N) (hne : N ≠ []) :
    psiShouldFilterTest (some ['*']) N = some 0 := by
  have h := trailingStar_matches_longer [] N (by simp [IsCStr]) (by simp) hN hne
  simpa using h

/-- Witness of C4 (amended) on the name `Suite.Case`. -/
theorem psiShouldFilterTest_single_star_witness :
    psiShouldFilterTest (some ['*']) "Suite.Case".toList = some 0 :=
  psiShouldFilterTest_single_star "Suite.Case".toList (by decide) (by decide)

/-- C5 as stated fails: with `N = S` the pattern `Suite*` gives 1 (skip) on the
name `Suite`. -/
theorem psiShouldFilterTest_prefix_self :
    psiShouldFilterTest (some ("Suite".toList ++ ['*'])) "Suite".toList = some 1 := by
  decide

/-- C5 (amended): for every `S` without `*` and every name `N` that starts with
`S` and is strictly longer than `S`, `psiShouldFilterTest(S ++ "*", N)` returns 0. -/
theorem psiShouldFilterTest_prefix (S N : List Char) (hS : IsCStr S) (hstar : '*' ∉ S)
    (hN : IsCStr N) (hpre : S <+: N) (hlong : S.length < N.length) :
    psiShouldFilterTest (some (S ++ ['*'])) N = some 0 := by
  obtain ⟨R, rfl⟩ := hpre
  have hR : IsCStr R := fun h => hN (List.mem_append_right S h)
  have hne : R ≠ [] := by
    intro e
    subst e
    simp at hlong
  exact trailingStar_matches_longer S R hS hstar hR hne

/-- Witness of C5 (amended): `Suite*` matches `Suite.Case`. -/
theorem psiShouldFilterTest_prefix_witness :
    psiShouldFilterTest (some ("Suite".toList ++ ['*'])) "Suite.Case".toList = some 0 :=
  psiShouldFilterTest_prefix "Suite".toList "Suite.Case".toList (by decide) (by decide)
    (by decide) (by decide) (by decide)

/-- C6 as stated fails: the name `aab` ends with `ab`, yet the pattern `*ab`
gives 1 (skip) on it. -/
theorem psiShouldFilterTest_suffix_counterexample :
    "ab".toList <:+ "aab".toList ∧
    psiShouldFilterTest (some ('*' :: "ab".toList)) "aab".toList = some 1 := by
  decide

/-- C6 (amended): for every non-empty `S` without `*` and every name `N`,
`psiShouldFilterTest("*" ++ S, N)` returns 0 when `N` ends with `S` and the first
character of `S` does not occur in `N` before that final `S`, and returns 1 when
`S` does not occur in `N` as a contiguous substring. -/
theorem psiShouldFilterTest_suffix (S N : List Char) (hS : IsCStr S) (hstar : '*' ∉ S)
    (hN : IsCStr N) (hne : S ≠ []) :
    (∀ U, N = U ++ S → (∀ c, S.head? = some c → c ∉ U) →
      psiShouldFilterTest (some ('*' :: S)) N = some 0) ∧
    (¬ S <:+: N → psiShouldFilterTest (some ('*' :: S)) N = some 1) := by
  constructor
  · intro U hU hfirst
    subst hU
    have hUc : IsCStr U := fun h => hN (List.mem_append_left S h)
    exact leadingStar_matches_at_end S U hS hstar hUc hne hfirst
  · intro hni
    exact leadingStar_rejects_absent S N hS hstar hni

/-- Witness of C6 (amended): `*.Case` matches `Suite.Case` and does not match
`Suite.Other`. -/
theorem psiShouldFilterTest_suffix_witness :
    psiShouldFilterTest (some ('*' :: ".Case".toList)) "Suite.Case".toList = some 0 ∧
    psiShouldFilterTest (some ('*' :: ".Case".toList)) "Suite.Other".toList = some 1 :=
  ⟨(psiShouldFilterTest_suffix ".Case".toList "Suite.Case".toList (by decide) (by decide)
      (by decide) (by decide)).1 "Suite".toList (by decide) (by decide),
    (psiShouldFilterTest_suffix ".Case".toList "Suite.Other".toList (by decide) (by decide)
      (by decide) (by decide)).2 (by decide)⟩

/-- C7: when pattern and name agree up to a position `i` inside both, the
pattern has no `*` at any position up to `i`, and the two differ at `i`,
`psiShouldFilterTest` returns 1. -/
theorem psiShouldFilterTest_literal_mismatch (P N : List Char) (hP : IsCStr P) (hN : IsCStr N)
    (i : Nat) (hiP : i < P.length) (hiN : i < N.length)
    (hstar : ∀ k, k ≤ i → charAt P k ≠ '*')
    (hagree : ∀ k, k < i → charAt P k = charAt N k)
    (hdiff : charAt P i ≠ charAt N i) :
    psiShouldFilterTest (some P) N = some 1 := by
  unfold psiShouldFilterTest
  have e : P.length + N.length + 1 = (P.length + N.length - i) + 1 + i := by omega
  simp only []
  rw [e]
  exact outerLoop_literal_mismatch P N _ i
    (fun j hj => ⟨charAt_ne_of_isCStr hP (by omega), hstar j (by omega), (hagree j hj).symm⟩)
    (charAt_ne_of_isCStr hP hiP) (charAt_ne_of_isCStr hN hiN) (hstar i (le_refl _)) hdiff

/-- Witness of C7: `Suite*` does not match `Other.Case` (they differ at position 0). -/
theorem psiShouldFilterTest_literal_mismatch_witness :
    psiShouldFilterTest (some "Suite*".toList) "Other.Case".toList = some 1 :=
  psiShouldFilterTest_literal_mismatch "Suite*".toList "Other.Case".toList (by decide)
    (by decide) 0 (by decide) (by decide) (by decide) (by decide) (by decide)

/-- C8 (the code departs from it): the claim makes the empty pattern not match a
non-empty name.  On the code `psiShouldFilterTest("", "Suite.Case")` is 0. -/
theorem psiShouldFilterTest_empty_pattern_divergence :
    psiShouldFilterTest (some "".toList) "Suite.Case".toList = some 0 := by
  decide

/-! ## Claims on the engine -/

/-- C9: on every registry and with every filter, a run of `psi_main` whose
command line was read successfully (and did not ask for the list) completes;
the test functions it invokes are those registered at the indices whose name
the filter lets run, in registration order and once each, that is, exactly the
filtered registry; with a report file open the `<testcase>` entries carry the
names of the same tests in the same order; and the number of invoked tests is
`psiStatsTestsRan`. -/
theorem psi_main_invokes_selected (env : Env) (fuel : Nat) (argv : List (List Char))
    (tests : List psiTestSuiteStruct) (s1 : PsiState) (hsize : tests.length < 2 ^ 64)
    (hcmd : psiCmdLineRead env fuel argv
      { freshState tests with
        psiStatsTotalTestSuites := u64 tests.length, psi_argv0_ := argv[0]? } = some (true, s1))
    (hlist : s1.psiDisplayTests = 0) :
    ∃ r s2, psi_main env fuel argv (freshState tests) = some (r, s2) ∧
      s2.invoked = (List.range tests.length).filter (runsAt s1.cmd_filter tests) ∧
      s2.invoked.map (fun i => tests[i]?) =
        (tests.filter (fun t => runs s1.cmd_filter t.name)).map some ∧
      (s1.foutput.isSome = true →
        testcaseNames s2.foutput =
          (tests.filter (fun t => runs s1.cmd_filter t.name)).map (fun t => t.name)) ∧
      s2.psiStatsTestsRan = s2.invoked.length := by
  obtain ⟨r, s2, h, m1, m2, m3, m4, m5, m6⟩ :=
    psi_main_spec env fuel argv tests s1 hsize hcmd hlist
  have hmap : s2.invoked.map (fun i => tests[i]?) =
      (tests.filter (fun t => runs s1.cmd_filter t.name)).map some := by
    rw [m1, List.range_eq_range']
    have := filter_range_runsAt s1.cmd_filter tests tests.length 0 (by omega)
    simpa using this
  refine ⟨r, s2, h, m1, hmap, ?_, ?_⟩
  · intro ho
    rw [m2, ho]
    rfl
  · have hlen := congrArg List.length hmap
    simp only [List.length_map] at hlen
    have hsum := length_filter_runs_add_skips s1.cmd_filter tests
    rw [m5, hlen]
    omega

/-- Witness of C9: tests `A.one`, `A.two`, `B.one` with filter `A*` run `A.one`
then `A.two` only, the report file gets these two `<testcase>` entries, and
`psiStatsTestsRan` is 2. -/
theorem psi_main_invokes_selected_witness :
    ∃ r s2, psi_main scenarioEnv 3 scenarioArgv (freshState scenarioTests) = some (r, s2) ∧
      s2.invoked = [0, 1] ∧
      testcaseNames s2.foutput = ["A.one".toList, "A.two".toList] ∧
      s2.psiStatsTestsRan = 2 := by
  obtain ⟨r, s2, h, hinv, _, hfile, hran⟩ :=
    psi_main_invokes_selected scenarioEnv 3 scenarioArgv scenarioTests scenarioAfterCmdLine
      (by decide) rfl rfl
  have e : (List.range scenarioTests.length).filter
      (runsAt scenarioAfterCmdLine.cmd_filter scenarioTests) = [0, 1] := by decide
  have e2 : (scenarioTests.filter
      (fun t => runs scenarioAfterCmdLine.cmd_filter t.name)).map (fun t => t.name) =
      ["A.one".toList, "A.two".toList] := by decide
  exact ⟨r, s2, h, hinv.trans e, (hfile rfl).trans e2, by rw [hran, hinv, e]; rfl⟩

/-- C10 as stated fails: on `prog --help` with the three tests of the scenario
registered, `psi_main` completes with `psiStatsTestsRan` and
`psiStatsSkippedTests` both 0 and `psiStatsTotalTestSuites` 3; on
`prog --filter=A* --help` it completes with `psiStatsSkippedTests` 0 although
the filter `A*` gives a non-zero result on one registered name. -/
theorem psi_main_early_return_counterexample :
    (psi_main scenarioEnv 2 ["prog".toList, "--help".toList] (freshState scenarioTests)).map
      (fun p => (p.2.psiStatsTestsRan, p.2.psiStatsSkippedTests,
        p.2.psiStatsTotalTestSuites)) = some (0, 0, 3) ∧
    (psi_main scenarioEnv 3 ["prog".toList, "--filter=A*".toList, "--help".toList]
        (freshState scenarioTests)).map
      (fun p => (p.2.cmd_filter, p.2.psiStatsSkippedTests)) = some (some "A*".toList, 0) ∧
    (scenarioTests.filter (fun t => skips (some "A*".toList) t.name)).length = 1 :=
  ⟨rfl, rfl, by decide⟩

/-- C10 (amended): every run of `psi_main` started from fresh counters in which
`psiCmdLineRead` returns completes, with `psiStatsTotalTestSuites` the number
of registered tests.  When the command line was read successfully and did not
ask for the list, `psiStatsSkippedTests` is the number of registered names on
which `psiShouldFilterTest` is non-zero and
`psiStatsTestsRan + psiStatsSkippedTests = psiStatsTotalTestSuites`.  In every
other completed run (`--help`, `--list`, an argument reported as an error)
`psi_main` returns before the skip count: `psiStatsSkippedTests` and
`psiStatsTestsRan` are 0 and no test is called. -/
theorem psi_main_counters (env : Env) (fuel : Nat) (argv : List (List Char))
    (tests : List psiTestSuiteStruct) (b : Bool) (s1 : PsiState)
    (hsize : tests.length < 2 ^ 64)
    (hcmd : psiCmdLineRead env fuel argv
      { freshState tests with
        psiStatsTotalTestSuites := u64 tests.length, psi_argv0_ := argv[0]? } = some (b, s1)) :
    ∃ r s2, psi_main env fuel argv (freshState tests) = some (r, s2) ∧
      s2.psiStatsTotalTestSuites = tests.length ∧
      (b = true ∧ s1.psiDisplayTests = 0 →
        s2.psiStatsSkippedTests =
          (tests.filter (fun t => skips s1.cmd_filter t.name)).length ∧
        s2.psiStatsTestsRan + s2.psiStatsSkippedTests = s2.psiStatsTotalTestSuites) ∧
      (¬ (b = true ∧ s1.psiDisplayTests = 0) →
        s2.psiStatsSkippedTests = 0 ∧ s2.psiStatsTestsRan = 0 ∧ s2.invoked = []) := by
  by_cases hrun : b = true ∧ s1.psiDisplayTests = 0
  · obtain ⟨hb, hlist⟩ := hrun
    subst hb
    obtain ⟨r, s2, h, m1, m2, m3, m4, m5, m6⟩ :=
      psi_main_spec env fuel argv tests s1 hsize hcmd hlist
    have hcnt : (tests.filter (fun t => skips s1.cmd_filter t.name)).length ≤ tests.length :=
      List.length_filter_le _ _
    refine ⟨r, s2, h, m6, fun _ => ⟨m4, ?_⟩, fun hn => absurd ⟨rfl, hlist⟩ hn⟩
    rw [m4, m5, m6]
    omega
  · have hv := cmdLineView_psiCmdLineRead env fuel argv _ b s1 testcaseNames_none hcmd
    simp only [cmdLineView, Prod.mk.injEq, freshState, initialState] at hv
    obtain ⟨v1, v2, v3, v4, v5, v6, v7, v8, v9, v10, v11, v12, v13, v14, v15, v16, v17⟩ := hv
    have hm : psi_main env fuel argv (freshState tests) = some (psiCleanup s1) := by
      unfold psi_main
      simp only []
      have hcmd2 : psiCmdLineRead env fuel argv
          { freshState tests with
            psiStatsTotalTestSuites := u64 (freshState tests).numTestSuites
            psi_argv0_ := argv[0]? } = some (b, s1) := hcmd
      rw [hcmd2]
      simp only []
      by_cases hl : s1.psiDisplayTests ≠ 0
      · rw [if_pos hl]
      · rw [if_neg hl]
        have hb : b = false := by
          cases b with
          | false => rfl
          | true => exact absurd ⟨rfl, not_not.mp hl⟩ hrun
        subst hb
        rfl
    refine ⟨(psiCleanup s1).1, (psiCleanup s1).2, hm, ?_, fun h => absurd h hrun, fun _ => ?_⟩
    · show s1.psiStatsTotalTestSuites = tests.length
      rw [v10]
      exact Nat.mod_eq_of_lt hsize
    · refine ⟨?_, ?_, ?_⟩
      · show s1.psiStatsSkippedTests = 0
        rw [v13]
      · show s1.psiStatsTestsRan = 0
        rw [v11]
      · show s1.invoked = []
        rw [v3]

/-- Witness of C10 (amended): on the scenario with filter `A*` one test is
skipped, two are run, three are registered; on `prog --help` none is skipped,
none is run, three are registered. -/
theorem psi_main_counters_witness :
    (∃ r s2, psi_main scenarioEnv 3 scenarioArgv (freshState scenarioTests) = some (r, s2) ∧
      s2.psiStatsSkippedTests = 1 ∧ s2.psiStatsTestsRan = 2 ∧
      s2.psiStatsTotalTestSuites = 3) ∧
    (∃ r s2, psi_main scenarioEnv 2 ["prog".toList, "--help".toList]
        (freshState scenarioTests) = some (r, s2) ∧
      s2.psiStatsSkippedTests = 0 ∧ s2.psiStatsTestsRan = 0 ∧
      s2.psiStatsTotalTestSuites = 3) := by
  constructor
  · obtain ⟨r, s2, h, ht, hrun, _⟩ :=
      psi_main_counters scenarioEnv 3 scenarioArgv scenarioTests true scenarioAfterCmdLine
        (by decide) rfl
    obtain ⟨hsk, hsum⟩ := hrun ⟨rfl, rfl⟩
    have e : (scenarioTests.filter
        (fun t => skips scenarioAfterCmdLine.cmd_filter t.name)).length = 1 := by decide
    have e3 : scenarioTests.length = 3 := rfl
    rw [e] at hsk
    rw [hsk, ht, e3] at hsum
    exact ⟨r, s2, h, hsk, by omega, ht.trans e3⟩
  · obtain ⟨r, s2, h, ht, _, hearly⟩ :=
      psi_main_counters scenarioEnv 2 ["prog".toList, "--help".toList] scenarioTests false
        (printf .help
          { freshState scenarioTests with
            psiStatsTotalTestSuites := 3
            psi_argv0_ := some "prog".toList
            psiShouldColourizeOutput := 0 })
        (by decide) rfl
    obtain ⟨hsk, hran, _⟩ := hearly (by simp)
    exact ⟨r, s2, h, hsk, hran, ht⟩

/-- The indices of a registry selected through their entries are the entries
selected. -/
theorem filter_range_getElem? (p : psiTestSuiteStruct → Bool) (tests : List psiTestSuiteStruct) :
    ∀ k i, i + k = tests.length →
      ((List.range' i k).filter (fun j => match tests[j]? with
          | some t => p t
          | none => false)).map (fun j => tests[j]?) =
        ((tests.drop i).filter p).map some := by
  intro k
  induction k with
  | zero =>
    intro i h
    have hd : tests.drop i = [] := List.drop_eq_nil_of_le (by omega)
    simp [hd]
  | succ k ih =>
    intro i h
    have hi : i < tests.length := by omega
    have ht : tests[i]? = some (tests[i]) := List.getElem?_eq_getElem hi
    have hdrop : tests.drop i = tests[i] :: tests.drop (i + 1) := List.drop_eq_getElem_cons hi
    rw [List.range'_succ, List.filter_cons, hdrop, List.filter_cons]
    simp only [ht]
    by_cases hr : p (tests[i]) = true
    · simp only [hr, if_true, List.map_cons, ih (i + 1) (by omega), ht]
    · simp only [hr, if_false]
      exact ih (i + 1) (by omega)

theorem length_filter_failsAt (filter : Option (List Char)) (tests : List psiTestSuiteStruct) :
    ((List.range tests.length).filter (failsAt filter tests)).length =
      (tests.filter (runsAndFails filter)).length := by
  have h := congrArg List.length
    (filter_range_getElem? (runsAndFails filter) tests tests.length 0 (by omega))
  simp only [List.length_map, List.drop_zero] at h
  rw [List.range_eq_range']
  exact h

theorem mem_failed_iff (filter : Option (List Char)) (tests : List psiTestSuiteStruct) (i : Nat) :
    i ∈ (List.range tests.length).filter (failsAt filter tests) ↔
      i < tests.length ∧ failsAt filter tests i = true := by
  simp [List.mem_filter]

theorem runsAt_of_failsAt (filter : Option (List Char)) (tests : List psiTestSuiteStruct)
    (i : Nat) (h : failsAt filter tests i = true) : runsAt filter tests i = true := by
  unfold failsAt at h
  unfold runsAt
  cases ht : tests[i]? with
  | none => rw [ht] at h; exact absurd h (by simp)
  | some t =>
    rw [ht] at h
    simp only [runsAndFails, Bool.and_eq_true] at h
    exact h.1

theorem recordsFailure_of_holdsFailedRequire (f : psi_testsuite_t)
    (h : holdsFailedRequire f) : recordsFailure f = true := by
  have key : ∀ l : List Stmt, Stmt.REQUIRE false ∈ l → l.any Stmt.fails = true := by
    intro l hl
    rw [List.any_eq_true]
    exact ⟨_, hl, rfl⟩
  cases f with
  | test body => exact key body h
  | fixture setup run teardown =>
    simp only [recordsFailure, Bool.or_eq_true]
    rcases h with h | h | h
    · exact Or.inl (Or.inl (key _ h))
    · exact Or.inl (Or.inr (key _ h))
    · exact Or.inr (key _ h)

/-- C11: after every completed run of `psi_main`, `psiStatsNumTestsFailed`
equals `psiStatsNumFailedTestSuites`, which is the length of the failed-index
list `psiStatsFailedTestSuites`, and every index in that list is a valid index
of the registry, of a test that the filter did not skip. -/
theorem psi_main_failed_indices (env : Env) (fuel : Nat) (argv : List (List Char))
    (tests : List psiTestSuiteStruct) (s1 : PsiState) (hsize : tests.length < 2 ^ 64)
    (hcmd : psiCmdLineRead env fuel argv
      { freshState tests with
        psiStatsTotalTestSuites := u64 tests.length, psi_argv0_ := argv[0]? } = some (true, s1))
    (hlist : s1.psiDisplayTests = 0) :
    ∃ r s2, psi_main env fuel argv (freshState tests) = some (r, s2) ∧
      s2.psiStatsNumTestsFailed = s2.psiStatsNumFailedTestSuites ∧
      s2.psiStatsNumFailedTestSuites = s2.psiStatsFailedTestSuites.length ∧
      ∀ i, i ∈ s2.psiStatsFailedTestSuites →
        i < tests.length ∧ runsAt s1.cmd_filter tests i = true := by
  obtain ⟨r, s2, h, _, m1, m2, m3, _⟩ :=
    psi_main_failed_spec env fuel argv tests s1 hsize hcmd hlist
  refine ⟨r, s2, h, by rw [m2, m3], by rw [m3, m1], ?_⟩
  intro i hi
  rw [m1, mem_failed_iff] at hi
  exact ⟨hi.1, runsAt_of_failsAt _ _ _ hi.2⟩

/-- Witness of C11: on tests `A.one`, `A.two`, `B.one` with filter `A*`, where only
`A.two` fails, both counters are 1 and the failed-index list is `[1]`. -/
theorem psi_main_failed_indices_witness :
    ∃ r s2, psi_main scenarioEnv 3 scenarioArgv (freshState scenarioTests) = some (r, s2) ∧
      s2.psiStatsNumTestsFailed = 1 ∧ s2.psiStatsNumFailedTestSuites = 1 ∧
      s2.psiStatsFailedTestSuites = [1] := by
  obtain ⟨r, s2, h, h1, h2, _⟩ :=
    psi_main_failed_indices scenarioEnv 3 scenarioArgv scenarioTests scenarioAfterCmdLine
      (by decide) rfl rfl
  have hl : (psi_main scenarioEnv 3 scenarioArgv (freshState scenarioTests)).map
      (fun p => p.2.psiStatsFailedTestSuites) = some [1] := by decide
  rw [h] at hl
  simp only [Option.map_some', Option.some.injEq] at hl
  exact ⟨r, s2, h, by rw [h1, h2, hl]; rfl, by rw [h2, hl]; rfl, hl⟩

theorem castInt_of_lt (n : Nat) (h : n < 2 ^ 31) : castInt n = (n : Int) := by
  have h1 : n % 2 ^ 32 = n := Nat.mod_eq_of_lt (by omega)
  simp only [castInt, h1, h, if_true]

/-- C12: for every completed run (of a registry whose size fits an `int`), the
value `psi_main` returns is the number of run tests whose function recorded an
assertion failure, which is `psiStatsNumTestsFailed`; it is 0 exactly when no
run test failed. -/
theorem psi_main_returns_failed_count (env : Env) (fuel : Nat) (argv : List (List Char))
    (tests : List psiTestSuiteStruct) (s1 : PsiState) (hsize : tests.length < 2 ^ 31)
    (hcmd : psiCmdLineRead env fuel argv
      { freshState tests with
        psiStatsTotalTestSuites := u64 tests.length, psi_argv0_ := argv[0]? } = some (true, s1))
    (hlist : s1.psiDisplayTests = 0) :
    ∃ r s2, psi_main env fuel argv (freshState tests) = some (r, s2) ∧
      r = ((tests.filter (runsAndFails s1.cmd_filter)).length : Int) ∧
      r = (s2.psiStatsNumTestsFailed : Int) ∧
      (r = 0 ↔ ∀ t, t ∈ tests → runsAndFails s1.cmd_filter t = false) := by
  obtain ⟨r, s2, h, _, m1, m2, m3, m4⟩ :=
    psi_main_failed_spec env fuel argv tests s1 (by omega) hcmd hlist
  have hle : (tests.filter (runsAndFails s1.cmd_filter)).length ≤ tests.length :=
    List.length_filter_le _ _
  rw [length_filter_failsAt] at m2 m4
  rw [castInt_of_lt _ (by omega)] at m4
  refine ⟨r, s2, h, m4, by rw [m4, m2], ?_⟩
  rw [m4]
  constructor
  · intro h0 t ht
    have h1 : (tests.filter (runsAndFails s1.cmd_filter)).length = 0 := by exact_mod_cast h0
    have h2 := List.length_eq_zero.mp h1
    by_contra hc
    have : t ∈ tests.filter (runsAndFails s1.cmd_filter) :=
      List.mem_filter.mpr ⟨ht, by simpa using hc⟩
    rw [h2] at this
    exact absurd this (List.not_mem_nil _)
  · intro hall
    have h2 : tests.filter (runsAndFails s1.cmd_filter) = [] := by
      rw [List.filter_eq_nil_iff]
      intro t ht
      rw [hall t ht]
      decide
    rw [h2]
    rfl

/-- Witness of C12: on tests `A.one`, `A.two`, `B.one` with filter `A*`, where only
`A.two` fails, `psi_main` returns 1. -/
theorem psi_main_returns_failed_count_witness :
    ∃ s2, psi_main scenarioEnv 3 scenarioArgv (freshState scenarioTests) = some (1, s2) := by
  obtain ⟨r, s2, h, hr, _, _⟩ :=
    psi_main_returns_failed_count scenarioEnv 3 scenarioArgv scenarioTests scenarioAfterCmdLine
      (by decide) rfl rfl
  have e : ((scenarioTests.filter (runsAndFails scenarioAfterCmdLine.cmd_filter)).length : Int)
      = 1 := by decide
  rw [e] at hr
  subst hr
  exact ⟨s2, h⟩

/-- C13: (1) inside a test, a REQUIRE-family assertion whose condition is false
sets `hasCurrentTestFailed` and `shouldAbortTest` to 1 and returns from the body:
it is the last statement executed and its report the last printed, whatever
follows it; (2) in a completed run of `psi_main`, a run test whose function
holds a failed REQUIRE is in the failed-index list exactly once, and every
later registered test that the filter lets run is invoked. -/
theorem require_aborts_test_only (env : Env) (fuel : Nat) (argv : List (List Char))
    (tests : List psiTestSuiteStruct) (s1 : PsiState) (hsize : tests.length < 2 ^ 64)
    (hcmd : psiCmdLineRead env fuel argv
      { freshState tests with
        psiStatsTotalTestSuites := u64 tests.length, psi_argv0_ := argv[0]? } = some (true, s1))
    (hlist : s1.psiDisplayTests = 0) :
    (∀ (s : PsiState) (post : List Stmt), s.checkIsInsideTestSuite = 1 →
      (runStmts (.REQUIRE false :: post) s).hasCurrentTestFailed = 1 ∧
      (runStmts (.REQUIRE false :: post) s).shouldAbortTest = 1 ∧
      (runStmts (.REQUIRE false :: post) s).executed = s.executed ++ [.REQUIRE false] ∧
      (runStmts (.REQUIRE false :: post) s).stdout =
        s.stdout ++ [.location, .assertionFailed "REQUIRE"]) ∧
    (∃ r s2, psi_main env fuel argv (freshState tests) = some (r, s2) ∧
      ∀ i t, tests[i]? = some t → runs s1.cmd_filter t.name = true →
        holdsFailedRequire t.func →
        s2.psiStatsFailedTestSuites.count i = 1 ∧
        ∀ j, i < j → j < tests.length → runsAt s1.cmd_filter tests j = true →
          j ∈ s2.invoked) := by
  constructor
  · intro s post hs
    simp [runStmts, TAUCHECKREQUIRE, abortIfInsideTestSuite__, psiPrintf, printf, fprintf, hs]
  · obtain ⟨r, s2, h, ⟨n1, _⟩, m1, _⟩ :=
      psi_main_failed_spec env fuel argv tests s1 hsize hcmd hlist
    refine ⟨r, s2, h, ?_⟩
    intro i t ht hruns hreq
    have hi : i < tests.length := by
      by_contra hc
      rw [List.getElem?_eq_none (by omega)] at ht
      exact absurd ht (by simp)
    have hf : failsAt s1.cmd_filter tests i = true := by
      simp [failsAt, ht, runsAndFails, hruns, recordsFailure_of_holdsFailedRequire _ hreq]
    constructor
    · rw [m1]
      exact List.count_eq_one_of_mem ((List.nodup_range _).filter _)
        ((mem_failed_iff _ _ _).mpr ⟨hi, hf⟩)
    · intro j _ hj hrj
      rw [n1]
      exact List.mem_filter.mpr ⟨List.mem_range.mpr hj, hrj⟩

/-- Witness of C13: without a filter, on tests `A.one`, `A.two`, `B.one` where
`A.two` is `REQUIRE(false); CHECK(false)`, the index 1 is in the failed-index
list once, `B.one` is invoked, and the CHECK after the REQUIRE is not executed. -/
theorem require_aborts_test_only_witness :
    ∃ r s2, psi_main scenarioEnv 1 plainArgv (freshState scenarioTests) = some (r, s2) ∧
      s2.psiStatsFailedTestSuites.count 1 = 1 ∧ 2 ∈ s2.invoked ∧
      s2.executed = [.CHECK true, .REQUIRE false, .CHECK true] := by
  obtain ⟨r, s2, h, hall⟩ :=
    (require_aborts_test_only scenarioEnv 1 plainArgv scenarioTests scenarioAfterPlainCmdLine
      (by decide) rfl rfl).2
  obtain ⟨hc, hnext⟩ := hall 1 _ rfl (by decide) (List.mem_cons_self _ _)
  have he : (psi_main scenarioEnv 1 plainArgv (freshState scenarioTests)).map
      (fun p => p.2.executed) = some [.CHECK true, .REQUIRE false, .CHECK true] := by decide
  rw [h] at he
  simp only [Option.map_some', Option.some.injEq] at he
  exact ⟨r, s2, h, hc, hnext 2 (by decide) (by decide) (by decide), he⟩

/-- C14 (the code departs from it): the claim makes a failed CHECK never end
the test body, whatever ran before.  On the code, after a test whose REQUIRE
failed, the test `CHECK(false); CHECK(false)` stops at its first CHECK: the
second is neither executed nor reported; registered first, the same test
executes and reports both. -/
theorem check_after_failed_require_divergence :
    (psi_main scenarioEnv 1 plainArgv (freshState requireThenChecks)).map
        (fun p => (p.2.executed, p.2.stdout.count (.assertionFailed "CHECK"),
          p.2.psiStatsFailedTestSuites)) =
      some ([.REQUIRE false, .CHECK false], 1, [0, 1]) ∧
    (psi_main scenarioEnv 1 plainArgv (freshState checksThenRequire)).map
        (fun p => (p.2.executed, p.2.stdout.count (.assertionFailed "CHECK"),
          p.2.psiStatsFailedTestSuites)) =
      some ([.CHECK false, .CHECK false, .REQUIRE false], 2, [0, 1]) := by
  decide

/-! ## Claims on the assertion macros -/

/-- In the testing build the macro with its control flow is the macro the test
bodies are run with. -/
theorem TAUCHECKREQUIRE_flow_fail (cond : Bool) (m : String) (s : PsiState) :
    __TAUCHECKREQUIRE__ cond (PSI_FAIL_IF_INSIDE_TESTSUITE false) m s =
      (if (TAUCHECKREQUIRE cond failIfInsideTestSuite__ m s).2
        then .ret (TAUCHECKREQUIRE cond failIfInsideTestSuite__ m s).1
        else .next (TAUCHECKREQUIRE cond failIfInsideTestSuite__ m s).1) := by
  cases cond
  · simp only [__TAUCHECKREQUIRE__, TAUCHECKREQUIRE, failOrAbortThenReturn,
      PSI_FAIL_IF_INSIDE_TESTSUITE, Bool.not_false, if_true, Bool.false_eq_true, if_false]
    by_cases hab : (failIfInsideTestSuite__
        (printf (.assertionFailed m) (psiPrintf .location s))).shouldAbortTest ≠ 0
    · simp only [if_pos hab, if_true]
    · simp only [if_neg hab, Bool.false_eq_true, if_false]
  · rfl

theorem TAUCHECKREQUIRE_flow_abort (cond : Bool) (m : String) (s : PsiState) :
    __TAUCHECKREQUIRE__ cond (PSI_ABORT_IF_INSIDE_TESTSUITE false) m s =
      (if (TAUCHECKREQUIRE cond abortIfInsideTestSuite__ m s).2
        then .ret (TAUCHECKREQUIRE cond abortIfInsideTestSuite__ m s).1
        else .next (TAUCHECKREQUIRE cond abortIfInsideTestSuite__ m s).1) := by
  cases cond
  · simp only [__TAUCHECKREQUIRE__, TAUCHECKREQUIRE, failOrAbortThenReturn,
      PSI_ABORT_IF_INSIDE_TESTSUITE, Bool.not_false, if_true, Bool.false_eq_true, if_false]
    by_cases hab : (abortIfInsideTestSuite__
        (printf (.assertionFailed m) (psiPrintf .location s))).shouldAbortTest ≠ 0
    · simp only [if_pos hab, if_true]
    · simp only [if_neg hab, Bool.false_eq_true, if_false]
  · rfl

/-- C15 as stated fails: in the testing build, in the initial state (no test is
executing, `checkIsInsideTestSuite` is 0), a failing CHECK and a failing REQUIRE
do not terminate the process. -/
theorem assertion_outside_test_counterexample :
    initialState.checkIsInsideTestSuite = 0 ∧
    (CHECK false false initialState).terminated = false ∧
    (REQUIRE false false initialState).terminated = false := by
  decide

/-- C15 (amended): in the testing build a failing CHECK or REQUIRE evaluated
while `checkIsInsideTestSuite` is 0 does not terminate the process and records
no test failure (`hasCurrentTestFailed`, `shouldFailTest` and `shouldAbortTest`
keep their values): it only prints its report.  In a build with `PSI_NO_TESTING`
a failing CHECK or REQUIRE terminates the process. -/
theorem assertion_outside_test (s : PsiState) (h : s.checkIsInsideTestSuite = 0) :
    ((CHECK false false s).terminated = false ∧
      (CHECK false false s).state =
        printf (.assertionFailed "CHECK") (psiPrintf .location s)) ∧
    ((REQUIRE false false s).terminated = false ∧
      (REQUIRE false false s).state =
        printf (.assertionFailed "REQUIRE") (psiPrintf .location s)) ∧
    (printf (.assertionFailed "CHECK") (psiPrintf .location s)).hasCurrentTestFailed =
      s.hasCurrentTestFailed ∧
    (printf (.assertionFailed "CHECK") (psiPrintf .location s)).shouldFailTest =
      s.shouldFailTest ∧
    (printf (.assertionFailed "CHECK") (psiPrintf .location s)).shouldAbortTest =
      s.shouldAbortTest ∧
    (CHECK true false s).terminated = true ∧ (REQUIRE true false s).terminated = true := by
  have hne : ¬ ((printf (.assertionFailed "CHECK") (psiPrintf .location s)
      ).checkIsInsideTestSuite = 1) := by
    show ¬ (s.checkIsInsideTestSuite = 1)
    rw [h]; decide
  have hne2 : ¬ ((printf (.assertionFailed "REQUIRE") (psiPrintf .location s)
      ).checkIsInsideTestSuite = 1) := by
    show ¬ (s.checkIsInsideTestSuite = 1)
    rw [h]; decide
  refine ⟨?_, ?_, rfl, rfl, rfl, rfl, rfl⟩
  · simp only [CHECK, __TAUCHECKREQUIRE__, failOrAbortThenReturn, PSI_FAIL_IF_INSIDE_TESTSUITE,
      failIfInsideTestSuite__, Bool.not_false, if_true, Bool.false_eq_true, if_false, if_neg hne]
    split_ifs <;> exact ⟨rfl, rfl⟩
  · simp only [REQUIRE, __TAUCHECKREQUIRE__, failOrAbortThenReturn,
      PSI_ABORT_IF_INSIDE_TESTSUITE, abortIfInsideTestSuite__, Bool.not_false, if_true,
      Bool.false_eq_true, if_false, if_neg hne2]
    split_ifs <;> exact ⟨rfl, rfl⟩

/-- Witness of C15 (amended) in the initial state. -/
theorem assertion_outside_test_witness :
    (CHECK false false initialState).terminated = false ∧
    (CHECK false false initialState).state.hasCurrentTestFailed = 0 ∧
    (CHECK false false initialState).state.stdout = [.location, .assertionFailed "CHECK"] ∧
    (CHECK true false initialState).terminated = true := by
  have h := assertion_outside_test initialState rfl
  refine ⟨h.1.1, ?_, ?_, h.2.2.2.2.2.1⟩
  · rw [h.1.2]; rfl
  · rw [h.1.2]; rfl

/-- C16: a length-bounded substring assertion whose length argument is negative
as an `int` terminates the process after printing that `n` cannot be negative:
whatever the strings, the comparison and the build, the state it leaves has only
that message added, so no test failure is recorded; when the length is not
negative as an `int`, the assertion does not terminate the process in the
testing build. -/
theorem substr_negative_length_aborts (actual expected : List Char) (n : Int) (cond : Cmp)
    (m : String) (s : PsiState) :
    (castIntOfInt n < 0 →
      (∀ failOrAbort, __TAUCMP_STRN__ actual expected n cond m failOrAbort s =
        .exit (printf .negativeLength s)) ∧
      (printf .negativeLength s).hasCurrentTestFailed = s.hasCurrentTestFailed ∧
      (printf .negativeLength s).shouldFailTest = s.shouldFailTest ∧
      (printf .negativeLength s).shouldAbortTest = s.shouldAbortTest) ∧
    (0 ≤ castIntOfInt n →
      (∀ failOrAbort, __TAUCMP_STRN__ actual expected n cond m failOrAbort s =
        if cond.holds (strncmp actual expected (sizeOfInt n)) then
          failOrAbortThenReturn failOrAbort (psiPrintf .expectedActual
            (printf (.assertionFailed m) (psiPrintf .location s)))
        else .next s) ∧
      (__TAUCMP_STRN__ actual expected n cond m (PSI_FAIL_IF_INSIDE_TESTSUITE false) s
        ).terminated = false ∧
      (__TAUCMP_STRN__ actual expected n cond m (PSI_ABORT_IF_INSIDE_TESTSUITE false) s
        ).terminated = false) := by
  constructor
  · intro hneg
    refine ⟨?_, rfl, rfl, rfl⟩
    intro failOrAbort
    simp only [__TAUCMP_STRN__, if_pos hneg, PSI_ABORT]
  · intro hpos
    have hn : ¬ castIntOfInt n < 0 := by omega
    refine ⟨?_, ?_, ?_⟩
    · intro failOrAbort
      simp only [__TAUCMP_STRN__, if_neg hn]
    · simp only [__TAUCMP_STRN__, if_neg hn, failOrAbortThenReturn,
        PSI_FAIL_IF_INSIDE_TESTSUITE, Bool.false_eq_true, if_false]
      split_ifs <;> rfl
    · simp only [__TAUCMP_STRN__, if_neg hn, failOrAbortThenReturn,
        PSI_ABORT_IF_INSIDE_TESTSUITE, Bool.false_eq_true, if_false]
      split_ifs <;> rfl

/-- Witness of C16: inside a test `CHECK_SUBSTREQ("abc", "abd", -1)` terminates
the process with the failed flag still 0, and `CHECK_SUBSTREQ("abc", "abd", 3)`
does not terminate it (and records the failure). -/
theorem substr_negative_length_aborts_witness :
    CHECK_SUBSTREQ false "abc".toList "abd".toList (-1) insideTestState =
      .exit (printf .negativeLength insideTestState) ∧
    (printf .negativeLength insideTestState).hasCurrentTestFailed = 0 ∧
    (CHECK_SUBSTREQ false "abc".toList "abd".toList 3 insideTestState).terminated = false ∧
    (CHECK_SUBSTREQ false "abc".toList "abd".toList 3 insideTestState
      ).state.hasCurrentTestFailed = 1 :=
  ⟨((substr_negative_length_aborts "abc".toList "abd".toList (-1) .ne "CHECK_SUBSTREQ"
      insideTestState).1 (by decide)).1 _,
    rfl,
    ((substr_negative_length_aborts "abc".toList "abd".toList 3 .ne "CHECK_SUBSTREQ"
      insideTestState).2 (by decide)).2.1,
    by decide⟩

/-- C17 (the code departs from it): the claim makes a byte-buffer assertion with
a negative length terminate the process.  On the code, in the testing build, no
byte-buffer assertion terminates the process, whatever the length and whatever
`memcmp` answers; inside a test `CHECK_BUF_EQ(a, b, -1)` records an ordinary
failure when `memcmp` reports a difference, where `CHECK_SUBSTREQ` with the same
length terminates the process. -/
theorem buf_negative_length_divergence :
    (∀ memcmp actual expected (n : Int) cond m s,
      (__TAUCMP_BUF__ memcmp actual expected n cond m (PSI_FAIL_IF_INSIDE_TESTSUITE false) s
        ).terminated = false ∧
      (__TAUCMP_BUF__ memcmp actual expected n cond m (PSI_ABORT_IF_INSIDE_TESTSUITE false) s
        ).terminated = false) ∧
    (CHECK_BUF_EQ false memcmpDiffers [1] [2] (-1) insideTestState).terminated = false ∧
    (CHECK_BUF_EQ false memcmpDiffers [1] [2] (-1) insideTestState
      ).state.hasCurrentTestFailed = 1 ∧
    (CHECK_SUBSTREQ false "a".toList "b".toList (-1) insideTestState).terminated = true := by
  refine ⟨?_, by decide, by decide, by decide⟩
  intro memcmp actual expected n cond m s
  constructor
  · simp only [__TAUCMP_BUF__, failOrAbortThenReturn, PSI_FAIL_IF_INSIDE_TESTSUITE,
      Bool.false_eq_true, if_false]
    split_ifs <;> rfl
  · simp only [__TAUCMP_BUF__, failOrAbortThenReturn, PSI_ABORT_IF_INSIDE_TESTSUITE,
      Bool.false_eq_true, if_false]
    split_ifs <;> rfl

/-! ## Claims on the statistics of a run -/

/-- The names of the tests at the indices the engine records as failed are the
names of the entries that are run and fail, in registry order. -/
theorem map_name_failed (filter : Option (List Char)) (tests : List psiTestSuiteStruct) :
    ((List.range tests.length).filter (failsAt filter tests)).map
        (fun idx => (tests[idx]?).map (fun t => t.name)) =
      (tests.filter (runsAndFails filter)).map (fun t => some t.name) := by
  have h := congrArg (List.map (Option.map (fun t : psiTestSuiteStruct => t.name)))
    (filter_range_getElem? (runsAndFails filter) tests tests.length 0 (by omega))
  simp only [List.map_map, List.drop_zero] at h
  rw [List.range_eq_range']
  exact h

/-- C18: for every registry, every filter and every permutation of the
registry, the engine (skip count, then `psiRunTests`) started on the permuted
registry completes as it does on the original one, with the same
`psiStatsSkippedTests`, `psiStatsTestsRan`, `psiStatsNumTestsFailed` and
`psiStatsNumFailedTestSuites`, and the names of the tests it records as failed
are the same collection (a permutation of one another). -/
theorem runEngine_permutation (s : PsiState) (permuted : List psiTestSuiteStruct)
    (hp : permuted.Perm s.tests) (h : s.numTestSuites = s.tests.length)
    (hsk : s.psiStatsSkippedTests < 2 ^ 64)
    (hb1 : s.psiStatsNumTestsFailed + s.tests.length < 2 ^ 64)
    (hb2 : s.psiStatsNumFailedTestSuites + s.tests.length < 2 ^ 64)
    (hnone : s.psiStatsFailedTestSuites = []) :
    ∃ a b, runEngine s = some a ∧ runEngine { s with tests := permuted } = some b ∧
      b.psiStatsSkippedTests = a.psiStatsSkippedTests ∧
      b.psiStatsTestsRan = a.psiStatsTestsRan ∧
      b.psiStatsNumTestsFailed = a.psiStatsNumTestsFailed ∧
      b.psiStatsNumFailedTestSuites = a.psiStatsNumFailedTestSuites ∧
      (failedNames b).Perm (failedNames a) := by
  have hlen : permuted.length = s.tests.length := hp.length_eq
  obtain ⟨a, ea, a1, a2, a3, a4, a5, a6, a7, a8, a9, a10⟩ := runEngine_spec s h hsk hb1 hb2
  obtain ⟨b, eb, b1, b2, b3, b4, b5, b6, b7, b8, b9, b10⟩ :=
    runEngine_spec { s with tests := permuted } (h.trans hlen.symm) hsk
      (by rw [hlen]; exact hb1) (by rw [hlen]; exact hb2)
  simp only [] at b1 b2 b3 b4 b5 b6 b7 b8 b9 b10
  have hskip : (permuted.filter (fun t => skips s.cmd_filter t.name)).length =
      (s.tests.filter (fun t => skips s.cmd_filter t.name)).length :=
    (hp.filter _).length_eq
  have hfail : ((List.range permuted.length).filter (failsAt s.cmd_filter permuted)).length =
      ((List.range s.tests.length).filter (failsAt s.cmd_filter s.tests)).length := by
    rw [length_filter_failsAt, length_filter_failsAt]
    exact (hp.filter _).length_eq
  have hs : b.psiStatsSkippedTests = a.psiStatsSkippedTests := by rw [b6, a6, hskip]
  refine ⟨a, b, ea, eb, hs, ?_, ?_, ?_, ?_⟩
  · rw [b7, a7, hs]
  · rw [b9, a9, hfail]
  · rw [b10, a10, hfail]
  · unfold failedNames
    rw [b8, a8, b1, a1, hnone, List.nil_append, List.nil_append, map_name_failed,
      map_name_failed]
    exact (hp.filter _).map _

/-- Witness of C18 on the scenario, with the registry in the order `B.one`,
`A.two`, `A.one`. -/
theorem runEngine_permutation_witness :
    scenarioTestsPermuted.Perm scenarioAfterCmdLine.tests ∧
    ∃ a b, runEngine scenarioAfterCmdLine = some a ∧
      runEngine { scenarioAfterCmdLine with tests := scenarioTestsPermuted } = some b ∧
      b.psiStatsSkippedTests = a.psiStatsSkippedTests ∧
      b.psiStatsTestsRan = a.psiStatsTestsRan ∧
      b.psiStatsNumTestsFailed = a.psiStatsNumTestsFailed ∧
      b.psiStatsNumFailedTestSuites = a.psiStatsNumFailedTestSuites ∧
      (failedNames b).Perm (failedNames a) :=
  ⟨by decide,
    runEngine_permutation scenarioAfterCmdLine scenarioTestsPermuted (by decide) (by decide)
      (by decide) (by decide) (by decide) (by decide)⟩

/-- C19 as stated fails: on the scenario (filter `A*`, one test skipped, one
failing) the first run of the engine leaves 1 skipped, 2 run, 1 failed and the
failed-index list `[1]`; a second run on the state the first one left leaves
2 skipped, 1 run, 2 failed and the list `[1, 1]`. -/
theorem runEngine_twice_counterexample :
    (runEngine scenarioAfterCmdLine).map runStatistics = some (1, 2, 1, 1, [1]) ∧
    ((runEngine scenarioAfterCmdLine).bind runEngine).map runStatistics =
      some (2, 1, 2, 2, [1, 1]) :=
  ⟨rfl, rfl⟩

/-- C19 (amended): running the engine twice in succession over the same
registry with the same filter calls the same test functions in the second run
as in the first, and the second run adds to `psiStatsSkippedTests`,
`psiStatsNumTestsFailed`, `psiStatsNumFailedTestSuites` and to the failed-index
list what the first run added: the counters are never reset.
`psiStatsTestsRan` is each time the total minus the skipped count accumulated
so far. -/
theorem runEngine_twice (s : PsiState) (h : s.numTestSuites = s.tests.length)
    (hsk : s.psiStatsSkippedTests + 2 * s.tests.length < 2 ^ 64)
    (hb1 : s.psiStatsNumTestsFailed + 2 * s.tests.length < 2 ^ 64)
    (hb2 : s.psiStatsNumFailedTestSuites + 2 * s.tests.length < 2 ^ 64) :
    ∃ a b, runEngine s = some a ∧ runEngine a = some b ∧
      a.invoked = s.invoked ++ (List.range s.tests.length).filter (runsAt s.cmd_filter s.tests) ∧
      b.invoked = a.invoked ++ (List.range s.tests.length).filter (runsAt s.cmd_filter s.tests) ∧
      a.psiStatsSkippedTests = s.psiStatsSkippedTests +
        (s.tests.filter (fun t => skips s.cmd_filter t.name)).length ∧
      b.psiStatsSkippedTests = a.psiStatsSkippedTests +
        (s.tests.filter (fun t => skips s.cmd_filter t.name)).length ∧
      a.psiStatsTestsRan = subU64 s.psiStatsTotalTestSuites a.psiStatsSkippedTests ∧
      b.psiStatsTestsRan = subU64 s.psiStatsTotalTestSuites b.psiStatsSkippedTests ∧
      a.psiStatsNumTestsFailed = s.psiStatsNumTestsFailed +
        (s.tests.filter (runsAndFails s.cmd_filter)).length ∧
      b.psiStatsNumTestsFailed = a.psiStatsNumTestsFailed +
        (s.tests.filter (runsAndFails s.cmd_filter)).length ∧
      a.psiStatsNumFailedTestSuites = s.psiStatsNumFailedTestSuites +
        (s.tests.filter (runsAndFails s.cmd_filter)).length ∧
      b.psiStatsNumFailedTestSuites = a.psiStatsNumFailedTestSuites +
        (s.tests.filter (runsAndFails s.cmd_filter)).length ∧
      a.psiStatsFailedTestSuites = s.psiStatsFailedTestSuites ++
        (List.range s.tests.length).filter (failsAt s.cmd_filter s.tests) ∧
      b.psiStatsFailedTestSuites = a.psiStatsFailedTestSuites ++
        (List.range s.tests.length).filter (failsAt s.cmd_filter s.tests) := by
  have hk : (s.tests.filter (fun t => skips s.cmd_filter t.name)).length ≤ s.tests.length :=
    List.length_filter_le _ _
  have hf : (s.tests.filter (runsAndFails s.cmd_filter)).length ≤ s.tests.length :=
    List.length_filter_le _ _
  obtain ⟨a, ea, a1, a2, a3, a4, a5, a6, a7, a8, a9, a10⟩ :=
    runEngine_spec s h (by omega) (by omega) (by omega)
  rw [length_filter_failsAt] at a9 a10
  have a6n : a.psiStatsSkippedTests = s.psiStatsSkippedTests +
      (s.tests.filter (fun t => skips s.cmd_filter t.name)).length := by
    rw [a6]
    unfold u64
    exact Nat.mod_eq_of_lt (by omega)
  obtain ⟨b, eb, b1, b2, b3, b4, b5, b6, b7, b8, b9, b10⟩ :=
    runEngine_spec a (by rw [a1, a2, h]) (by rw [a6n]; omega) (by rw [a9, a1]; omega)
      (by rw [a10, a1]; omega)
  rw [a1, a3] at b5 b6 b8 b9 b10
  rw [length_filter_failsAt] at b9 b10
  have b6n : b.psiStatsSkippedTests = a.psiStatsSkippedTests +
      (s.tests.filter (fun t => skips s.cmd_filter t.name)).length := by
    rw [b6]
    unfold u64
    exact Nat.mod_eq_of_lt (by rw [a6n]; omega)
  rw [a4] at b7
  exact ⟨a, b, ea, eb, a5, b5, a6n, b6n, a7, b7, a9, b9, a10, b10, a8, b8⟩

/-- Witness of C19 (amended) on the scenario. -/
theorem runEngine_twice_witness :
    ∃ a b, runEngine scenarioAfterCmdLine = some a ∧ runEngine a = some b ∧
      a.invoked = [0, 1] ∧ b.invoked = [0, 1, 0, 1] ∧
      a.psiStatsSkippedTests = 1 ∧ b.psiStatsSkippedTests = 2 ∧
      a.psiStatsNumTestsFailed = 1 ∧ b.psiStatsNumTestsFailed = 2 ∧
      a.psiStatsFailedTestSuites = [1] ∧ b.psiStatsFailedTestSuites = [1, 1] := by
  obtain ⟨a, b, ea, eb, i1, i2, k1, k2, -, -, f1, f2, -, -, l1, l2⟩ :=
    runEngine_twice scenarioAfterCmdLine (by decide) (by decide) (by decide) (by decide)
  have hrun : (List.range scenarioAfterCmdLine.tests.length).filter
      (runsAt scenarioAfterCmdLine.cmd_filter scenarioAfterCmdLine.tests) = [0, 1] := by decide
  have hskip : (scenarioAfterCmdLine.tests.filter
      (fun t => skips scenarioAfterCmdLine.cmd_filter t.name)).length = 1 := by decide
  have hfail : (scenarioAfterCmdLine.tests.filter
      (runsAndFails scenarioAfterCmdLine.cmd_filter)).length = 1 := by decide
  have hidx : (List.range scenarioAfterCmdLine.tests.length).filter
      (failsAt scenarioAfterCmdLine.cmd_filter scenarioAfterCmdLine.tests) = [1] := by decide
  rw [hrun] at i1 i2
  rw [hskip] at k1 k2
  rw [hfail] at f1 f2
  rw [hidx] at l1 l2
  refine ⟨a, b, ea, eb, ?_, ?_, ?_, ?_, ?_, ?_, ?_, ?_⟩
  · rw [i1]; rfl
  · rw [i2, i1]; rfl
  · rw [k1]; rfl
  · rw [k2, k1]; rfl
  · rw [f1]; rfl
  · rw [f2, f1]; rfl
  · rw [l1]; rfl
  · rw [l2, l1]; rfl

/-! ## Claims on the registration -/

theorem reallocTests_of_length (tests : List psiTestSuiteStruct) (d : psiTestSuiteStruct) :
    reallocTests tests (tests.length + 1) d = tests ++ [d] := by
  unfold reallocTests
  rw [List.take_of_length_le (by omega)]
  have h1 : tests.length + 1 - tests.length = 1 := by omega
  rw [h1]
  rfl

/-- One registration in a registry whose count is the number of its entries
appends the entry. -/
theorem psi_register_spec (func : psi_testsuite_t) (name : List Char) (s : PsiState)
    (h : s.numTestSuites = s.tests.length) (hb : s.numTestSuites + 1 < 2 ^ 64) :
    (psi_register func name s).tests = s.tests ++ [registered func name] ∧
    (psi_register func name s).numTestSuites = s.numTestSuites + 1 := by
  have hu : u64 (s.numTestSuites + 1) = s.tests.length + 1 := by
    unfold u64
    rw [Nat.mod_eq_of_lt hb, h]
  unfold psi_register
  simp only [hu]
  constructor
  · rw [reallocTests_of_length, h]
    simp [registered]
  · rw [h]

/-- A sequence of registrations in a registry whose count is the number of its
entries appends the entries in order. -/
theorem foldl_psi_register (regs : List (psi_testsuite_t × List Char)) :
    ∀ s : PsiState, s.numTestSuites = s.tests.length →
      s.numTestSuites + regs.length < 2 ^ 64 →
      (regs.foldl (fun st r => psi_register r.1 r.2 st) s).tests =
        s.tests ++ regs.map (fun r => registered r.1 r.2) ∧
      (regs.foldl (fun st r => psi_register r.1 r.2 st) s).numTestSuites =
        s.numTestSuites + regs.length := by
  induction regs with
  | nil => intro s _ _; simp
  | cons r regs ih =>
    intro s h hb
    simp only [List.length_cons] at hb
    obtain ⟨e1, e2⟩ := psi_register_spec r.1 r.2 s h (by omega)
    obtain ⟨i1, i2⟩ := ih (psi_register r.1 r.2 s)
      (by rw [e1, e2, h, List.length_append]; rfl) (by rw [e2]; omega)
    rw [List.foldl_cons, i1, i2, e1, e2]
    simp only [List.map_cons, List.length_cons, List.append_assoc, List.singleton_append,
      true_and]
    omega

/-- C20: `TEST(Suite, Case)` and `TEST_F(Fixture, Name)` are a registration of
the test function under the name `Suite.Case`.  In a registry whose
`numTestSuites` is the number of its entries (and below the limit of the
64-bit counter) a registration stores that entry at the index equal to the
previous `numTestSuites`, increases `numTestSuites` by one and leaves every
earlier entry unchanged at its index, whatever the names already registered;
hence after any sequence of registrations from the initial state
`numTestSuites` is the number of stored entries and the entries are in
registration order. -/
theorem psi_register_appends (func : psi_testsuite_t) (name : List Char) (s : PsiState)
    (h : s.numTestSuites = s.tests.length) (hb : s.numTestSuites + 1 < 2 ^ 64) :
    (∀ suite case body st, TEST suite case body st =
      psi_register (.test body) (suite ++ ['.'] ++ case) st) ∧
    (∀ fixtureName testName setup run teardown st,
      TEST_F fixtureName testName setup run teardown st =
        psi_register (.fixture setup run teardown) (fixtureName ++ ['.'] ++ testName) st) ∧
    (psi_register func name s).tests[s.numTestSuites]? = some (registered func name) ∧
    (registered func name).func = func ∧ (registered func name).name = name ∧
    (psi_register func name s).numTestSuites = s.numTestSuites + 1 ∧
    (∀ i, i < s.numTestSuites → (psi_register func name s).tests[i]? = s.tests[i]?) ∧
    (psi_register func name s).tests = s.tests ++ [registered func name] ∧
    (psi_register func name s).numTestSuites = (psi_register func name s).tests.length ∧
    (∀ regs : List (psi_testsuite_t × List Char), regs.length < 2 ^ 64 →
      (regs.foldl (fun st r => psi_register r.1 r.2 st) initialState).tests =
        regs.map (fun r => registered r.1 r.2) ∧
      (regs.foldl (fun st r => psi_register r.1 r.2 st) initialState).numTestSuites =
        regs.length) := by
  obtain ⟨e1, e2⟩ := psi_register_spec func name s h hb
  refine ⟨fun _ _ _ _ => rfl, fun _ _ _ _ _ _ => rfl, ?_, rfl, rfl, e2, ?_, e1, ?_, ?_⟩
  · rw [e1, h]
    simp
  · intro i hi
    rw [e1, List.getElem?_append_left (by omega)]
  · rw [e1, e2, h, List.length_append]
    rfl
  · intro regs hlen
    obtain ⟨i1, i2⟩ := foldl_psi_register regs initialState rfl
      (by show 0 + regs.length < 2 ^ 64; omega)
    refine ⟨?_, ?_⟩
    · rw [i1]; rfl
    · rw [i2]; exact Nat.zero_add _

/-- Witness of C20: registering `A.one` a second time in the registry that holds
`A.one` stores the new entry at index 1 and keeps the first at index 0. -/
theorem psi_register_appends_witness :
    (TEST "A".toList "one".toList [.CHECK false]
      (TEST "A".toList "one".toList [.CHECK true] initialState)).tests =
      [registered (.test [.CHECK true]) "A.one".toList,
        registered (.test [.CHECK false]) "A.one".toList] ∧
    (TEST "A".toList "one".toList [.CHECK false]
      (TEST "A".toList "one".toList [.CHECK true] initialState)).numTestSuites = 2 :=
  ⟨(psi_register_appends (.test [.CHECK false]) "A.one".toList
      (TEST "A".toList "one".toList [.CHECK true] initialState)
      (by decide) (by decide)).2.2.2.2.2.2.2.1,
    (psi_register_appends (.test [.CHECK false]) "A.one".toList
      (TEST "A".toList "one".toList [.CHECK true] initialState)
      (by decide) (by decide)).2.2.2.2.2.1⟩

/-! ## Claims on the command line -/

theorem u64_of_lt {n : Nat} (h : n < 2 ^ 64) : u64 n = n := Nat.mod_eq_of_lt h

/-- The `--list` loop prints the names of the entries it walks over, in order. -/
theorem listTests_spec :
    ∀ k i s, i + k ≤ s.tests.length →
      ∃ s1, listTests k i s = some s1 ∧
        s1.stdout = s.stdout ++ ((s.tests.drop i).take k).map (fun t => Out.listedName t.name) ∧
        cmdLineView s1 = cmdLineView s := by
  intro k
  induction k with
  | zero => intro i s _; exact ⟨s, rfl, by simp, rfl⟩
  | succ k ih =>
    intro i s h
    have hi : i < s.tests.length := by omega
    have ht : s.tests[i]? = some (s.tests[i]) := List.getElem?_eq_getElem hi
    have hdrop : s.tests.drop i = s.tests[i] :: s.tests.drop (i + 1) :=
      List.drop_eq_getElem_cons hi
    obtain ⟨s1, e, p, v⟩ := ih (i + 1) (psiPrintf (.listedName (s.tests[i]).name) s)
      (by show i + 1 + k ≤ s.tests.length; omega)
    refine ⟨s1, ?_, ?_, ?_⟩
    · simp only [listTests, ht]
      exact e
    · rw [p]
      show (s.stdout ++ [Out.listedName (s.tests[i]).name]) ++
          ((s.tests.drop (i + 1)).take k).map (fun t => Out.listedName t.name) =
        s.stdout ++ ((s.tests.drop i).take (k + 1)).map (fun t => Out.listedName t.name)
      rw [hdrop, List.take_succ_cons, List.map_cons, List.append_assoc]
      rfl
    · rw [v]
      simp [cmdLineView, psiPrintf, printf, fprintf, testcaseNames_append_other]

/-- With at least one registered test the argument loop on `prog --list` lists
the tests and returns: the index the `--list` branch leaves is past the
arguments. -/
theorem psiCmdLineReadLoop_list (env : Env) (fuel : Nat) (s : PsiState)
    (hn : s.numTestSuites = s.tests.length) (h0 : 0 < s.tests.length)
    (hb : s.tests.length + 1 < 2 ^ 64) :
    ∃ s1, listTests s.numTestSuites 0 s = some s1 ∧
      psiCmdLineReadLoop env listArgv (fuel + 2) 1 s =
        some (true, { s1 with psiDisplayTests := 1 }) := by
  obtain ⟨s1, e, _, _⟩ := listTests_spec s.numTestSuites 0 s (by omega)
  refine ⟨s1, e, ?_⟩
  have ha : listArgv[1]? = some "--list".toList := rfl
  have hb2 : listArgv[u64 (s.numTestSuites + 1)]? = none := by
    rw [u64_of_lt (by omega)]
    exact List.getElem?_eq_none (by show 2 ≤ s.numTestSuites + 1; omega)
  rw [psiCmdLineReadLoop]
  simp only [ha]
  rw [if_neg (by decide), if_neg (by decide), if_neg (by decide), if_neg (by decide),
    if_pos (by decide), e]
  simp only []
  rw [psiCmdLineReadLoop]
  simp only [hb2]

/-- C21: for every registry with at least one test, `psi_main` on the command
line `prog --list` completes and returns 0; what it prints is the registered
names in registration order, one line each (as many lines as registered tests),
and it calls no test function and executes no statement of a test body. -/
theorem psi_main_list (env : Env) (fuel : Nat) (tests : List psiTestSuiteStruct)
    (hne : 0 < tests.length) (hsize : tests.length + 1 < 2 ^ 64) :
    ∃ s2, psi_main env (fuel + 2) listArgv (freshState tests) = some (0, s2) ∧
      s2.stdout = tests.map (fun t => Out.listedName t.name) ∧
      s2.stdout.length = tests.length ∧
      s2.invoked = [] ∧ s2.executed = [] := by
  obtain ⟨s1, e, hloop⟩ := psiCmdLineReadLoop_list env fuel
    { freshState tests with
      psiStatsTotalTestSuites := u64 (freshState tests).numTestSuites
      psi_argv0_ := listArgv[0]?
      psiShouldColourizeOutput := env.isatty } rfl hne hsize
  obtain ⟨s3, e3, p, v⟩ := listTests_spec tests.length 0
    { freshState tests with
      psiStatsTotalTestSuites := u64 (freshState tests).numTestSuites
      psi_argv0_ := listArgv[0]?
      psiShouldColourizeOutput := env.isatty } (by show 0 + tests.length ≤ tests.length; omega)
  have hs : s3 = s1 := Option.some.inj (e3.symm.trans e)
  subst hs
  simp only [cmdLineView, Prod.mk.injEq] at v
  obtain ⟨v1, v2, v3, v4, v5, v6, v7, v8, v9, v10, v11, v12, v13, v14, v15, v16, v17⟩ := v
  have hout : s3.stdout = tests.map (fun t => Out.listedName t.name) := by
    rw [p]
    show [] ++ ((tests.drop 0).take tests.length).map _ = _
    simp
  refine ⟨{ s3 with psiDisplayTests := 1 }, ?_, hout, ?_, ?_, ?_⟩
  · unfold psi_main psiCmdLineRead
    simp only []
    rw [hloop]
    simp only [ne_eq, one_ne_zero, not_false_eq_true, if_true, psiCleanup]
    rw [v12]
    rfl
  · show s3.stdout.length = tests.length
    rw [hout, List.length_map]
  · show s3.invoked = []
    rw [v3]; rfl
  · show s3.executed = []
    rw [v4]; rfl

/-- Witness of C21: with the three tests of the scenario registered, `--list`
prints exactly the three names in registration order. -/
theorem psi_main_list_witness :
    ∃ s2, psi_main scenarioEnv 2 listArgv (freshState scenarioTests) = some (0, s2) ∧
      s2.stdout = [.listedName "A.one".toList, .listedName "A.two".toList,
        .listedName "B.one".toList] ∧
      s2.stdout.length = 3 ∧ s2.invoked = [] ∧ s2.executed = [] :=
  psi_main_list scenarioEnv 0 scenarioTests (by decide) (by decide)

/-- C22 (the code departs from it): the claim makes an argument that begins
with `--no-summary` succeed and set `psiDisableSummary`.  On the code every
argument that begins with `--no-summary` is reported as unrecognized and
`psiCmdLineRead` returns false with `psiDisableSummary` still 0; `psi_main` on
`prog --no-summary` then calls no test.  (With the recognized option
`--no-color` alone the tests run and `psiDisableSummary` stays 0.) -/
theorem psiCmdLineRead_no_summary_divergence :
    (∀ (env : Env) (fuel : Nat) (x : List Char) (s : PsiState),
      psiCmdLineRead env (fuel + 1) ["prog".toList, "--no-summary".toList ++ x] s =
        some (false, printf (.unrecognized ("--no-summary".toList ++ x))
          { s with psiShouldColourizeOutput := env.isatty })) ∧
    (psi_main scenarioEnv 2 ["prog".toList, "--no-summary".toList]
        (freshState scenarioTests)).map
      (fun p => (p.1, p.2.invoked, p.2.psiDisableSummary, p.2.stdout)) =
        some (0, [], 0, [.unrecognized "--no-summary".toList]) ∧
    (psi_main scenarioEnv 2 ["prog".toList, "--no-color".toList]
        (freshState scenarioTests)).map
      (fun p => (p.2.invoked, p.2.psiDisableSummary)) = some ([0, 1, 2], 0) :=
  ⟨fun _ _ _ _ => rfl, rfl, rfl⟩

theorem strlen_of_isCStr {P : List Char} (hP : IsCStr P) : strlen P = P.length := by
  unfold strlen
  rw [List.takeWhile_eq_self_iff.mpr]
  intro c hc
  simp only [ne_eq, decide_eq_true_eq]
  intro e
  exact hP (e ▸ hc)

theorem toNat_sub_ne_zero {a b : Char} (h : a ≠ b) :
    ((a.toNat : Int) - (b.toNat : Int)) ≠ 0 := by
  intro e
  apply h
  have : a.toNat = b.toNat := by omega
  rw [← Char.ofNat_toNat a, ← Char.ofNat_toNat b, this]

/-- The call `strncmp(a, P, strlen(P))` gives 0 exactly when `a` begins with `P`. -/
theorem strncmp_eq_zero_iff (P : List Char) (hP : IsCStr P) :
    ∀ a, strncmp a P P.length = 0 ↔ P <+: a := by
  induction P with
  | nil => intro a; simp [strncmp]
  | cons p ps ih =>
    intro a
    have hp : p ≠ PSI_NULLCHAR := fun e => hP (e ▸ List.mem_cons_self _ _)
    have hps : IsCStr ps := fun h => hP (List.mem_cons_of_mem _ h)
    simp only [List.length_cons, strncmp, List.headD_cons, List.tail_cons]
    cases a with
    | nil =>
      simp only [List.headD_nil]
      rw [if_pos (fun e => hp e.symm)]
      constructor
      · intro h; exact absurd h (toNat_sub_ne_zero (fun e => hp e.symm))
      · intro h; simp at h
    | cons c cs =>
      simp only [List.headD_cons, List.tail_cons]
      by_cases hcp : c ≠ p
      · rw [if_pos hcp]
        constructor
        · intro h; exact absurd h (toNat_sub_ne_zero hcp)
        · intro h
          rw [List.cons_prefix_cons] at h
          exact absurd h.1.symm hcp
      · have e : c = p := not_not.mp hcp
        rw [if_neg hcp, if_neg (by rw [e]; exact hp), ih hps cs, List.cons_prefix_cons]
        simp [e]

/-- On the command line `prog arg` with an argument that begins with none of
the seven option strings, `psiCmdLineRead` sets `psiDisableSummary` and
succeeds. -/
theorem psiCmdLineRead_other_argument (env : Env) (fuel : Nat) (arg : List Char)
    (s : PsiState)
    (h1 : ¬ "--help".toList <+: arg) (h2 : ¬ "--failed-output-only".toList <+: arg)
    (h3 : ¬ "--filter=".toList <+: arg) (h4 : ¬ "--output=".toList <+: arg)
    (h5 : ¬ "--list".toList <+: arg) (h6 : ¬ "--no-color".toList <+: arg)
    (h7 : ¬ "--no-summary".toList <+: arg) :
    psiCmdLineRead env (fuel + 2) ["prog".toList, arg] s =
      some (true, { s with psiShouldColourizeOutput := env.isatty, psiDisableSummary := 1 }) := by
  have key : ∀ P : List Char, IsCStr P → ¬ P <+: arg → strncmp arg P (strlen P) ≠ 0 := by
    intro P hP hn h
    rw [strlen_of_isCStr hP] at h
    exact hn ((strncmp_eq_zero_iff P hP arg).mp h)
  have e1 := key _ (by decide) h1
  have e2 := key _ (by decide) h2
  have e3 := key _ (by decide) h3
  have e4 := key _ (by decide) h4
  have e5 := key _ (by decide) h5
  have e6 := key _ (by decide) h6
  have e7 := key _ (by decide) h7
  have ha : ["prog".toList, arg][1]? = some arg := rfl
  have hb : ["prog".toList, arg][u64 (1 + 1)]? = none := rfl
  unfold psiCmdLineRead
  rw [psiCmdLineReadLoop]
  simp only [ha, if_neg e1, if_neg e2, if_neg e3, if_neg e4, if_neg e5, if_neg e6, if_pos e7]
  rw [psiCmdLineReadLoop]
  simp only [hb]

/-- C23 (the code departs from it): the claim makes an argument that begins
with none of the seven option strings an error.  On the code, on the command
line `prog arg` with such an argument, `psiCmdLineRead` prints nothing, sets
`psiDisableSummary` to 1 and returns true, and `psi_main` goes on to run the
engine on every registry. -/
theorem psiCmdLineRead_unrecognized_divergence (env : Env) (fuel : Nat) (arg : List Char)
    (h1 : ¬ "--help".toList <+: arg) (h2 : ¬ "--failed-output-only".toList <+: arg)
    (h3 : ¬ "--filter=".toList <+: arg) (h4 : ¬ "--output=".toList <+: arg)
    (h5 : ¬ "--list".toList <+: arg) (h6 : ¬ "--no-color".toList <+: arg)
    (h7 : ¬ "--no-summary".toList <+: arg) :
    (∀ s, psiCmdLineRead env (fuel + 2) ["prog".toList, arg] s =
      some (true,
        { s with psiShouldColourizeOutput := env.isatty, psiDisableSummary := 1 })) ∧
    (∀ tests, psi_main env (fuel + 2) ["prog".toList, arg] (freshState tests) =
      (runEngine { beforeCmdLine tests with
          psiShouldColourizeOutput := env.isatty, psiDisableSummary := 1 }).map
        (fun s6 => psiCleanup (printReport s6))) := by
  refine ⟨fun s => psiCmdLineRead_other_argument env fuel arg s h1 h2 h3 h4 h5 h6 h7, ?_⟩
  intro tests
  exact psi_main_of_cmdLine env (fuel + 2) ["prog".toList, arg] (freshState tests) _
    (psiCmdLineRead_other_argument env fuel arg _ h1 h2 h3 h4 h5 h6 h7) rfl

/-- Witness of C23: on `prog --bogus` with the registry of the scenario
`psiCmdLineRead` returns true, no error is printed and all three tests are
called. -/
theorem psiCmdLineRead_unrecognized_divergence_witness :
    psiCmdLineRead scenarioEnv 2 ["prog".toList, "--bogus".toList]
        (beforeCmdLine scenarioTests) =
      some (true, { beforeCmdLine scenarioTests with
        psiShouldColourizeOutput := 0, psiDisableSummary := 1 }) ∧
    (psi_main scenarioEnv 2 ["prog".toList, "--bogus".toList]
        (freshState scenarioTests)).map
      (fun p => (p.2.invoked, p.2.stdout.count (.unrecognized "--bogus".toList))) =
        some ([0, 1, 2], 0) :=
  ⟨(psiCmdLineRead_unrecognized_divergence scenarioEnv 0 "--bogus".toList (by decide)
      (by decide) (by decide) (by decide) (by decide) (by decide) (by decide)).1 _,
    rfl⟩

/-! ## Claims on the flags of the engine -/

/-- The state of `psiRunTestsCallState` is the state the iteration hands to the
test function. -/
theorem psiRunTestsIter_of_callState (i : Nat) (s c : PsiState) (t : psiTestSuiteStruct)
    (ht : s.tests[i]? = some t) (hc : psiRunTestsCallState i s = some c) :
    ∃ s1, psiRunTestsIter i s = some s1 ∧
      s1.executed = (callFunc t.func c).executed ∧
      s1.shouldAbortTest = (callFunc t.func c).shouldAbortTest ∧
      s1.hasCurrentTestFailed = (callFunc t.func c).hasCurrentTestFailed := by
  unfold psiRunTestsCallState at hc
  unfold psiRunTestsIter
  simp only [ht] at hc ⊢
  cases hf : psiShouldFilterTest s.cmd_filter t.name with
  | none => rw [hf] at hc; exact absurd hc (by simp)
  | some r =>
    rw [hf] at hc
    simp only [] at hc ⊢
    by_cases hr : r ≠ 0
    · rw [if_pos hr] at hc; exact absurd hc (by simp)
    · rw [if_neg hr] at hc ⊢
      simp only [Option.some.injEq] at hc
      rw [hc]
      split_ifs <;> exact ⟨_, rfl, rfl, rfl, rfl⟩

/-- At every call of a test function `checkIsInsideTestSuite` is 1,
`hasCurrentTestFailed` is 0 and `shouldAbortTest` is what it was before the
iteration. -/
theorem psiRunTestsCallState_flags (i : Nat) (s : PsiState) :
    (psiRunTestsCallState i s).map
        (fun c => (c.checkIsInsideTestSuite, c.hasCurrentTestFailed, c.shouldAbortTest)) =
      (psiRunTestsCallState i s).map (fun _ => (1, 0, s.shouldAbortTest)) := by
  unfold psiRunTestsCallState
  simp only []
  cases s.tests[i]? with
  | none => rfl
  | some t =>
    simp only []
    cases psiShouldFilterTest s.cmd_filter t.name with
    | none => rfl
    | some r =>
      simp only []
      split_ifs <;> rfl

/-- C24 (the code departs from it): the claim makes both flags 0 whenever a
test function is called.  On the code `hasCurrentTestFailed` is 0 at every
call, but `shouldAbortTest` has the value the previous tests left: after the
test `A.req`, whose REQUIRE failed, the next test is called with
`shouldAbortTest = 1`. -/
theorem psiRunTests_call_flags_divergence :
    (∀ (i : Nat) (s : PsiState),
      (psiRunTestsCallState i s).map (fun c => (c.hasCurrentTestFailed, c.shouldAbortTest)) =
        (psiRunTestsCallState i s).map (fun _ => (0, s.shouldAbortTest))) ∧
    ((psiRunTestsIter 0 (beforeCmdLine requireThenChecks)).bind
        (psiRunTestsCallState 1)).map
      (fun c => (c.invoked, c.hasCurrentTestFailed, c.shouldAbortTest)) =
        some ([0, 1], 0, 1) := by
  refine ⟨?_, rfl⟩
  intro i s
  have h := congrArg (Option.map (fun p : Int × Int × Int => p.2)) (psiRunTestsCallState_flags i s)
  simpa [Option.map_map, Function.comp] using h

/-- C25 (the code departs from it): the claim makes `shouldAbortTest = 1` imply
`hasCurrentTestFailed = 1` in every state of a run.  On the code, in the run of
the scenario without filter, the test `B.one` that follows the failed REQUIRE
of `A.two` is called with `shouldAbortTest = 1` and `hasCurrentTestFailed = 0`,
and the run ends in such a state.  (The converse does fail, as claimed: after a
failed CHECK the flags are 0 and 1.) -/
theorem abort_implies_failed_divergence :
    (psi_main scenarioEnv 1 plainArgv (freshState scenarioTests)).map
      (fun p => (p.2.invoked, p.2.shouldAbortTest, p.2.hasCurrentTestFailed)) =
        some ([0, 1, 2], 1, 0) ∧
    ((psiRunTestsLoop 2 0 (beforeCmdLine scenarioTests)).bind (psiRunTestsCallState 2)).map
      (fun c => (c.shouldAbortTest, c.hasCurrentTestFailed)) = some (1, 0) ∧
    ((runStmts [.CHECK false] insideTestState).shouldAbortTest,
      (runStmts [.CHECK false] insideTestState).hasCurrentTestFailed) = (0, 1) :=
  ⟨rfl, rfl, rfl⟩

/-- Every iteration of `psiRunTests`, skipping or not, ends with
`checkIsInsideTestSuite` equal to 1. -/
theorem psiRunTestsIter_checkIsInsideTestSuite (i : Nat) (s : PsiState) :
    (psiRunTestsIter i s).map (fun s1 => s1.checkIsInsideTestSuite) =
      (psiRunTestsIter i s).map (fun _ => 1) := by
  cases h : psiRunTestsIter i s with
  | none => rfl
  | some s1 =>
    simp only [Option.map_some', Option.some.injEq]
    cases ht : s.tests[i]? with
    | none => simp [psiRunTestsIter, ht] at h
    | some t =>
      obtain ⟨s2, e, p, _⟩ := psiRunTestsIter_failed i s t ht
      rw [h] at e
      rw [Option.some.inj e]
      exact p

/-- C26 (the code departs from it): the claim makes `checkIsInsideTestSuite` 1
only while a test body executes.  On the code it is 0 at start-up, every
iteration of `psiRunTests` sets it to 1 before the filter is consulted and
nothing sets it back: it is 1 after the iteration that skips the filtered-out
`B.one`, after `psiRunTests` has returned and when `psi_main` returns. -/
theorem checkIsInsideTestSuite_divergence :
    initialState.checkIsInsideTestSuite = 0 ∧
    (∀ (i : Nat) (s : PsiState),
      (psiRunTestsIter i s).map (fun s1 => s1.checkIsInsideTestSuite) =
        (psiRunTestsIter i s).map (fun _ => 1)) ∧
    (psiRunTestsIter 2 scenarioAfterCmdLine).map
      (fun s1 => (s1.invoked, s1.checkIsInsideTestSuite)) = some ([], 1) ∧
    (psiRunTests scenarioAfterCmdLine).map
      (fun s1 => (s1.invoked, s1.checkIsInsideTestSuite)) = some ([0, 1], 1) ∧
    (psi_main scenarioEnv 3 scenarioArgv (freshState scenarioTests)).map
      (fun p => p.2.checkIsInsideTestSuite) = some 1 :=
  ⟨rfl, psiRunTestsIter_checkIsInsideTestSuite, rfl, rfl, rfl⟩

/-! ## Further claims on the filter matcher -/

theorem charAt_eq_null_iff {s : List Char} (hs : IsCStr s) {i : Nat} :
    charAt s i = PSI_NULLCHAR ↔ s.length ≤ i := by
  constructor
  · intro h
    by_contra hc
    exact charAt_ne_of_isCStr hs (Nat.lt_of_not_le hc) h
  · exact charAt_of_le

theorem take_succ_eq_of_charAt {P N : List Char} {k : Nat} (hP : k < P.length)
    (hN : k < N.length) (ht : P.take k = N.take k) (hc : charAt N k = charAt P k) :
    P.take (k + 1) = N.take (k + 1) := by
  rw [take_succ_charAt P k hP, take_succ_charAt N k hN, ht, hc]

theorem not_prefix_of_charAt_ne {P N : List Char} {k : Nat} (hP : k < P.length)
    (hN : k < N.length) (hc : charAt N k ≠ charAt P k) : ¬ P <+: N := by
  rintro ⟨R, rfl⟩
  apply hc
  rw [charAt_append_left hP]

/-- The outer loop on a pattern without wildcard, from a position up to which
pattern and name agree. -/
theorem outerLoop_literal (P N : List Char) (hP : IsCStr P) (hN : IsCStr N)
    (hstar : '*' ∉ P) :
    ∀ fuel k, k ≤ P.length → k ≤ N.length → P.take k = N.take k →
      (P.length - k) + (N.length - k) < fuel →
      (P <+: N ∧ P.length < N.length → outerLoop P N fuel k k = some 0) ∧
      (¬ (P <+: N ∧ P.length < N.length) → outerLoop P N fuel k k = some 1) := by
  intro fuel
  induction fuel with
  | zero => intro k _ _ _ h; omega
  | succ n ih =>
    intro k hkP hkN ht hfuel
    unfold outerLoop
    by_cases hc : charAt P k ≠ PSI_NULLCHAR ∧ charAt N k ≠ PSI_NULLCHAR
    · have hfc : k < P.length := lt_of_charAt_ne hc.1
      have htc : k < N.length := lt_of_charAt_ne hc.2
      rw [if_pos hc, if_neg (charAt_ne_star hstar hfc)]
      by_cases hm : charAt N k ≠ charAt P k
      · rw [if_pos hm]
        exact ⟨fun h => absurd h.1 (not_prefix_of_charAt_ne hfc htc hm), fun _ => rfl⟩
      · rw [if_neg hm]
        exact ih (k + 1) (by omega) (by omega)
          (take_succ_eq_of_charAt hfc htc ht (not_not.mp hm)) (by omega)
    · rw [if_neg hc]
      by_cases hPk : k < P.length
      · have h1 : charAt P k ≠ PSI_NULLCHAR := charAt_ne_of_isCStr hP hPk
        rw [if_pos (Or.inl h1)]
        have hNk : N.length = k := by
          have : ¬ charAt N k ≠ PSI_NULLCHAR := fun h => hc ⟨h1, h⟩
          have := (charAt_eq_null_iff hN).mp (not_not.mp this)
          omega
        exact ⟨fun h => by omega, fun _ => rfl⟩
      · have hk : k = P.length := by omega
        have h1 : ¬ charAt P k ≠ PSI_NULLCHAR := by
          rw [not_not]; exact charAt_of_le (by omega)
        have hpre : P <+: N := by
          rw [List.prefix_iff_eq_take, ← hk, ← ht, hk, List.take_length]
        by_cases hNk : k < N.length
        · have h2 : ¬ charAt N k = PSI_NULLCHAR := charAt_ne_of_isCStr hN hNk
          rw [if_neg]
          · exact ⟨fun _ => rfl, fun h => absurd ⟨hpre, by omega⟩ h⟩
          · rintro (h | ⟨h, _⟩)
            · exact h1 h
            · exact h2 h
        · have h2 : charAt N k = PSI_NULLCHAR := charAt_of_le (by omega)
          have h3 : k = 0 ∨ charAt P (k - 1) ≠ '*' := by
            by_cases h0 : k = 0
            · exact Or.inl h0
            · exact Or.inr (charAt_ne_star hstar (by omega))
          rw [if_pos (Or.inr ⟨h2, h3⟩)]
          exact ⟨fun h => by omega, fun _ => rfl⟩

/-- C27: for every pattern `P` without `*` and every name `N`,
`psiShouldFilterTest(P, N)` returns 0 exactly when `P` is a proper prefix of `N`
(`N` starts with `P` and is strictly longer), and 1 in every other case, equal
strings and the empty name included. -/
theorem psiShouldFilterTest_literal (P N : List Char) (hP : IsCStr P) (hN : IsCStr N)
    (hstar : '*' ∉ P) :
    (psiShouldFilterTest (some P) N = some 0 ↔ (P <+: N ∧ P.length < N.length)) ∧
    (¬ (P <+: N ∧ P.length < N.length) → psiShouldFilterTest (some P) N = some 1) := by
  obtain ⟨h0, h1⟩ := outerLoop_literal P N hP hN hstar (P.length + N.length + 1) 0
    (Nat.zero_le _) (Nat.zero_le _) rfl (by omega)
  refine ⟨⟨?_, h0⟩, h1⟩
  intro h
  by_contra hc
  have := h1 hc
  unfold psiShouldFilterTest at h
  simp only [] at h
  rw [h] at this
  exact absurd this (by decide)

/-- Witness of C27: `Suite` gives 0 on `Suite.Case`; `Suite.Case` gives 1 on
itself; `Suite` gives 1 on the empty name. -/
theorem psiShouldFilterTest_literal_witness :
    psiShouldFilterTest (some "Suite".toList) "Suite.Case".toList = some 0 ∧
    psiShouldFilterTest (some "Suite.Case".toList) "Suite.Case".toList = some 1 ∧
    psiShouldFilterTest (some "Suite".toList) "".toList = some 1 :=
  ⟨(psiShouldFilterTest_literal "Suite".toList "Suite.Case".toList (by decide) (by decide)
      (by decide)).1.mpr (by decide),
    (psiShouldFilterTest_literal "Suite.Case".toList "Suite.Case".toList (by decide) (by decide)
      (by decide)).2 (by decide),
    (psiShouldFilterTest_literal "Suite".toList "".toList (by decide) (by decide)
      (by decide)).2 (by decide)⟩

/-! ### Termination -/

/-- More fuel does not change a result of the outer loop. -/
theorem outerLoop_succ (filter testcase : List Char) :
    ∀ fuel fc tc r, outerLoop filter testcase fuel fc tc = some r →
      outerLoop filter testcase (fuel + 1) fc tc = some r := by
  intro fuel
  induction fuel with
  | zero => intro fc tc r h; simp [outerLoop] at h
  | succ n ih =>
    intro fc tc r h
    unfold outerLoop at h ⊢
    by_cases hc : charAt filter fc ≠ PSI_NULLCHAR ∧ charAt testcase tc ≠ PSI_NULLCHAR
    · rw [if_pos hc] at h ⊢
      by_cases hs : charAt filter fc = '*'
      · rw [if_pos hs] at h ⊢
        cases hi : innerLoop filter testcase fc (testcase.length + 1) (fc + 1) tc with
        | none => rw [hi] at h; exact absurd h (by simp)
        | some p =>
          obtain ⟨a, b⟩ := p
          rw [hi] at h
          simp only [] at h ⊢
          by_cases hz : charAt filter a = PSI_NULLCHAR ∧ charAt testcase b = PSI_NULLCHAR
          · rw [if_pos hz] at h ⊢; exact h
          · rw [if_neg hz] at h ⊢
            by_cases hz2 : charAt testcase b = PSI_NULLCHAR
            · rw [if_pos hz2] at h ⊢; exact h
            · rw [if_neg hz2] at h ⊢; exact ih _ _ _ h
      · rw [if_neg hs] at h ⊢
        by_cases hm : charAt testcase tc ≠ charAt filter fc
        · rw [if_pos hm] at h ⊢; exact h
        · rw [if_neg hm] at h ⊢; exact ih _ _ _ h
    · rw [if_neg hc] at h ⊢; exact h

theorem outerLoop_add (filter testcase : List Char) (fuel fc tc : Nat) (r : Int)
    (h : outerLoop filter testcase fuel fc tc = some r) :
    ∀ k, outerLoop filter testcase (fuel + k) fc tc = some r := by
  intro k
  induction k with
  | zero => exact h
  | succ k ih => exact outerLoop_succ filter testcase (fuel + k) fc tc r ih

/-- C28: `psiShouldFilterTest` terminates on every pattern and name.  The inner
loop returns within `|N| - testcase_curr + 1` iterations (the name cursor moves
forward at every iteration, also when the pattern cursor is reset to the
wildcard), leaving the pattern cursor past the wildcard and the name cursor not
before where it was; the outer loop returns within
`(|P| - filter_curr) + (|N| - testcase_curr) + 1` iterations, and more fuel
does not change its result; so the function returns a result that no larger
bound on the iterations changes. -/
theorem psiShouldFilterTest_terminates (P N : List Char) :
    (∀ wildcard fuel fc tc, N.length - tc < fuel → wildcard < fc →
      ∃ fc1 tc1, innerLoop P N wildcard fuel fc tc = some (fc1, tc1) ∧
        wildcard < fc1 ∧ tc ≤ tc1) ∧
    (∀ fuel fc tc, (P.length - fc) + (N.length - tc) < fuel →
      ∃ r, ∀ k, outerLoop P N (fuel + k) fc tc = some r) ∧
    (∃ r, psiShouldFilterTest (some P) N = some r ∧
      ∀ fuel, P.length + N.length < fuel → outerLoop P N fuel 0 0 = some r) := by
  refine ⟨fun w => innerLoop_total P N w, ?_, ?_⟩
  · intro fuel fc tc h
    obtain ⟨r, hr, _⟩ := outerLoop_total P N fuel fc tc h
    exact ⟨r, outerLoop_add P N fuel fc tc r hr⟩
  · obtain ⟨r, hr, _⟩ := psiShouldFilterTest_total (some P) N
    refine ⟨r, hr, ?_⟩
    intro fuel hf
    unfold psiShouldFilterTest at hr
    simp only [] at hr
    have := outerLoop_add P N _ 0 0 r hr (fuel - (P.length + N.length + 1))
    have e : P.length + N.length + 1 + (fuel - (P.length + N.length + 1)) = fuel := by omega
    rw [e] at this
    exact this

/-- Witness of C28 on the pattern `*ab*` and the name `aab`. -/
theorem psiShouldFilterTest_terminates_witness :
    (∃ fc1 tc1, innerLoop "*ab*".toList "aab".toList 0 4 1 0 = some (fc1, tc1) ∧
      0 < fc1 ∧ 0 ≤ tc1) ∧
    (∃ r, ∀ k, outerLoop "*ab*".toList "aab".toList (8 + k) 0 0 = some r) ∧
    (∃ r, psiShouldFilterTest (some "*ab*".toList) "aab".toList = some r ∧
      outerLoop "*ab*".toList "aab".toList 100 0 0 = some r) :=
  ⟨(psiShouldFilterTest_terminates "*ab*".toList "aab".toList).1 0 4 1 0 (by decide)
      (by decide),
    (psiShouldFilterTest_terminates "*ab*".toList "aab".toList).2.1 8 0 0 (by decide),
    (psiShouldFilterTest_terminates "*ab*".toList "aab".toList).2.2.imp
      (fun _ h => ⟨h.1, h.2 100 (by decide)⟩)⟩

/-! ### Reads stay inside the strings -/

theorem deref_of_le {s : List Char} {i : Nat} (h : i ≤ s.length) :
    deref s i = some (charAt s i) := by
  unfold deref
  rw [if_pos h]

theorem innerLoop_bounds (filter testcase : List Char) (wildcard : Nat)
    (hw : wildcard < filter.length) :
    ∀ fuel fc tc fc1 tc1, fc ≤ filter.length → tc ≤ testcase.length →
      innerLoop filter testcase wildcard fuel fc tc = some (fc1, tc1) →
      fc1 ≤ filter.length ∧ tc1 ≤ testcase.length := by
  intro fuel
  induction fuel with
  | zero => intro fc tc fc1 tc1 _ _ h; simp [innerLoop] at h
  | succ n ih =>
    intro fc tc fc1 tc1 hf ht h
    unfold innerLoop at h
    by_cases hc : charAt filter fc ≠ PSI_NULLCHAR ∧ charAt testcase tc ≠ PSI_NULLCHAR
    · have hfc : fc < filter.length := lt_of_charAt_ne hc.1
      have htc : tc < testcase.length := lt_of_charAt_ne hc.2
      rw [if_pos hc] at h
      by_cases hs : charAt filter fc = '*'
      · rw [if_pos hs] at h
        simp only [Option.some.injEq, Prod.mk.injEq] at h
        omega
      · rw [if_neg hs] at h
        by_cases hm : charAt filter fc ≠ charAt testcase tc
        · rw [if_pos hm] at h
          exact ih _ _ _ _ (by omega) (by omega) h
        · rw [if_neg hm] at h
          exact ih _ _ _ _ (by omega) (by omega) h
    · rw [if_neg hc] at h
      simp only [Option.some.injEq, Prod.mk.injEq] at h
      omega

theorem innerLoopChecked_eq (filter testcase : List Char) (wildcard : Nat)
    (hw : wildcard < filter.length) :
    ∀ fuel fc tc, fc ≤ filter.length → tc ≤ testcase.length →
      innerLoopChecked filter testcase wildcard fuel fc tc =
        (innerLoop filter testcase wildcard fuel fc tc).map some := by
  intro fuel
  induction fuel with
  | zero => intro fc tc _ _; rfl
  | succ n ih =>
    intro fc tc hf ht
    unfold innerLoopChecked innerLoop
    rw [deref_of_le hf, deref_of_le ht]
    simp only []
    by_cases hc : charAt filter fc ≠ PSI_NULLCHAR ∧ charAt testcase tc ≠ PSI_NULLCHAR
    · have hfc : fc < filter.length := lt_of_charAt_ne hc.1
      have htc : tc < testcase.length := lt_of_charAt_ne hc.2
      rw [if_pos hc, if_pos hc]
      by_cases hs : charAt filter fc = '*'
      · rw [if_pos hs, if_pos hs]; rfl
      · rw [if_neg hs, if_neg hs]
        by_cases hm : charAt filter fc ≠ charAt testcase tc
        · rw [if_pos hm, if_pos hm]
          exact ih _ _ (by omega) (by omega)
        · rw [if_neg hm, if_neg hm]
          exact ih _ _ (by omega) (by omega)
    · rw [if_neg hc, if_neg hc]; rfl

theorem finalTestChecked_eq (filter testcase : List Char) (fc tc : Nat)
    (hf : fc ≤ filter.length) (ht : tc ≤ testcase.length) :
    finalTestChecked filter testcase fc tc =
      (if charAt filter fc ≠ PSI_NULLCHAR ∨
          (charAt testcase tc = PSI_NULLCHAR ∧
            (fc = 0 ∨ charAt filter (fc - 1) ≠ '*')) then some 1
        else some 0) := by
  unfold finalTestChecked
  rw [deref_of_le hf]
  simp only []
  by_cases h1 : charAt filter fc ≠ PSI_NULLCHAR
  · rw [if_pos h1, if_pos (Or.inl h1)]
  · rw [if_neg h1, deref_of_le ht]
    simp only []
    by_cases h2 : charAt testcase tc = PSI_NULLCHAR
    · rw [if_pos h2]
      by_cases h3 : fc = 0
      · rw [if_pos h3, if_pos (Or.inr ⟨h2, Or.inl h3⟩)]
      · rw [if_neg h3]
        have hb : derefBefore filter fc = some (charAt filter (fc - 1)) := by
          unfold derefBefore
          rw [if_pos (by omega), deref_of_le (by omega)]
        rw [hb]
        simp only []
        by_cases h4 : charAt filter (fc - 1) ≠ '*'
        · rw [if_pos h4, if_pos (Or.inr ⟨h2, Or.inr h4⟩)]
        · rw [if_neg h4, if_neg]
          rintro (h | ⟨_, h | h⟩)
          · exact h1 h
          · exact h3 h
          · exact h4 h
    · rw [if_neg h2, if_neg]
      rintro (h | ⟨h, _⟩)
      · exact h1 h
      · exact h2 h

theorem outerLoopChecked_eq (filter testcase : List Char) :
    ∀ fuel fc tc, fc ≤ filter.length → tc ≤ testcase.length →
      outerLoopChecked filter testcase fuel fc tc =
        (outerLoop filter testcase fuel fc tc).map some := by
  intro fuel
  induction fuel with
  | zero => intro fc tc _ _; rfl
  | succ n ih =>
    intro fc tc hf ht
    unfold outerLoopChecked outerLoop
    rw [deref_of_le hf, deref_of_le ht]
    simp only []
    by_cases hc : charAt filter fc ≠ PSI_NULLCHAR ∧ charAt testcase tc ≠ PSI_NULLCHAR
    · have hfc : fc < filter.length := lt_of_charAt_ne hc.1
      have htc : tc < testcase.length := lt_of_charAt_ne hc.2
      rw [if_pos hc, if_pos hc]
      by_cases hs : charAt filter fc = '*'
      · rw [if_pos hs, if_pos hs,
          innerLoopChecked_eq filter testcase fc hfc _ _ _ (by omega) (by omega)]
        cases hi : innerLoop filter testcase fc (testcase.length + 1) (fc + 1) tc with
        | none => rfl
        | some p =>
          obtain ⟨a, b⟩ := p
          obtain ⟨ha, hb⟩ := innerLoop_bounds filter testcase fc hfc _ _ _ _ _ (by omega)
            (by omega) hi
          simp only [Option.map_some']
          rw [deref_of_le ha, deref_of_le hb]
          simp only []
          by_cases hz : charAt filter a = PSI_NULLCHAR ∧ charAt testcase b = PSI_NULLCHAR
          · rw [if_pos hz, if_pos hz]; rfl
          · rw [if_neg hz, if_neg hz]
            by_cases hz2 : charAt testcase b = PSI_NULLCHAR
            · rw [if_pos hz2, if_pos hz2]; rfl
            · rw [if_neg hz2, if_neg hz2]
              exact ih _ _ ha hb
      · rw [if_neg hs, if_neg hs]
        by_cases hm : charAt testcase tc ≠ charAt filter fc
        · rw [if_pos hm, if_pos hm]; rfl
        · rw [if_neg hm, if_neg hm]
          exact ih _ _ (by omega) (by omega)
    · rw [if_neg hc, if_neg hc, finalTestChecked_eq filter testcase fc tc hf ht]
      split_ifs <;> rfl

/-- C30: on every pattern `P` and name `N` the matcher in which every read is
checked (a pattern read must be at a position in `[0, |P|]`, a name read at a
position in `[0, |N|]`, and `filter_curr[-1]` needs the pattern cursor strictly
past the start) meets no read outside the strings, and returns what
`psiShouldFilterTest` returns. -/
theorem psiShouldFilterTest_reads_in_bounds (P N : List Char) :
    ∃ r, psiShouldFilterTestChecked (some P) N = some (some r) ∧
      psiShouldFilterTest (some P) N = some r ∧ (r = 0 ∨ r = 1) := by
  obtain ⟨r, hr, h01⟩ := psiShouldFilterTest_total (some P) N
  refine ⟨r, ?_, hr, h01⟩
  unfold psiShouldFilterTestChecked
  unfold psiShouldFilterTest at hr
  simp only [] at hr ⊢
  rw [outerLoopChecked_eq P N _ 0 0 (Nat.zero_le _) (Nat.zero_le _), hr]
  rfl

/-! ## Termination of the command line reader -/

/-- With no test registered the `--list` branch leaves the loop index at 1, the
index of `--list` itself: the loop never ends. -/
theorem psiCmdLineReadLoop_list_empty (env : Env) :
    ∀ fuel s, s.numTestSuites = 0 → psiCmdLineReadLoop env listArgv fuel 1 s = none := by
  intro fuel
  induction fuel with
  | zero => intro s _; rfl
  | succ n ih =>
    intro s h
    have ha : listArgv[1]? = some "--list".toList := rfl
    rw [psiCmdLineReadLoop]
    simp only [ha]
    rw [if_neg (by decide), if_neg (by decide), if_neg (by decide), if_neg (by decide),
      if_pos (by decide), h]
    exact ih _ h

/-- With one test registered and `--list` as second argument the `--list`
branch leaves the loop index at 2, the index of `--list` itself. -/
theorem psiCmdLineReadLoop_list_again (env : Env) (t : psiTestSuiteStruct) :
    ∀ fuel s, s.numTestSuites = 1 → s.tests = [t] →
      psiCmdLineReadLoop env ["prog".toList, "--no-color".toList, "--list".toList] fuel 2 s =
        none := by
  intro fuel
  induction fuel with
  | zero => intro s _ _; rfl
  | succ n ih =>
    intro s h ht
    have ha : ["prog".toList, "--no-color".toList, "--list".toList][2]? =
      some "--list".toList := rfl
    have hl : listTests 1 0 s = some (psiPrintf (.listedName t.name) s) := by
      simp only [listTests, ht, List.getElem?_cons_zero]
    rw [psiCmdLineReadLoop]
    simp only [ha]
    rw [if_neg (by decide), if_neg (by decide), if_neg (by decide), if_neg (by decide),
      if_pos (by decide), h, hl]
    exact ih _ h ht

/-- C29 (the code departs from it): the claim makes `psiCmdLineRead` terminate
and process each argument at most once, also with `--list`.  On the code the
`--list` branch reuses the loop variable `i`, which leaves it at the number of
registered tests: on `prog --list` with no test registered, and on
`prog --no-color --list` with one test registered, `psiCmdLineRead` processes
`--list` again and again and does not return, whatever the fuel; `psi_main`
then does not return either. -/
theorem psiCmdLineRead_list_never_returns :
    (∀ (env : Env) (fuel : Nat), psiCmdLineRead env fuel listArgv (beforeCmdLine []) = none) ∧
    (∀ (env : Env) (fuel : Nat),
      psiCmdLineRead env fuel ["prog".toList, "--no-color".toList, "--list".toList]
        (beforeCmdLine singleTest) = none) ∧
    (∀ (env : Env) (fuel : Nat), psi_main env fuel listArgv (freshState []) = none) := by
  refine ⟨?_, ?_, ?_⟩
  · intro env fuel
    exact psiCmdLineReadLoop_list_empty env fuel _ rfl
  · intro env fuel
    unfold psiCmdLineRead
    cases fuel with
    | zero => rfl
    | succ n =>
      have ha : ["prog".toList, "--no-color".toList, "--list".toList][1]? =
        some "--no-color".toList := rfl
      rw [psiCmdLineReadLoop]
      simp only [ha]
      rw [if_neg (by decide), if_neg (by decide), if_neg (by decide), if_neg (by decide),
        if_neg (by decide), if_pos (by decide)]
      exact psiCmdLineReadLoop_list_again env _ n _ rfl rfl
  · intro env fuel
    unfold psi_main psiCmdLineRead
    simp only []
    rw [psiCmdLineReadLoop_list_empty env fuel _ rfl]

end Psi
